import Mathlib

/-!
# TPP File Converter: conversion orchestration engine

A shallow embedding of `src/converter.js` (class `FileConverter`) and of the
`convert-files` handler of `src/main.js`.

* JavaScript strings are Lean strings; every string routine below works on the
  list of characters so that it evaluates by plain reduction.
* The Node.js `path` module and `String.prototype.toLowerCase` are library code,
  not repository code.  The program is embedded over an arbitrary `NodeLib`;
  `posixPath` embeds the posix algorithms of Node's `lib/path.js`
  (`win32Extname` and `win32Basename` the win32 ones) and is used wherever a
  concrete evaluation is needed.
* Asynchronous methods run sequentially (every call is awaited), so a method is
  a function from the state before the call to an outcome and the state after.
  A thrown `Error` is represented by its `message`.
* Everything outside the process (settings file, file system, clock, child
  processes, pdf-lib) is an oracle of `Env` that may depend on the whole history
  of effects so far; every effect is appended, with its outcome, to the log.
-/

namespace TPP

/-! ## JavaScript string helpers -/

/-- `String.prototype.toLowerCase` restricted to ASCII: `A`..`Z` are lower-cased, every
other character is kept.  It agrees with JavaScript on every ASCII string; the program
itself is embedded over an arbitrary `toLowerCase` (a field of `NodeLib`). -/
def toLowerCase (s : String) : String :=
  String.mk (s.data.map Char.toLower)

/-- White space and line terminators removed by `String.prototype.trim`. -/
def isJsWhiteSpace (c : Char) : Bool :=
  c.toNat = 0x09 || c.toNat = 0x0A || c.toNat = 0x0B || c.toNat = 0x0C || c.toNat = 0x0D ||
  c.toNat = 0x20 || c.toNat = 0xA0 || c.toNat = 0x1680 ||
  (0x2000 ≤ c.toNat && c.toNat ≤ 0x200A) ||
  c.toNat = 0x2028 || c.toNat = 0x2029 || c.toNat = 0x202F || c.toNat = 0x205F ||
  c.toNat = 0x3000 || c.toNat = 0xFEFF

/-- `String.prototype.trim`. -/
def trim (s : String) : String :=
  String.mk ((s.data.dropWhile isJsWhiteSpace).reverse.dropWhile isJsWhiteSpace).reverse

/-- `String.prototype.slice(start, end)` for `0 ≤ start`, `0 ≤ end`. -/
def slice (cs : List Char) (start stop : Nat) : List Char :=
  (cs.take stop).drop start

/-- `str.replace(/\\/g, rep)`: every backslash is replaced by `rep`. -/
def replaceBackslash (rep : List Char) : List Char → List Char
  | [] => []
  | c :: cs => (if c = '\\' then rep else [c]) ++ replaceBackslash rep cs

/-! ## JavaScript numbers

The numbers of the image layout are IEEE 754 binary64 values.  A finite one is held as an
exact fraction, and each arithmetic operation rounds the exact result to the nearest value
with a 53-bit significand, ties to even.  The exponent range is not bounded: the layout of
a bitmap (sides between `1` and `2 ^ 31`) stays far from overflow and underflow. -/

/-- A finite JavaScript number, held as the exact fraction `num / den` (`den > 0`, lowest
terms). -/
structure JsNumber where
  num : Int
  den : Nat
  deriving DecidableEq

instance (n : Nat) : OfNat JsNumber n := ⟨⟨n, 1⟩⟩

/-- The rational value of a number. -/
def JsNumber.toRat (a : JsNumber) : ℚ := (a.num : ℚ) / (a.den : ℚ)

/-- The integer `n` as a number (exact below `2 ^ 53`). -/
def JsNumber.ofNat (n : Nat) : JsNumber := ⟨n, 1⟩

/-- A positive number (with a positive denominator). -/
def JsNumber.Pos (a : JsNumber) : Prop := 0 < a.num ∧ 0 < a.den

/-- The comparison `a < b`. -/
def JsNumber.lt (a b : JsNumber) : Bool := decide (a.num * b.den < b.num * a.den)

/-- Quotient of `n` by `d` rounded to the nearest integer, ties to the even one. -/
def roundNearestEven (n d : Nat) : Nat :=
  let q := n / d
  let r := n % d
  if 2 * r < d then q else if d < 2 * r then q + 1 else if q % 2 = 0 then q else q + 1

/-- Position of the leading binary digit of `n` (`0` for `n < 2`); `fuel` bounds the
number of halvings. -/
def log2Fuel : Nat → Nat → Nat
  | 0, _ => 0
  | fuel + 1, n => if 2 ≤ n then log2Fuel fuel (n / 2) + 1 else 0

/-- The exponent `e` with `2 ^ e ≤ n / d < 2 ^ (e + 1)`, for `n, d > 0`. -/
def binaryExponent (n d : Nat) : Int :=
  let e0 : Int := (log2Fuel n n : Int) - (log2Fuel d d : Int)
  if d * 2 ^ e0.toNat ≤ n * 2 ^ (-e0).toNat then e0 else e0 - 1

/-- Round the exact value `num / den` to binary64: the significand is scaled into
`[2 ^ 52, 2 ^ 53)` and rounded to the nearest integer, ties to even. -/
def roundToDouble (num : Int) (den : Nat) : JsNumber :=
  if num = 0 then ⟨0, 1⟩ else
    let n := num.natAbs
    let k : Int := 52 - binaryExponent n den
    let m := roundNearestEven (n * 2 ^ k.toNat) (den * 2 ^ (-k).toNat)
    let top := m * 2 ^ (-k).toNat
    let bottom := 2 ^ k.toNat
    let g := Nat.gcd top bottom
    ⟨(if num < 0 then -1 else 1) * ((top / g : Nat) : Int), bottom / g⟩

/-- The operator `a / b`, for a divisor other than zero. -/
def jsDiv (a b : JsNumber) : JsNumber :=
  roundToDouble (a.num * b.den * b.num.sign) (a.den * b.num.natAbs)

/-- The operator `a * b`. -/
def jsMul (a b : JsNumber) : JsNumber := roundToDouble (a.num * b.num) (a.den * b.den)

/-- The operator `a - b`. -/
def jsSub (a b : JsNumber) : JsNumber :=
  roundToDouble (a.num * b.den - b.num * a.den) (a.den * b.den)

/-- `Math.min(a, b)`. -/
def mathMin (a b : JsNumber) : JsNumber := if b.lt a then b else a

/-! ## The Node.js `path` module -/

/-- The library functions the program calls on paths: `path.extname`, `path.basename`
(`basename p none` is `path.basename(p)`, `basename p (some ext)` is
`path.basename(p, ext)`), `path.join` (its segments given as a list) and
`String.prototype.toLowerCase`. -/
structure NodeLib where
  extname : String → String
  basename : String → Option String → String
  join : List String → String
  toLowerCase : String → String

/-- `isPosixPathSeparator`. -/
def isPosixPathSeparator (c : Char) : Bool := c = '/'

/-- `isPathSeparator` (win32): forward slash or backslash. -/
def isPathSeparator (c : Char) : Bool := c = '/' || c = '\\'

/-- `isWindowsDeviceRoot`: an ASCII letter. -/
def isWindowsDeviceRoot (c : Char) : Bool :=
  (65 ≤ c.toNat && c.toNat ≤ 90) || (97 ≤ c.toNat && c.toNat ≤ 122)

/-- Start index used by the win32 routines: 2 after a drive-letter prefix. -/
def win32Start (path : List Char) : Nat :=
  if 2 ≤ path.length ∧ path.getD 1 ' ' = ':' ∧ isWindowsDeviceRoot (path.getD 0 ' ') = true
  then 2 else 0

/-- Loop variables of `extname`. -/
structure ExtScan where
  startDot : Int
  startPart : Int
  endIdx : Int
  matchedSlash : Bool
  preDotState : Int
  deriving DecidableEq

/-- The backwards loop of `extname`: `extnameLoop isSep path start n st` runs the
iterations `i = start + n - 1, ..., start` (stopping early at `break`). -/
def extnameLoop (isSep : Char → Bool) (path : List Char) (start : Nat) :
    Nat → ExtScan → ExtScan
  | 0, st => st
  | k + 1, st =>
    let i := start + k
    let code := path.getD i ' '
    if isSep code then
      if !st.matchedSlash then { st with startPart := (i : Int) + 1 }
      else extnameLoop isSep path start k st
    else
      let st1 := if st.endIdx = -1 then { st with matchedSlash := false, endIdx := (i : Int) + 1 }
                 else st
      let st2 :=
        if code = '.' then
          if st1.startDot = -1 then { st1 with startDot := (i : Int) }
          else if st1.preDotState ≠ 1 then { st1 with preDotState := 1 }
          else st1
        else if st1.startDot ≠ -1 then { st1 with preDotState := -1 }
        else st1
      extnameLoop isSep path start k st2

/-- Body of `path.extname` shared by the posix and win32 variants. -/
def extnameWith (isSep : Char → Bool) (start : Nat) (path : List Char) : List Char :=
  let st := extnameLoop isSep path start (path.length - start)
    { startDot := -1, startPart := (start : Int), endIdx := -1, matchedSlash := true,
      preDotState := 0 }
  if st.startDot = -1 ∨ st.endIdx = -1 ∨ st.preDotState = 0 ∨
      (st.preDotState = 1 ∧ st.startDot = st.endIdx - 1 ∧ st.startDot = st.startPart + 1)
  then []
  else slice path st.startDot.toNat st.endIdx.toNat

/-- Loop variables of `basename` when a suffix is given. -/
structure BaseScan where
  start : Int
  endIdx : Int
  matchedSlash : Bool
  extIdx : Int
  firstNonSlashEnd : Int
  deriving DecidableEq

/-- The backwards loop of `basename(path, suffix)`. -/
def basenameSuffixLoop (isSep : Char → Bool) (path suffix : List Char) (start : Nat) :
    Nat → BaseScan → BaseScan
  | 0, st => st
  | k + 1, st =>
    let i := start + k
    let code := path.getD i ' '
    if isSep code then
      if !st.matchedSlash then { st with start := (i : Int) + 1 }
      else basenameSuffixLoop isSep path suffix start k st
    else
      let st1 := if st.firstNonSlashEnd = -1
                 then { st with matchedSlash := false, firstNonSlashEnd := (i : Int) + 1 }
                 else st
      let st2 :=
        if 0 ≤ st1.extIdx then
          if code = suffix.getD st1.extIdx.toNat ' ' then
            if st1.extIdx - 1 = -1 then { st1 with extIdx := -1, endIdx := (i : Int) }
            else { st1 with extIdx := st1.extIdx - 1 }
          else { st1 with extIdx := -1, endIdx := st1.firstNonSlashEnd }
        else st1
      basenameSuffixLoop isSep path suffix start k st2

/-- The backwards loop of `basename(path)`; the state is `(start, end, matchedSlash)`. -/
def basenameLoop (isSep : Char → Bool) (path : List Char) (start : Nat) :
    Nat → Int × Int × Bool → Int × Int × Bool
  | 0, st => st
  | k + 1, (s, e, matchedSlash) =>
    let i := start + k
    if isSep (path.getD i ' ') then
      if !matchedSlash then ((i : Int) + 1, e, matchedSlash)
      else basenameLoop isSep path start k (s, e, matchedSlash)
    else if e = -1 then basenameLoop isSep path start k (s, (i : Int) + 1, false)
    else basenameLoop isSep path start k (s, e, matchedSlash)

/-- Body of `path.basename` shared by the posix and win32 variants. -/
def basenameWith (isSep : Char → Bool) (start : Nat) (path : List Char)
    (suffix : Option (List Char)) : List Char :=
  match suffix with
  | some suf =>
    if 0 < suf.length ∧ suf.length ≤ path.length then
      if suf = path then []
      else
        let st := basenameSuffixLoop isSep path suf start (path.length - start)
          { start := (start : Int), endIdx := -1, matchedSlash := true,
            extIdx := (suf.length : Int) - 1, firstNonSlashEnd := -1 }
        let e := if st.start = st.endIdx then st.firstNonSlashEnd
                 else if st.endIdx = -1 then (path.length : Int)
                 else st.endIdx
        slice path st.start.toNat e.toNat
    else
      let st := basenameLoop isSep path start (path.length - start) ((start : Int), -1, true)
      if st.2.1 = -1 then [] else slice path st.1.toNat st.2.1.toNat
  | none =>
    let st := basenameLoop isSep path start (path.length - start) ((start : Int), -1, true)
    if st.2.1 = -1 then [] else slice path st.1.toNat st.2.1.toNat

/-- `String.prototype.lastIndexOf(c)` for a one-character needle; `-1` when absent. -/
def lastIndexOf (c : Char) (l : List Char) : Int :=
  let k := l.reverse.indexOf c
  if k < l.length then (l.length : Int) - 1 - (k : Int) else -1

/-- Loop variables of `normalizeString`. -/
structure NormState where
  res : List Char
  lastSegmentLength : Int
  lastSlash : Int
  dots : Int
  code : Char
  deriving DecidableEq

/-- The loop of `normalizeString(path, allowAboveRoot, separator, isPathSeparator)`:
`normalizeLoop .. fuel i st` runs the iterations `i, i + 1, ...` (at most `fuel` of them). -/
def normalizeLoop (sep : Char) (isSep : Char → Bool) (path : List Char) (allowAboveRoot : Bool) :
    Nat → Nat → NormState → List Char
  | 0, _, st => st.res
  | fuel + 1, i, st =>
    if i < path.length ∨ isSep st.code = false then
      let code := if i < path.length then path.getD i ' ' else '/'
      let res := st.res
      if isSep code then
        if st.lastSlash = (i : Int) - 1 ∨ st.dots = 1 then
          normalizeLoop sep isSep path allowAboveRoot fuel (i + 1)
            { st with code := code, lastSlash := (i : Int), dots := 0 }
        else if st.dots = 2 then
          let above : NormState :=
            if allowAboveRoot then
              { st with code := code, lastSlash := (i : Int), dots := 0,
                        res := if 0 < res.length then res ++ (sep :: ['.', '.']) else ['.', '.'],
                        lastSegmentLength := 2 }
            else { st with code := code, lastSlash := (i : Int), dots := 0 }
          if res.length < 2 ∨ st.lastSegmentLength ≠ 2 ∨
              res.getD (res.length - 1) ' ' ≠ '.' ∨ res.getD (res.length - 2) ' ' ≠ '.' then
            if 2 < res.length then
              let lastSlashIndex := lastIndexOf sep res
              if lastSlashIndex = -1 then
                normalizeLoop sep isSep path allowAboveRoot fuel (i + 1)
                  { res := [], lastSegmentLength := 0, lastSlash := (i : Int), dots := 0,
                    code := code }
              else
                let res1 := slice res 0 lastSlashIndex.toNat
                normalizeLoop sep isSep path allowAboveRoot fuel (i + 1)
                  { res := res1,
                    lastSegmentLength := (res1.length : Int) - 1 - lastIndexOf sep res1,
                    lastSlash := (i : Int), dots := 0, code := code }
            else if res.length ≠ 0 then
              normalizeLoop sep isSep path allowAboveRoot fuel (i + 1)
                { res := [], lastSegmentLength := 0, lastSlash := (i : Int), dots := 0,
                  code := code }
            else normalizeLoop sep isSep path allowAboveRoot fuel (i + 1) above
          else normalizeLoop sep isSep path allowAboveRoot fuel (i + 1) above
        else
          let seg := slice path (st.lastSlash + 1).toNat i
          normalizeLoop sep isSep path allowAboveRoot fuel (i + 1)
            { res := if 0 < res.length then res ++ (sep :: seg) else seg,
              lastSegmentLength := (i : Int) - st.lastSlash - 1,
              lastSlash := (i : Int), dots := 0, code := code }
      else if code = '.' ∧ st.dots ≠ -1 then
        normalizeLoop sep isSep path allowAboveRoot fuel (i + 1)
          { st with code := code, dots := st.dots + 1 }
      else
        normalizeLoop sep isSep path allowAboveRoot fuel (i + 1)
          { st with code := code, dots := -1 }
    else st.res

/-- `normalizeString`: the loop runs for `i = 0 .. path.length`. -/
def normalizeString (sep : Char) (isSep : Char → Bool) (path : List Char)
    (allowAboveRoot : Bool) : List Char :=
  normalizeLoop sep isSep path allowAboveRoot (path.length + 1) 0
    { res := [], lastSegmentLength := 0, lastSlash := -1, dots := 0, code := Char.ofNat 0 }

/-- `path.posix.normalize`. -/
def posixNormalize (path : List Char) : List Char :=
  if path.length = 0 then ['.']
  else
    let isAbsolute := path.getD 0 ' ' = '/'
    let trailingSeparator := path.getD (path.length - 1) ' ' = '/'
    let p := normalizeString '/' isPosixPathSeparator path (!decide isAbsolute)
    if p.length = 0 then
      if isAbsolute then ['/'] else if trailingSeparator then ['.', '/'] else ['.']
    else
      let p1 := if trailingSeparator then p ++ ['/'] else p
      if isAbsolute then '/' :: p1 else p1

/-- The accumulation loop of `path.posix.join`: `none` is `joined === undefined`. -/
def posixJoinLoop : List (List Char) → Option (List Char) → Option (List Char)
  | [], joined => joined
  | arg :: rest, joined =>
    if 0 < arg.length then
      match joined with
      | none => posixJoinLoop rest (some arg)
      | some j => posixJoinLoop rest (some (j ++ ('/' :: arg)))
    else posixJoinLoop rest joined

/-- `path.posix.join(...args)`. -/
def posixJoin (args : List (List Char)) : List Char :=
  match posixJoinLoop args none with
  | none => ['.']
  | some joined => posixNormalize joined

/-- `path.posix.extname`. -/
def posixExtname (path : String) : String :=
  String.mk (extnameWith isPosixPathSeparator 0 path.data)

/-- `path.posix.basename`. -/
def posixBasename (path : String) (suffix : Option String) : String :=
  String.mk (basenameWith isPosixPathSeparator 0 path.data (suffix.map String.data))

/-- `path.win32.extname`. -/
def win32Extname (path : String) : String :=
  String.mk (extnameWith isPathSeparator (win32Start path.data) path.data)

/-- `path.win32.basename`. -/
def win32Basename (path : String) (suffix : Option String) : String :=
  String.mk (basenameWith isPathSeparator (win32Start path.data) path.data
    (suffix.map String.data))

/-- The posix flavour of the `path` module, with ASCII lower-casing. -/
def posixPath : NodeLib where
  extname := posixExtname
  basename := posixBasename
  join := fun args => String.mk (posixJoin (args.map String.data))
  toLowerCase := toLowerCase

/-! ## Effects, environment and state -/

/-- The methods whose invocations are recorded in the log. -/
inductive Method
  | convertToPDF
  | convertOfficeToPDF
  | convertOfficeViaCOM
  | convertOfficeViaPowerShell
  | convertWordToPDF
  | convertExcelToPDF
  | convertPowerPointToPDF
  | convertWordViaPowerShell
  | convertExcelViaPowerShell
  | convertPowerPointViaPowerShell
  | checkOfficeAvailability
  | convertImageToPDF
  | convertImageViaImageMagick
  | mergePDFs
  deriving DecidableEq

/-- Outcome of an external operation: a value, or the `message` of the error thrown. -/
inductive Outcome (α : Type)
  | ok (value : α)
  | error (message : String)
  deriving DecidableEq

/-- Placement of the bitmap on the page, as passed to `page.drawImage`. -/
structure DrawOptions where
  x : JsNumber
  y : JsNumber
  width : JsNumber
  height : JsNumber
  deriving DecidableEq

/-- The one-page document assembled by the image pipeline before `pdfDoc.save`. -/
structure ImagePdf where
  title : String
  subject : String
  creator : String
  producer : String
  pageSize : Nat × Nat
  png : String
  draw : DrawOptions
  deriving DecidableEq

/-- The document assembled by `mergePDFs` before `mergedPdf.save`; a page is identified
with its content. -/
structure MergedPdf where
  title : String
  subject : String
  creator : String
  producer : String
  pages : List String
  deriving DecidableEq

/-- One entry of the log: a method invocation, or an external effect with its outcome. -/
inductive Event
  | call (m : Method) (args : List String)
  | getSetting (key value : String)
  | mkdir (folder : String) (result : Outcome Unit)
  | now (t : Nat)
  | writeFile (path content : String) (result : Outcome Unit)
  | exec (command : String) (result : Outcome String)
  | unlink (path : String) (result : Outcome Unit)
  | access (path : String) (result : Outcome Unit)
  | readFile (path : String) (result : Outcome String)
  | consoleLog (msg : String)
  | embedPng (png : String) (result : Outcome (Nat × Nat))
  | savePdf (doc : ImagePdf) (result : Outcome String)
  | loadPdf (bytes : String) (result : Outcome (List String))
  | copyPages (pdf : List String) (indices : List Nat) (result : Outcome Unit)
  | saveMerged (doc : MergedPdf) (result : Outcome String)
  deriving DecidableEq

/-- Everything outside the process.  Each oracle sees the log of all effects so far, so
its answers may change from call to call in any way. -/
structure Env where
  /-- Value of `os.tmpdir()`. -/
  tmpdir : String
  /-- Value of `process.resourcesPath`. -/
  resourcesPath : String
  /-- `SettingsManager.getSetting(key)`; it never throws (`loadSettings` catches). A value
  that is not a string is represented by any string other than a method name. -/
  getSetting : List Event → String → String
  /-- `fs.mkdir(folder, { recursive: true })`. -/
  mkdir : List Event → String → Outcome Unit
  /-- `Date.now()`. -/
  now : List Event → Nat
  /-- `fs.writeFile(path, content)`. -/
  writeFile : List Event → String → String → Outcome Unit
  /-- `execAsync(command)`: the child's `stdout`, or the error of a failed child. -/
  exec : List Event → String → Outcome String
  /-- `fs.unlink(path)`. -/
  unlink : List Event → String → Outcome Unit
  /-- `fs.access(path)`. -/
  access : List Event → String → Outcome Unit
  /-- `fs.readFile(path)`. -/
  readFile : List Event → String → Outcome String
  /-- `pdfDoc.embedPng(buffer)`: the pixel size of the bitmap, or pdf-lib's error. -/
  embedPng : String → Outcome (Nat × Nat)
  /-- `pdfDoc.save(..)`: the bytes of the document, or pdf-lib's error. -/
  savePdf : ImagePdf → Outcome String
  /-- `PDFDocument.load(bytes)`: the pages of the parsed document, or pdf-lib's error. -/
  loadPdf : String → Outcome (List String)
  /-- Whether `mergedPdf.copyPages(pdf, ..)` resolves, or throws pdf-lib's error. -/
  copyPages : List String → Outcome Unit
  /-- `mergedPdf.save(..)`: the bytes of the document, or pdf-lib's error. -/
  saveMerged : MergedPdf → Outcome String

/-- The fields of a `FileConverter` object that the methods read or write. -/
structure FileConverter where
  isWindows : Bool
  officeAvailable : Option Bool
  deriving DecidableEq

/-- State of the process: the converter object and the log of everything done so far. -/
structure State where
  this : FileConverter
  log : List Event
  deriving DecidableEq

/-- An awaited method: from the state before to the outcome (value or thrown message)
and the state after. -/
def Run (α : Type) : Type := State → Outcome α × State

/-- Sequencing: an error of the first part skips the continuation. -/
def Run.bind {α β : Type} (x : Run α) (f : α → Run β) : Run β := fun s =>
  match x s with
  | (.ok a, s1) => f a s1
  | (.error e, s1) => (.error e, s1)

instance : Monad Run where
  pure a := fun s => (.ok a, s)
  bind := Run.bind

/-- `throw new Error(message)`. -/
def Run.throwError {α : Type} (message : String) : Run α := fun s => (.error message, s)

/-- `try { x } catch (error) { handler(error.message) }`. -/
def Run.tryCatch {α : Type} (x : Run α) (handler : String → Run α) : Run α := fun s =>
  match x s with
  | (.ok a, s1) => (.ok a, s1)
  | (.error e, s1) => handler e s1

/-- `try { x } finally { fin }`: `fin` always runs; an error of `fin` replaces the outcome. -/
def Run.tryFinally {α : Type} (x : Run α) (fin : Run Unit) : Run α := fun s =>
  match x s with
  | (r, s1) =>
    match fin s1 with
    | (.ok _, s2) => (r, s2)
    | (.error e, s2) => (.error e, s2)

instance : MonadExcept String Run where
  throw := Run.throwError
  tryCatch := Run.tryCatch

instance : MonadFinally Run where
  tryFinally' x h := fun s =>
    match x s with
    | (.ok a, s1) =>
      match h (some a) s1 with
      | (.ok b, s2) => (.ok (a, b), s2)
      | (.error e, s2) => (.error e, s2)
    | (.error e, s1) =>
      match h none s1 with
      | (.ok _, s2) => (.error e, s2)
      | (.error e2, s2) => (.error e2, s2)

/-- Append an event to the log. -/
def record (e : Event) : Run Unit := fun s => (.ok (), { s with log := s.log ++ [e] })

/-- Ask an oracle, record the effect with its outcome, and return or throw accordingly. -/
def effect {α : Type} (ask : List Event → Outcome α) (ev : Outcome α → Event) : Run α := fun s =>
  (ask s.log, { s with log := s.log ++ [ev (ask s.log)] })

/-- `await this.settings.getSetting(key)`. -/
def getSetting (E : Env) (key : String) : Run String := fun s =>
  (.ok (E.getSetting s.log key), { s with log := s.log ++ [.getSetting key (E.getSetting s.log key)] })

/-- `Date.now()`. -/
def dateNow (E : Env) : Run Nat := fun s =>
  (.ok (E.now s.log), { s with log := s.log ++ [.now (E.now s.log)] })

/-- `await fs.mkdir(folder, { recursive: true })`. -/
def fsMkdir (E : Env) (folder : String) : Run Unit :=
  effect (fun log => E.mkdir log folder) (Event.mkdir folder)

/-- `await fs.writeFile(path, content)`. -/
def fsWriteFile (E : Env) (path content : String) : Run Unit :=
  effect (fun log => E.writeFile log path content) (Event.writeFile path content)

/-- `await execAsync(command)`, returning `stdout`. -/
def execAsync (E : Env) (command : String) : Run String :=
  effect (fun log => E.exec log command) (Event.exec command)

/-- `await fs.unlink(path)`. -/
def fsUnlink (E : Env) (path : String) : Run Unit :=
  effect (fun log => E.unlink log path) (Event.unlink path)

/-- `await fs.access(path)`. -/
def fsAccess (E : Env) (path : String) : Run Unit :=
  effect (fun log => E.access log path) (Event.access path)

/-- `await fs.readFile(path)`. -/
def fsReadFile (E : Env) (path : String) : Run String :=
  effect (fun log => E.readFile log path) (Event.readFile path)

/-- `console.log(msg)`. -/
def consoleLog (msg : String) : Run Unit := record (.consoleLog msg)

/-- `await pdfDoc.embedPng(pngBuffer)`. -/
def pdfEmbedPng (E : Env) (pngBuffer : String) : Run (Nat × Nat) :=
  effect (fun _ => E.embedPng pngBuffer) (Event.embedPng pngBuffer)

/-- `await pdfDoc.save(..)` of the one-page document of the image pipeline. -/
def pdfSave (E : Env) (doc : ImagePdf) : Run String :=
  effect (fun _ => E.savePdf doc) (Event.savePdf doc)

/-- `await PDFDocument.load(pdfBytes)`. -/
def pdfLoad (E : Env) (pdfBytes : String) : Run (List String) :=
  effect (fun _ => E.loadPdf pdfBytes) (Event.loadPdf pdfBytes)

/-- `pdf.getPageIndices()` of pdf-lib: `[0, 1, .., pageCount - 1]`. -/
def getPageIndices (pdf : List String) : List Nat := List.range pdf.length

/-- What `copyPages(pdf, indices)` of pdf-lib resolves to: for each index in turn, a copy
of the page of `pdf` at that index. -/
def copiedPagesOf (pdf : List String) (indices : List Nat) : List String :=
  indices.filterMap fun i => pdf.get? i

/-- `await mergedPdf.copyPages(pdf, indices)`. -/
def pdfCopyPages (E : Env) (pdf : List String) (indices : List Nat) : Run (List String) := do
  effect (fun _ => E.copyPages pdf) (Event.copyPages pdf indices)
  pure (copiedPagesOf pdf indices)

/-- `await mergedPdf.save(..)`. -/
def pdfSaveMerged (E : Env) (doc : MergedPdf) : Run String :=
  effect (fun _ => E.saveMerged doc) (Event.saveMerged doc)

/-- Read `this.isWindows`. -/
def getIsWindows : Run Bool := fun s => (.ok s.this.isWindows, s)

/-- Read `this.officeAvailable` (`none` is `null`). -/
def getOfficeAvailable : Run (Option Bool) := fun s => (.ok s.this.officeAvailable, s)

/-- Assign `this.officeAvailable = b`. -/
def setOfficeAvailable (b : Bool) : Run Unit := fun s =>
  (.ok (), { s with this := { s.this with officeAvailable := some b } })

/-! ## `converter.js` -/

/-- The two extension lists of `this.supportedFormats`. -/
structure SupportedFormats where
  office : List String
  images : List String

/-- Value assigned to `this.supportedFormats` by the constructor. -/
def supportedFormats : SupportedFormats where
  office := [".doc", ".docx", ".xls", ".xlsx", ".ppt", ".pptx"]
  images := [".jpg", ".jpeg", ".png", ".tiff", ".tif", ".heic"]

/-- `inputPath.replace(/\\/g, '\\')`: a backslash is replaced by one backslash. -/
def escapeSingle (path : String) : String :=
  String.mk (replaceBackslash ['\\'] path.data)

/-- `inputPath.replace(/\\/g, '\\\\')`: a backslash is replaced by two backslashes. -/
def escapeDouble (path : String) : String :=
  String.mk (replaceBackslash ['\\', '\\'] path.data)

/-- The template literal `vbsScript` of `convertWordToPDF`. -/
def wordVbsScript (inputPath outputPath : String) : String :=
  "\n      Set objWord = CreateObject(\"Word.Application\")" ++
  "\n      objWord.Visible = False" ++
  "\n      objWord.DisplayAlerts = 0" ++
  "\n      " ++
  "\n      Set objDoc = objWord.Documents.Open(\"" ++ escapeSingle inputPath ++
    "\", False, True)" ++
  "\n      objDoc.SaveAs2 \"" ++ escapeSingle outputPath ++ "\", 17" ++
  "\n      objDoc.Close" ++
  "\n      " ++
  "\n      objWord.Quit" ++
  "\n      Set objWord = Nothing" ++
  "\n    "

/-- The template literal `vbsScript` of `convertExcelToPDF`. -/
def excelVbsScript (inputPath outputPath : String) : String :=
  "\n      Set objExcel = CreateObject(\"Excel.Application\")" ++
  "\n      objExcel.Visible = False" ++
  "\n      objExcel.DisplayAlerts = False" ++
  "\n      " ++
  "\n      Set objWorkbook = objExcel.Workbooks.Open(\"" ++ escapeDouble inputPath ++
    "\", False, True)" ++
  "\n      objWorkbook.ExportAsFixedFormat 0, \"" ++ escapeDouble outputPath ++ "\", 0, 1" ++
  "\n      objWorkbook.Close" ++
  "\n      " ++
  "\n      objExcel.Quit" ++
  "\n      Set objExcel = Nothing" ++
  "\n    "

/-- The template literal `vbsScript` of `convertPowerPointToPDF`. -/
def powerPointVbsScript (inputPath outputPath : String) : String :=
  "\n      Set objPPT = CreateObject(\"PowerPoint.Application\")" ++
  "\n      objPPT.Visible = False" ++
  "\n      " ++
  "\n      Set objPresentation = objPPT.Presentations.Open(\"" ++ escapeSingle inputPath ++
    "\", False, False, False)" ++
  "\n      objPresentation.SaveAs \"" ++ escapeSingle outputPath ++ "\", 32" ++
  "\n      objPresentation.Close" ++
  "\n      " ++
  "\n      objPPT.Quit" ++
  "\n      Set objPPT = Nothing" ++
  "\n    "

/-- The template literal `testScript` of `checkOfficeAvailability`. -/
def testScript : String :=
  "\n        try \x7b" ++
  "\n          var word = new ActiveXObject(\"Word.Application\");" ++
  "\n          word.Quit();" ++
  "\n          WScript.Echo(\"Available\");" ++
  "\n        \x7d catch(e) \x7b" ++
  "\n          WScript.Echo(\"NotAvailable\");" ++
  "\n        \x7d" ++
  "\n      "

/-- The template literal `psScript` of `convertWordViaPowerShell`. -/
def wordPsScript (inputPath outputPath : String) : String :=
  "\n      $word = New-Object -ComObject Word.Application" ++
  "\n      $word.Visible = $false" ++
  "\n      $word.DisplayAlerts = \x27wdAlertsNone\x27" ++
  "\n      try \x7b" ++
  "\n        $doc = $word.Documents.Open(\x27" ++ escapeDouble inputPath ++
    "\x27, $false, $true)" ++
  "\n        $doc.SaveAs2(\x27" ++ escapeDouble outputPath ++ "\x27, 17)" ++
  "\n        $doc.Close()" ++
  "\n      \x7d finally \x7b" ++
  "\n        $word.Quit()" ++
  "\n        [System.Runtime.Interopservices.Marshal]::ReleaseComObject($word) | Out-Null" ++
  "\n      \x7d" ++
  "\n    "

/-- The template literal `psScript` of `convertExcelViaPowerShell`. -/
def excelPsScript (inputPath outputPath : String) : String :=
  "\n      $excel = New-Object -ComObject Excel.Application" ++
  "\n      $excel.Visible = $false" ++
  "\n      $excel.DisplayAlerts = $false" ++
  "\n      try \x7b" ++
  "\n        $workbook = $excel.Workbooks.Open(\x27" ++ escapeDouble inputPath ++
    "\x27, $false, $true)" ++
  "\n        $workbook.ExportAsFixedFormat(0, \x27" ++ escapeDouble outputPath ++
    "\x27, 0, 1)" ++
  "\n        $workbook.Close($false)" ++
  "\n      \x7d finally \x7b" ++
  "\n        $excel.Quit()" ++
  "\n        [System.Runtime.Interopservices.Marshal]::ReleaseComObject($excel) | Out-Null" ++
  "\n      \x7d" ++
  "\n    "

/-- The template literal `psScript` of `convertPowerPointViaPowerShell`. -/
def powerPointPsScript (inputPath outputPath : String) : String :=
  "\n      $ppt = New-Object -ComObject PowerPoint.Application" ++
  "\n      $ppt.Visible = \x27msoFalse\x27" ++
  "\n      try \x7b" ++
  "\n        $presentation = $ppt.Presentations.Open(\x27" ++ escapeDouble inputPath ++
    "\x27, $false, $false, $false)" ++
  "\n        $presentation.SaveAs(\x27" ++ escapeDouble outputPath ++ "\x27, 32)" ++
  "\n        $presentation.Close()" ++
  "\n      \x7d finally \x7b" ++
  "\n        $ppt.Quit()" ++
  "\n        [System.Runtime.Interopservices.Marshal]::ReleaseComObject($ppt) | Out-Null" ++
  "\n      \x7d" ++
  "\n    "

/-- The shared tail of the six script runners and of the probe: `os.tmpdir()`,
`path.join(tempDir, name)` with `Date.now()` inside the name, `fs.writeFile`, then the
interpreter inside `try`, with `fs.unlink(scriptPath).catch(() => {})` in `finally`. -/
def writeAndExecute (P : NodeLib) (E : Env) (namePrefix nameSuffix script : String)
    (interpreter : String) : Run String := do
  let tempDir := E.tmpdir
  let t ← dateNow E
  let scriptPath := P.join [tempDir, namePrefix ++ toString t ++ nameSuffix]
  fsWriteFile E scriptPath script
  try
    execAsync E (interpreter ++ " \"" ++ scriptPath ++ "\"")
  finally
    try fsUnlink E scriptPath catch _ => pure ()

/-- `async convertWordToPDF(inputPath, outputPath)`. -/
def convertWordToPDF (P : NodeLib) (E : Env) (inputPath outputPath : String) : Run Unit := do
  record (.call .convertWordToPDF [inputPath, outputPath])
  let vbsScript := wordVbsScript inputPath outputPath
  let _ ← writeAndExecute P E "temp_word_script_" ".vbs" vbsScript "cscript //NoLogo"

/-- `async convertExcelToPDF(inputPath, outputPath)`. -/
def convertExcelToPDF (P : NodeLib) (E : Env) (inputPath outputPath : String) : Run Unit := do
  record (.call .convertExcelToPDF [inputPath, outputPath])
  let vbsScript := excelVbsScript inputPath outputPath
  let _ ← writeAndExecute P E "temp_excel_script_" ".vbs" vbsScript "cscript //NoLogo"

/-- `async convertPowerPointToPDF(inputPath, outputPath)`. -/
def convertPowerPointToPDF (P : NodeLib) (E : Env) (inputPath outputPath : String) :
    Run Unit := do
  record (.call .convertPowerPointToPDF [inputPath, outputPath])
  let vbsScript := powerPointVbsScript inputPath outputPath
  let _ ← writeAndExecute P E "temp_powerpoint_script_" ".vbs" vbsScript "cscript //NoLogo"

/-- `async checkOfficeAvailability()`.  The result is the value of
`this.officeAvailable` at the `return`, so its type allows `null` (`none`). -/
def checkOfficeAvailability (P : NodeLib) (E : Env) : Run (Option Bool) := do
  record (.call .checkOfficeAvailability [])
  match (← getOfficeAvailable) with
  | some cached => return some cached
  | none =>
    if !(← getIsWindows) then
      setOfficeAvailable false
      return some false
    try
      let stdout ← writeAndExecute P E "office_check_" ".js" testScript "cscript //NoLogo"
      setOfficeAvailable (decide (trim stdout = "Available"))
    catch _ =>
      setOfficeAvailable false
    return (← getOfficeAvailable)

/-- `async convertWordViaPowerShell(inputPath, outputPath)`. -/
def convertWordViaPowerShell (P : NodeLib) (E : Env) (inputPath outputPath : String) :
    Run Unit := do
  record (.call .convertWordViaPowerShell [inputPath, outputPath])
  let psScript := wordPsScript inputPath outputPath
  let _ ← writeAndExecute P E "temp_word_ps_" ".ps1" psScript
    "powershell -ExecutionPolicy Bypass -File"

/-- `async convertExcelViaPowerShell(inputPath, outputPath)`. -/
def convertExcelViaPowerShell (P : NodeLib) (E : Env) (inputPath outputPath : String) :
    Run Unit := do
  record (.call .convertExcelViaPowerShell [inputPath, outputPath])
  let psScript := excelPsScript inputPath outputPath
  let _ ← writeAndExecute P E "temp_excel_ps_" ".ps1" psScript
    "powershell -ExecutionPolicy Bypass -File"

/-- `async convertPowerPointViaPowerShell(inputPath, outputPath)`. -/
def convertPowerPointViaPowerShell (P : NodeLib) (E : Env) (inputPath outputPath : String) :
    Run Unit := do
  record (.call .convertPowerPointViaPowerShell [inputPath, outputPath])
  let psScript := powerPointPsScript inputPath outputPath
  let _ ← writeAndExecute P E "temp_powerpoint_ps_" ".ps1" psScript
    "powershell -ExecutionPolicy Bypass -File"

/-- `async convertOfficeViaCOM(inputPath, outputPath)`. -/
def convertOfficeViaCOM (P : NodeLib) (E : Env) (inputPath outputPath : String) :
    Run String := do
  record (.call .convertOfficeViaCOM [inputPath, outputPath])
  let ext := P.toLowerCase (P.extname inputPath)
  try
    if [".doc", ".docx"].contains ext then
      convertWordToPDF P E inputPath outputPath
    else if [".xls", ".xlsx"].contains ext then
      convertExcelToPDF P E inputPath outputPath
    else if [".ppt", ".pptx"].contains ext then
      convertPowerPointToPDF P E inputPath outputPath
    pure outputPath
  catch error =>
    throw ("Office conversion failed: " ++ error ++ ". Ensure Microsoft Office is installed.")

/-- `async convertOfficeViaPowerShell(inputPath, outputPath)`. -/
def convertOfficeViaPowerShell (P : NodeLib) (E : Env) (inputPath outputPath : String) :
    Run String := do
  record (.call .convertOfficeViaPowerShell [inputPath, outputPath])
  let ext := P.toLowerCase (P.extname inputPath)
  try
    if [".doc", ".docx"].contains ext then
      convertWordViaPowerShell P E inputPath outputPath
    else if [".xls", ".xlsx"].contains ext then
      convertExcelViaPowerShell P E inputPath outputPath
    else if [".ppt", ".pptx"].contains ext then
      convertPowerPointViaPowerShell P E inputPath outputPath
    pure outputPath
  catch error =>
    throw ("PowerShell Office conversion failed: " ++ error ++
      ". Please ensure Microsoft Office is installed.")

/-- `async convertOfficeToPDF(inputPath, outputPath)`.  `hasOffice ? .. : ..` tests
truthiness, so `null` (`none`) counts as `false`. -/
def convertOfficeToPDF (P : NodeLib) (E : Env) (inputPath outputPath : String) :
    Run String := do
  record (.call .convertOfficeToPDF [inputPath, outputPath])
  let conversionMethod ← getSetting E "officeConversionMethod"
  let mut useMethod := conversionMethod
  if conversionMethod = "auto" then
    let hasOffice ← checkOfficeAvailability P E
    useMethod := if hasOffice = some true then "native" else "powershell"
  let isWindows ← getIsWindows
  try
    if useMethod = "native" ∧ isWindows = true then
      convertOfficeViaCOM P E inputPath outputPath
    else if useMethod = "powershell" ∧ isWindows = true then
      convertOfficeViaPowerShell P E inputPath outputPath
    else
      convertOfficeViaPowerShell P E inputPath outputPath
  catch error =>
    if useMethod = "native" then
      consoleLog "Native Office VBS failed, falling back to PowerShell..."
      convertOfficeViaPowerShell P E inputPath outputPath
    else
      throw error

/-- `async getConversionMethod()`. -/
def getConversionMethod (P : NodeLib) (E : Env) : Run String := do
  let setting ← getSetting E "officeConversionMethod"
  if setting = "auto" then
    let hasOffice ← checkOfficeAvailability P E
    return if hasOffice = some true then "Microsoft Office (VBS)"
      else "Microsoft Office (PowerShell)"
  if setting = "native" then
    return "Microsoft Office (VBS)"
  else if setting = "powershell" then
    return "Microsoft Office (PowerShell)"
  return "Microsoft Office (Auto)"

/-- The scale-and-centre computation of `convertImageViaImageMagick` (the lines
from `const imgWidth` to `const y`), for a bitmap of `width` by `height` pixels. -/
def imageLayout (width height : Nat) : DrawOptions :=
  let imgWidth := JsNumber.ofNat width
  let imgHeight := JsNumber.ofNat height
  let maxWidth : JsNumber := 555
  let maxHeight : JsNumber := 802
  let final : JsNumber × JsNumber :=
    if maxWidth.lt imgWidth ∨ maxHeight.lt imgHeight then
      let widthRatio := jsDiv maxWidth imgWidth
      let heightRatio := jsDiv maxHeight imgHeight
      let ratio := mathMin widthRatio heightRatio
      (jsMul imgWidth ratio, jsMul imgHeight ratio)
    else (imgWidth, imgHeight)
  let finalWidth := final.1
  let finalHeight := final.2
  let x := jsDiv (jsSub 595 finalWidth) 2
  let y := jsDiv (jsSub 842 finalHeight) 2
  { x := x, y := y, width := finalWidth, height := finalHeight }

/-- `async convertImageViaImageMagick(inputPath, outputPath)`. -/
def convertImageViaImageMagick (P : NodeLib) (E : Env) (inputPath outputPath : String) :
    Run String := do
  record (.call .convertImageViaImageMagick [inputPath, outputPath])
  let tempDir := E.tmpdir
  let t ← dateNow E
  let tempPngPath := P.join [tempDir, "temp_magick_" ++ toString t ++ ".png"]
  try
    let bundledMagickPath := P.join [E.resourcesPath, "ImageMagick", "magick.exe"]
    try
      let _ ← execAsync E
        ("\"" ++ bundledMagickPath ++ "\" \"" ++ inputPath ++ "\" \"" ++ tempPngPath ++ "\"")
    catch error =>
      throw ("Bundled ImageMagick failed. This may indicate a corrupted installation or " ++
        "unsupported file format. Error: " ++ error)
    try
      fsAccess E tempPngPath
    catch _ =>
      throw "ImageMagick conversion failed - no output file created"
    let pngBuffer ← fsReadFile E tempPngPath
    let title := P.basename inputPath (some (P.extname inputPath))
    let pngImage ← pdfEmbedPng E pngBuffer
    let pdfBytes ← pdfSave E
      { title := title,
        subject := "Image converted to PDF via ImageMagick",
        creator := "The Printing Press File Converter",
        producer := "The Printing Press File Converter v1.1.0",
        pageSize := (595, 842),
        png := pngBuffer,
        draw := imageLayout pngImage.1 pngImage.2 }
    fsWriteFile E outputPath pdfBytes
    pure outputPath
  finally
    try fsUnlink E tempPngPath catch _ => pure ()

/-- `async convertImageToPDF(inputPath, outputPath)`. -/
def convertImageToPDF (P : NodeLib) (E : Env) (inputPath outputPath : String) :
    Run String := do
  record (.call .convertImageToPDF [inputPath, outputPath])
  convertImageViaImageMagick P E inputPath outputPath

/-- `async convertToPDF(inputPath, outputFolder)`. -/
def convertToPDF (P : NodeLib) (E : Env) (inputPath outputFolder : String) : Run String := do
  record (.call .convertToPDF [inputPath, outputFolder])
  let ext := P.toLowerCase (P.extname inputPath)
  let basename := P.basename inputPath (some ext)
  let outputPath := P.join [outputFolder, basename ++ ".pdf"]
  fsMkdir E outputFolder
  if supportedFormats.office.contains ext then
    convertOfficeToPDF P E inputPath outputPath
  else if supportedFormats.images.contains ext then
    convertImageToPDF P E inputPath outputPath
  else
    throw ("Unsupported file format: " ++ ext ++
      ". Supported formats: Office documents and images.")

/-- `getFileType(filePath)`. -/
def getFileType (P : NodeLib) (filePath : String) : String :=
  let ext := P.toLowerCase (P.extname filePath)
  if supportedFormats.office.contains ext then "office"
  else if supportedFormats.images.contains ext then "image"
  else "unknown"

/-- The `for (const pdfPath of pdfPaths)` loop of `mergePDFs`; `pages` are the pages of
`mergedPdf` so far, and `forEach` adds the copied pages one by one. -/
def mergeLoop (E : Env) : List String → List String → Run (List String)
  | [], pages => pure pages
  | pdfPath :: rest, pages => do
    let pdfBytes ← fsReadFile E pdfPath
    let pdf ← pdfLoad E pdfBytes
    let copiedPages ← pdfCopyPages E pdf (getPageIndices pdf)
    mergeLoop E rest (copiedPages.foldl (fun merged page => merged ++ [page]) pages)

/-- `async mergePDFs(pdfPaths, outputPath)`. -/
def mergePDFs (E : Env) (pdfPaths : List String) (outputPath : String) : Run String := do
  record (.call .mergePDFs (pdfPaths ++ [outputPath]))
  try
    let pages ← mergeLoop E pdfPaths []
    let pdfBytes ← pdfSaveMerged E
      { title := "Merged Documents",
        subject := "Multiple PDFs merged into one document",
        creator := "The Printing Press File Converter",
        producer := "The Printing Press File Converter v1.0.0",
        pages := pages }
    fsWriteFile E outputPath pdfBytes
    pure outputPath
  catch error =>
    throw ("PDF merge failed: " ++ error)

/-- `isSupported(filePath)`. -/
def isSupported (P : NodeLib) (filePath : String) : Bool :=
  getFileType P filePath != "unknown"

/-! ## `main.js`: the `convert-files` handler -/

/-- One element of the `results` array: `{ file, status, outputPath }` on success,
`{ file, status, error }` on failure. -/
structure ConversionResult where
  file : String
  status : String
  outputPath : Option String
  error : Option String
  deriving DecidableEq

/-- The `for (const filePath of files)` loop; `results` is the array built so far. -/
def convertFilesLoop (P : NodeLib) (E : Env) (outputFolder : String) :
    List String → List ConversionResult → Run (List ConversionResult)
  | [], results => pure results
  | filePath :: rest, results => do
    let results1 ←
      try
        let result ← convertToPDF P E filePath outputFolder
        pure (results ++ [{ file := P.basename filePath none, status := "success",
                            outputPath := some result, error := none }])
      catch error =>
        pure (results ++ [{ file := P.basename filePath none, status := "error",
                            outputPath := none, error := some error }])
    convertFilesLoop P E outputFolder rest results1

/-- The handler registered by `ipcMain.handle('convert-files', ..)`. -/
def convertFiles (P : NodeLib) (E : Env) (files : List String) (outputFolder : String) :
    Run (List ConversionResult) :=
  try
    convertFilesLoop P E outputFolder files []
  catch error =>
    throw ("Conversion failed: " ++ error)

/-! ## Observations on the log -/

/-- Whether an event is a method invocation. -/
def isCall : Event → Bool
  | .call _ _ => true
  | _ => false

/-- The method invocations of a log, in order. -/
def callsIn (log : List Event) : List Event := log.filter isCall

/-- Whether an event is an invocation of method `m`. -/
def isCallOf (m : Method) : Event → Bool
  | .call m1 _ => decide (m1 = m)
  | _ => false

/-- How many times method `m` is invoked in a log. -/
def callCount (m : Method) (log : List Event) : Nat := log.countP (isCallOf m)

/-- What a run appended to the log: the log afterwards without its first
`s.log.length` entries. -/
def newEvents {α : Type} (x : Run α) (s : State) : List Event :=
  (x s).2.log.drop s.log.length

/-- Whether an event starts a child process. -/
def isExec : Event → Bool
  | .exec _ _ => true
  | _ => false

/-- An external step of a script runner failed with message `m`: the write of the script
or the interpreter. -/
def FailedIn (m : String) (d : List Event) : Prop :=
  (∃ path content, Event.writeFile path content (.error m) ∈ d) ∨
  (∃ command, Event.exec command (.error m) ∈ d)

/-- What a script runner does to the state: `this` is untouched, the log grows by the
runner's own invocation `c` followed by external effects only, and a thrown message is the
message of a failed write or interpreter run. -/
def RunnerSpec (x : Run Unit) (c : Event) (s : State) : Prop :=
  (x s).2.this = s.this ∧
  ∃ d, (x s).2.log = s.log ++ c :: d ∧ callsIn d = [] ∧
    ∀ m, (x s).1 = .error m → FailedIn m d

/-- The kind-specific runner invoked by `convertOfficeViaCOM` for a lower-cased extension. -/
def comRunnerCalls (ext inputPath outputPath : String) : List Event :=
  if [".doc", ".docx"].contains ext then [.call .convertWordToPDF [inputPath, outputPath]]
  else if [".xls", ".xlsx"].contains ext then [.call .convertExcelToPDF [inputPath, outputPath]]
  else if [".ppt", ".pptx"].contains ext then
    [.call .convertPowerPointToPDF [inputPath, outputPath]]
  else []

/-- The kind-specific runner invoked by `convertOfficeViaPowerShell` for a lower-cased
extension. -/
def psRunnerCalls (ext inputPath outputPath : String) : List Event :=
  if [".doc", ".docx"].contains ext then
    [.call .convertWordViaPowerShell [inputPath, outputPath]]
  else if [".xls", ".xlsx"].contains ext then
    [.call .convertExcelViaPowerShell [inputPath, outputPath]]
  else if [".ppt", ".pptx"].contains ext then
    [.call .convertPowerPointViaPowerShell [inputPath, outputPath]]
  else []

/-- What `convertOfficeViaCOM` and `convertOfficeViaPowerShell` do to the state: `this`
is untouched, the log grows by the method's own invocation `c` followed by the run of at
most one kind-specific runner, and the outcome is the output path or the wrapped message
of the runner's failed step. -/
def ViaSpec (x : Run String) (c : Event) (runnerCalls : List Event)
    (outputPath pre post : String) (s : State) : Prop :=
  (x s).2.this = s.this ∧
  ∃ d, (x s).2.log = s.log ++ c :: d ∧ callsIn d = runnerCalls ∧
    ((x s).1 = .ok outputPath ∨ ∃ m, (x s).1 = .error (pre ++ m ++ post) ∧ FailedIn m d)

/-! ## Stages of `convertOfficeToPDF` -/

/-- The value `convertOfficeToPDF` reads for the key `officeConversionMethod`. -/
def configuredMethod (E : Env) (inputPath outputPath : String) (s : State) : String :=
  E.getSetting (s.log ++ [.call .convertOfficeToPDF [inputPath, outputPath]])
    "officeConversionMethod"

/-- The state of `convertOfficeToPDF` right after the setting has been read. -/
def afterSetting (E : Env) (inputPath outputPath : String) (s : State) : State :=
  { s with log := s.log ++ [.call .convertOfficeToPDF [inputPath, outputPath],
      .getSetting "officeConversionMethod" (configuredMethod E inputPath outputPath s)] }

/-- The value of `useMethod` when the `try` block is entered, and the state at that
point: for `auto` the probe has run, otherwise the configured value is kept. -/
def resolved (P : NodeLib) (E : Env) (inputPath outputPath : String) (s : State) :
    String × State :=
  if configuredMethod E inputPath outputPath s = "auto" then
    (if (checkOfficeAvailability P E (afterSetting E inputPath outputPath s)).1 =
        .ok (some true) then "native" else "powershell",
      (checkOfficeAvailability P E (afterSetting E inputPath outputPath s)).2)
  else (configuredMethod E inputPath outputPath s, afterSetting E inputPath outputPath s)

/-- The state in which the fallback runs: the state left by the failed attempt plus the
console message. -/
def fallbackState (s : State) : State :=
  { s with log := s.log ++ [.consoleLog "Native Office VBS failed, falling back to PowerShell..."] }

/-- The conversion attempts a log shows, in order: the invocations of
`convertOfficeViaCOM` (resident) and `convertOfficeViaPowerShell` (scripted). -/
def attemptsIn : List Event → List Method
  | [] => []
  | .call .convertOfficeViaCOM _ :: rest => .convertOfficeViaCOM :: attemptsIn rest
  | .call .convertOfficeViaPowerShell _ :: rest => .convertOfficeViaPowerShell :: attemptsIn rest
  | _ :: rest => attemptsIn rest

/-- The first conversion method a log shows. -/
def firstAttempt (log : List Event) : Option Method := (attemptsIn log).head?

/-- The invocations made while the method is resolved: `convertOfficeToPDF` itself and,
for `auto`, the probe. -/
def resolveCalls (cfg inputPath outputPath : String) : List Event :=
  .call .convertOfficeToPDF [inputPath, outputPath] ::
    (if cfg = "auto" then [.call .checkOfficeAvailability []] else [])

/-- The invocations of one resident attempt. -/
def comCalls (P : NodeLib) (inputPath outputPath : String) : List Event :=
  .call .convertOfficeViaCOM [inputPath, outputPath] ::
    comRunnerCalls (P.toLowerCase (P.extname inputPath)) inputPath outputPath

/-- The invocations of one scripted attempt. -/
def psCalls (P : NodeLib) (inputPath outputPath : String) : List Event :=
  .call .convertOfficeViaPowerShell [inputPath, outputPath] ::
    psRunnerCalls (P.toLowerCase (P.extname inputPath)) inputPath outputPath

/-- `x`, run from `s`, appends to the log a stretch whose invocations are `calls`. -/
def Appends {α : Type} (x : Run α) (s : State) (calls : List Event) : Prop :=
  ∃ d, (x s).2.log = s.log ++ d ∧ callsIn d = calls

/-- `x` never changes `this` and appends only external effects to the log: it invokes
no method. -/
def Quiet {α : Type} (x : Run α) : Prop :=
  ∀ s, (x s).2.this = s.this ∧ ∃ d, (x s).2.log = s.log ++ d ∧ callsIn d = []

/-! ## Stages of `convertToPDF` -/

/-- The output path `convertToPDF` computes: the output folder joined with the base name,
from which the lower-cased extension has been removed, plus `.pdf`. -/
def outputPathOf (P : NodeLib) (inputPath outputFolder : String) : String :=
  P.join [outputFolder,
    P.basename inputPath (some (P.toLowerCase (P.extname inputPath))) ++ ".pdf"]

/-- What `fs.mkdir` answers when `convertToPDF` asks for the output folder. -/
def mkdirResult (E : Env) (inputPath outputFolder : String) (s : State) : Outcome Unit :=
  E.mkdir (s.log ++ [.call .convertToPDF [inputPath, outputFolder]]) outputFolder

/-- The state of `convertToPDF` right after `fs.mkdir` has answered. -/
def afterMkdir (E : Env) (inputPath outputFolder : String) (s : State) : State :=
  { s with log := s.log ++ [.call .convertToPDF [inputPath, outputFolder],
      .mkdir outputFolder (mkdirResult E inputPath outputFolder s)] }

/-- The message of the error thrown for an unsupported extension. -/
def unsupportedMessage (ext : String) : String :=
  "Unsupported file format: " ++ ext ++ ". Supported formats: Office documents and images."

/-! ## Stages of the image pipeline -/

/-- The intermediate bitmap chosen by `convertImageViaImageMagick` when the log is `log`
at the reading of the clock. -/
def tempPngPath (P : NodeLib) (E : Env) (log : List Event) : String :=
  P.join [E.tmpdir, "temp_magick_" ++ toString (E.now log) ++ ".png"]

/-- The command line of the bundled raster engine. -/
def magickCommand (P : NodeLib) (E : Env) (inputPath pngPath : String) : String :=
  "\"" ++ P.join [E.resourcesPath, "ImageMagick", "magick.exe"] ++ "\" \"" ++ inputPath ++
    "\" \"" ++ pngPath ++ "\""

/-- The one-page document built from the bitmap `pngBuffer` of pixel size `size`. -/
def imageDocument (P : NodeLib) (inputPath pngBuffer : String) (size : Nat × Nat) : ImagePdf :=
  { title := P.basename inputPath (some (P.extname inputPath)),
    subject := "Image converted to PDF via ImageMagick",
    creator := "The Printing Press File Converter",
    producer := "The Printing Press File Converter v1.1.0",
    pageSize := (595, 842),
    png := pngBuffer,
    draw := imageLayout size.1 size.2 }

/-- Outcome and log of the `try` block of `convertImageViaImageMagick`, entered with log
`log1` (the clock already read) and the intermediate bitmap `png`. -/
def imageTry (P : NodeLib) (E : Env) (inputPath outputPath png : String)
    (log1 : List Event) : Outcome String × List Event :=
  let command := magickCommand P E inputPath png
  let log2 := log1 ++ [.exec command (E.exec log1 command)]
  let log3 := log2 ++ [.access png (E.access log2 png)]
  let log4 := log3 ++ [.readFile png (E.readFile log3 png)]
  match E.exec log1 command with
  | .error m =>
    (.error ("Bundled ImageMagick failed. This may indicate a corrupted installation or " ++
      "unsupported file format. Error: " ++ m), log2)
  | .ok _ =>
    match E.access log2 png with
    | .error _ => (.error "ImageMagick conversion failed - no output file created", log3)
    | .ok _ =>
      match E.readFile log3 png with
      | .error m => (.error m, log4)
      | .ok pngBuffer =>
        let log5 := log4 ++ [.embedPng pngBuffer (E.embedPng pngBuffer)]
        match E.embedPng pngBuffer with
        | .error m => (.error m, log5)
        | .ok size =>
          let doc := imageDocument P inputPath pngBuffer size
          let log6 := log5 ++ [.savePdf doc (E.savePdf doc)]
          match E.savePdf doc with
          | .error m => (.error m, log6)
          | .ok pdfBytes =>
            let log7 := log6 ++ [.writeFile outputPath pdfBytes (E.writeFile log6 outputPath pdfBytes)]
            match E.writeFile log6 outputPath pdfBytes with
            | .error m => (.error m, log7)
            | .ok _ => (.ok outputPath, log7)

/-! ## Specification of the batch -/

/-- The result entry for one file, given the outcome of `convertToPDF` on it: `success`
with the returned path, or `error` with the message thrown. -/
def resultEntry (P : NodeLib) (filePath : String) : Outcome String → ConversionResult
  | .ok outputPath =>
    { file := P.basename filePath none, status := "success", outputPath := some outputPath,
      error := none }
  | .error message =>
    { file := P.basename filePath none, status := "error", outputPath := none,
      error := some message }

/-- The state after the files of a batch have been converted one after the other. -/
def batchFinal (P : NodeLib) (E : Env) (outputFolder : String) : List String → State → State
  | [], s => s
  | filePath :: rest, s =>
    batchFinal P E outputFolder rest (convertToPDF P E filePath outputFolder s).2

/-- The batch as the specification describes it: one entry per file, in order, each made
from the outcome of `convertToPDF` on that file in the state left by the files before. -/
def batchResults (P : NodeLib) (E : Env) (outputFolder : String) :
    List String → State → List ConversionResult
  | [], _ => []
  | filePath :: rest, s =>
    resultEntry P filePath (convertToPDF P E filePath outputFolder s).1 ::
      batchResults P E outputFolder rest (convertToPDF P E filePath outputFolder s).2

/-! ## Sample environments -/

/-- An environment in which every external operation succeeds, the setting is `auto` and
the probe prints `Available`. -/
def sampleEnv : Env where
  tmpdir := "/tmp"
  resourcesPath := "/opt/app/resources"
  getSetting := fun _ _ => "auto"
  mkdir := fun _ _ => .ok ()
  now := fun _ => 1700000000000
  writeFile := fun _ _ _ => .ok ()
  exec := fun _ _ => .ok "Available\r\n"
  unlink := fun _ _ => .ok ()
  access := fun _ _ => .ok ()
  readFile := fun _ _ => .ok "PNG"
  embedPng := fun _ => .ok (100, 100)
  savePdf := fun _ => .ok "%PDF"
  loadPdf := fun bytes => .ok [bytes]
  copyPages := fun _ => .ok ()
  saveMerged := fun doc => .ok (String.join doc.pages)

/-- A freshly constructed converter on Windows, with an empty log. -/
def windowsStart : State where
  this := { isWindows := true, officeAvailable := none }
  log := []

/-- A freshly constructed converter on another platform, with an empty log. -/
def otherStart : State where
  this := { isWindows := false, officeAvailable := none }
  log := []

/-- An environment with the setting `native` in which every `cscript` run fails while
PowerShell runs succeed. -/
def residentFailsEnv : Env :=
  { sampleEnv with
    getSetting := fun _ _ => "native"
    exec := fun _ command =>
      if "cscript".data.isPrefixOf command.data then .error "Command failed: cscript"
      else .ok "" }

/-- An environment with the setting `native` in which every child process fails. -/
def allFailEnv : Env :=
  { sampleEnv with
    getSetting := fun _ _ => "native"
    exec := fun _ _ => .error "Command failed" }

/-- An environment with the setting `powershell` in which every child process fails. -/
def scriptedFailsEnv : Env :=
  { sampleEnv with
    getSetting := fun _ _ => "powershell"
    exec := fun _ _ => .error "Command failed" }

/-- An environment in which the output folder cannot be created. -/
def mkdirFailsEnv : Env :=
  { sampleEnv with
    mkdir := fun _ _ => .error "EACCES: permission denied, mkdir" }

/-! ## Reading the generated scripts -/

/-- `text` contains the strings `parts` one after the other, in this order, possibly with
other text before, between and after them. -/
def ContainsInOrder : List String → String → Prop
  | [], _ => True
  | part :: rest, text =>
    ∃ before after, text = before ++ part ++ after ∧ ContainsInOrder rest after

/-- The text denoted by the body of a VBScript string literal (what stands between the
two double quotes): two double quotes in a row stand for one, a double quote alone cannot
occur inside the body, and every other character, the backslash included, stands for
itself. -/
def vbsStringValue : List Char → Option (List Char)
  | [] => some []
  | '"' :: '"' :: rest => (vbsStringValue rest).map ('"' :: ·)
  | '"' :: _ => none
  | c :: rest => (vbsStringValue rest).map (c :: ·)

/-- The text denoted by the body of a PowerShell single-quoted string literal: two single
quotes in a row stand for one, a single quote alone cannot occur inside the body, and
every other character, the backslash included, stands for itself. -/
def psStringValue : List Char → Option (List Char)
  | [] => some []
  | '\x27' :: '\x27' :: rest => (psStringValue rest).map ('\x27' :: ·)
  | '\x27' :: _ => none
  | c :: rest => (psStringValue rest).map (c :: ·)

/-! ## Observations on the image pipeline -/

/-- Whether an event is a step of building the PDF: embedding the bitmap or serialising
the document. -/
def isPdfStep : Event → Bool
  | .embedPng _ _ => true
  | .savePdf _ _ => true
  | _ => false

/-- Whether an event is a call of `fs.writeFile`. -/
def isWriteFile : Event → Bool
  | .writeFile _ _ _ => true
  | _ => false

/-- The log at the reading of the clock in `convertImageToPDF` started from state `s`. -/
def imageClockLog (inputPath outputPath : String) (s : State) : List Event :=
  s.log ++ [.call .convertImageToPDF [inputPath, outputPath]] ++
    [.call .convertImageViaImageMagick [inputPath, outputPath]]

/-- An environment in which the raster engine exits normally but leaves no bitmap. -/
def noBitmapEnv : Env :=
  { sampleEnv with
    exec := fun _ _ => .ok ""
    access := fun _ _ => .error "ENOENT: no such file or directory" }

/-! ## Temp files -/

/-- The temp script chosen by a script runner when the log is `log` at the reading of the
clock. -/
def scriptPath (P : NodeLib) (E : Env) (namePrefix nameSuffix : String)
    (log : List Event) : String :=
  P.join [E.tmpdir, namePrefix ++ toString (E.now log) ++ nameSuffix]

/-- The write of the temp script, made right after the reading of the clock at log `log`,
succeeds. -/
def ScriptWritten (P : NodeLib) (E : Env) (namePrefix nameSuffix script : String)
    (log : List Event) : Prop :=
  E.writeFile (log ++ [.now (E.now log)]) (scriptPath P E namePrefix nameSuffix log) script =
    .ok ()

/-- The path is absent from the file system when the log is `log`: `fs.access(path)` would
reject. -/
def Absent (E : Env) (path : String) (log : List Event) : Prop :=
  ∃ m, E.access log path = .error m

/-- The file system removes what `fs.unlink` reports as removed: right after a successful
`fs.unlink(path)` the path is absent. -/
def UnlinkRemoves (E : Env) : Prop :=
  ∀ log path, Absent E path (log ++ [.unlink path (.ok ())])

/-- The cleanup guarantee of an operation `op` run from `s` with its temp file at `path`:
the last effect of the run is `fs.unlink(path)`; when that delete succeeds the path is
absent at the return; and the outcome is the same whatever `fs.unlink` answers. -/
def CleansUp {α : Type} (op : Env → Run α) (E : Env) (s : State) (path : String) : Prop :=
  (∃ before, (op E s).2.log = before ++ [.unlink path (E.unlink before path)]) ∧
  (UnlinkRemoves E → (∃ before, (op E s).2.log = before ++ [.unlink path (.ok ())]) →
    Absent E path (op E s).2.log) ∧
  (∀ unlink, (op { E with unlink := unlink } s).1 = (op E s).1)

/-- The cleanup guarantee of the script runner `op`, which records the call `c` and keeps
its script in a temp file named from `namePrefix` and `nameSuffix`, once the script is
written. -/
def RunnerCleansUp {α : Type} (P : NodeLib) (op : Env → Run α) (E : Env) (s : State)
    (c : Event) (namePrefix nameSuffix script : String) : Prop :=
  ScriptWritten P E namePrefix nameSuffix script (s.log ++ [c]) →
    CleansUp op E s (scriptPath P E namePrefix nameSuffix (s.log ++ [c]))

/-- Whether an event is a call of `fs.unlink`. -/
def isUnlink : Event → Bool
  | .unlink _ _ => true
  | _ => false

/-- Whether `path` exists after the effects of `log` in a file system that starts empty,
where `fs.writeFile` creates the file even when it goes on to fail. -/
def fileExists (path : String) (log : List Event) : Bool :=
  log.foldl (fun present e =>
    match e with
    | .writeFile p _ _ => if p = path then true else present
    | .unlink p (.ok _) => if p = path then false else present
    | _ => present) false

/-- An environment whose disk is full: `fs.writeFile` creates the file and then fails;
`fs.access` and `fs.unlink` answer from the files that exist. -/
def diskFullEnv : Env :=
  { sampleEnv with
    writeFile := fun _ _ _ => .error "ENOSPC: no space left on device, write"
    access := fun log path =>
      if fileExists path log then .ok () else .error "ENOENT: no such file or directory"
    unlink := fun log path =>
      if fileExists path log then .ok () else .error "ENOENT: no such file or directory" }

/-! ## Observations on the merge -/

/-- The document that `mergePDFs` serialises when `pages` have been added. -/
def mergedDocument (pages : List String) : MergedPdf :=
  { title := "Merged Documents",
    subject := "Multiple PDFs merged into one document",
    creator := "The Printing Press File Converter",
    producer := "The Printing Press File Converter v1.0.0",
    pages := pages }

/-- The documents serialised by `mergedPdf.save` in a log, in order. -/
def savedDocuments (log : List Event) : List MergedPdf :=
  log.filterMap fun e =>
    match e with
    | .saveMerged doc _ => some doc
    | _ => none

/-- The contents passed to `fs.writeFile(path, ..)` in a log, in order. -/
def writesTo (path : String) (log : List Event) : List String :=
  log.filterMap fun e =>
    match e with
    | .writeFile p content _ => if p = path then some content else none
    | _ => none

/-- Whether an event can change the file system: a write, a delete, a folder creation or
a child process. -/
def modifiesFiles : Event → Bool
  | .writeFile _ _ _ => true
  | .unlink _ _ => true
  | .mkdir _ _ => true
  | .exec _ _ => true
  | _ => false

/-- The message of a failed step of loading an input of the merge: reading the file,
parsing it, or copying its pages. -/
def loadFailure : Event → Option String
  | .readFile _ (.error m) => some m
  | .loadPdf _ (.error m) => some m
  | .copyPages _ _ (.error m) => some m
  | _ => none

/-- The effects of loading the inputs `paths` when each `p` reads as `content p`, parses to
the pages `pagesOf p` and its pages are copied. -/
def loadEvents (content : String → String) (pagesOf : String → List String)
    (paths : List String) : List Event :=
  paths.flatMap fun p =>
    [.readFile p (.ok (content p)), .loadPdf (content p) (.ok (pagesOf p)),
     .copyPages (pagesOf p) (getPageIndices (pagesOf p)) (.ok ())]

/-- An environment for merging: every path but `missing.pdf` reads as a one-page PDF whose
page is named after the path. -/
def mergeEnv : Env :=
  { sampleEnv with
    readFile := fun _ p =>
      if p = "missing.pdf" then .error "ENOENT: no such file or directory, open missing.pdf"
      else .ok ("%PDF " ++ p)
    loadPdf := fun bytes => .ok [bytes]
    saveMerged := fun doc => .ok (String.intercalate "\n" doc.pages) }

/-! ## `renderer/app.js` -/

/-- `array.splice(start, deleteCount, ...items)` for `start ≥ 0`: the array after the call. -/
def splice {α : Type} (array : List α) (start deleteCount : Nat) (items : List α) : List α :=
  array.take start ++ items ++ array.drop (start + deleteCount)

/-- `str.split(sep).pop()` for a separator of one character: the text after the last
occurrence of `sep`, the whole text when there is none. -/
def splitPop (sep : Char) (cs : List Char) : List Char :=
  (cs.reverse.takeWhile (· ≠ sep)).reverse

/-- An entry of `this.selectedFiles`. -/
structure FileEntry where
  path : String
  name : String
  type : String
  deriving DecidableEq

/-- The entry that `addFiles` pushes for `path`: the file name is what follows the last
backslash and then the last slash, the extension what follows the last dot of the name. -/
def fileEntry (path : String) : FileEntry :=
  let fileName := String.mk (splitPop '/' (splitPop '\\' path.data))
  let extension := toLowerCase (String.mk (splitPop '.' fileName.data))
  let fileType :=
    if ["doc", "docx", "xls", "xlsx", "ppt", "pptx"].contains extension then "Office"
    else if ["jpg", "jpeg", "png", "tiff", "tif", "heic"].contains extension then "Image"
    else "Unknown"
  { path := path, name := fileName, type := fileType }

/-- `addFiles(filePaths)`: the value of `this.selectedFiles` afterwards. -/
def addFiles (selectedFiles : List FileEntry) (filePaths : List String) : List FileEntry :=
  let newFiles := filePaths.filter fun path =>
    !selectedFiles.any fun file => decide (file.path = path)
  newFiles.foldl (fun files path => files ++ [fileEntry path]) selectedFiles

/-- `removeFile(index)` for `index ≥ 0`: the value of `this.selectedFiles` afterwards. -/
def removeFile (selectedFiles : List FileEntry) (index : Nat) : List FileEntry :=
  splice selectedFiles index 1 []

/-- `clearFileList()`: the value of `this.selectedFiles` afterwards. -/
def clearFileList (_selectedFiles : List FileEntry) : List FileEntry := []

/-- `handlePDFDrop(e)` for a reorder drop that hits the item with index `dropIndex`: the
value of `this.selectedPDFs` afterwards.  `draggedIndex = none` is `undefined`, and
`undefined` is what `this.selectedPDFs[..]` gives outside the array. -/
def handlePDFDrop {α : Type} (undefined : α) (selectedPDFs : List α)
    (draggedIndex : Option Nat) (dropIndex : Nat) : List α :=
  match draggedIndex with
  | none => selectedPDFs
  | some dragged =>
    if dragged ≠ dropIndex then
      let draggedItem := selectedPDFs.getD dragged undefined
      let removed := splice selectedPDFs dragged 1 []
      let newIndex := if dragged < dropIndex then dropIndex - 1 else dropIndex
      splice removed newIndex 0 [draggedItem]
    else selectedPDFs

/-- The path of the `path` module of Windows for the two functions the classification
uses. -/
def win32Path : NodeLib :=
  { posixPath with extname := win32Extname, basename := win32Basename }

/-- How many of the word, spreadsheet and presentation lists contain `ext`. -/
def kindCount (ext : String) : Nat :=
  ([[".doc", ".docx"], [".xls", ".xlsx"], [".ppt", ".pptx"]].filter
    fun kind => kind.contains ext).length

/-- The kind-specific script runners. -/
def scriptRunners : List Method :=
  [.convertWordToPDF, .convertExcelToPDF, .convertPowerPointToPDF,
   .convertWordViaPowerShell, .convertExcelViaPowerShell, .convertPowerPointViaPowerShell]

/-- How many kind-specific script runners a log shows as invoked. -/
def runnerCount (log : List Event) : Nat :=
  log.countP fun e =>
    match e with
    | .call m _ => scriptRunners.contains m
    | _ => false

/-! ## Stages of `getConversionMethod` -/

/-- The value `getConversionMethod` reads for the key `officeConversionMethod`. -/
def labelSetting (E : Env) (s : State) : String :=
  E.getSetting s.log "officeConversionMethod"

/-- The state of `getConversionMethod` right after the setting has been read. -/
def afterLabelSetting (E : Env) (s : State) : State :=
  { s with log := s.log ++ [.getSetting "officeConversionMethod" (labelSetting E s)] }

/-- An environment whose settings file holds a value that is none of `auto`, `native` and
`powershell`. -/
def otherSettingEnv : Env :=
  { sampleEnv with getSetting := fun _ _ => "vbs" }

/-! ## Temp file names -/

/-- The text before and after `Date.now()` in the name of the temp file of each
operation: the three VBScript runners, the probe, the three PowerShell runners and the
intermediate bitmap of the image pipeline. -/
def tempKinds : List (String × String) :=
  [("temp_word_script_", ".vbs"), ("temp_excel_script_", ".vbs"),
   ("temp_powerpoint_script_", ".vbs"), ("office_check_", ".js"),
   ("temp_word_ps_", ".ps1"), ("temp_excel_ps_", ".ps1"), ("temp_powerpoint_ps_", ".ps1"),
   ("temp_magick_", ".png")]

/-- Whether a character is no path separator of either flavour. -/
def segmentChar (c : Char) : Bool := c != '/' && c != '\\'

/-- A file name that is one path segment: not empty, not starting with a dot, and without
a separator of either flavour. -/
def plainName (name : String) : Bool :=
  match name.data with
  | [] => false
  | c :: cs => c != '.' && (c :: cs).all segmentChar

/-- The law of `path.join` the temp paths rely on: inside the folder `dir`, two plain
names give two paths. -/
def JoinSeparates (P : NodeLib) (dir : String) : Prop :=
  ∀ a b : String, plainName a = true → plainName b = true →
    P.join [dir, a] = P.join [dir, b] → a = b

/-- Whether two strings differ at a position both have. -/
def diverge : List Char → List Char → Bool
  | a :: as, b :: bs => a != b || diverge as bs
  | _, _ => false

/-- The value of a decimal numeral. -/
def decimalValue (digits : List Char) : Nat :=
  digits.foldl (fun acc c => acc * 10 + (c.toNat - 48)) 0

/-- The paths given to `fs.writeFile` and to `fs.unlink` in a log. -/
def touchedPaths (log : List Event) : List String :=
  log.filterMap fun
    | .writeFile p _ _ => some p
    | .unlink p _ => some p
    | _ => none

/-- The paths given to `fs.unlink` in a log. -/
def unlinkedPaths (log : List Event) : List String :=
  log.filterMap fun
    | .unlink p _ => some p
    | _ => none

/-- The sample environment with a clock that moves on with every effect. -/
def tickingEnv : Env :=
  { sampleEnv with now := fun log => 1700000000000 + log.length }


/-! ## Stages of the availability probe -/

/-- The log at the reading of the clock in `checkOfficeAvailability` started from `s`. -/
def probeClockLog (s : State) : List Event :=
  s.log ++ [.call .checkOfficeAvailability []]

/-- The temp script of the probe started from `s`. -/
def probePath (P : NodeLib) (E : Env) (s : State) : String :=
  P.join [E.tmpdir, "office_check_" ++ toString (E.now (probeClockLog s)) ++ ".js"]

/-- What `fs.writeFile(scriptPath, testScript)` answers in the probe started from `s`. -/
def probeWritten (P : NodeLib) (E : Env) (s : State) : Outcome Unit :=
  E.writeFile (probeClockLog s ++ [.now (E.now (probeClockLog s))]) (probePath P E s)
    testScript

/-- The command line of the probe started from `s`. -/
def probeCommand (P : NodeLib) (E : Env) (s : State) : String :=
  "cscript //NoLogo \"" ++ probePath P E s ++ "\""

/-- What `execAsync` answers for the interpreter run of the probe started from `s`, made
after the write of the script. -/
def probeRan (P : NodeLib) (E : Env) (s : State) : Outcome String :=
  E.exec (probeClockLog s ++ [.now (E.now (probeClockLog s))] ++
    [.writeFile (probePath P E s) testScript (probeWritten P E s)]) (probeCommand P E s)

/-! ## Classification -/

/-- C1: `getFileType` depends on the path only through its lower-cased extension; it is
`office` exactly for the six office extensions, `image` exactly for the six image
extensions and `unknown` exactly for everything else; the two extension sets are
disjoint; and `isSupported` holds exactly when the type is not `unknown`. -/
theorem getFileType_classifies (P : NodeLib) (filePath other : String)
    (h : P.toLowerCase (P.extname other) = P.toLowerCase (P.extname filePath)) :
    getFileType P other = getFileType P filePath ∧
    (getFileType P filePath = "office" ↔
      P.toLowerCase (P.extname filePath) ∈ [".doc", ".docx", ".xls", ".xlsx", ".ppt", ".pptx"]) ∧
    (getFileType P filePath = "image" ↔
      P.toLowerCase (P.extname filePath) ∈ [".jpg", ".jpeg", ".png", ".tiff", ".tif", ".heic"]) ∧
    (getFileType P filePath = "unknown" ↔
      P.toLowerCase (P.extname filePath) ∉ [".doc", ".docx", ".xls", ".xlsx", ".ppt", ".pptx"] ∧
      P.toLowerCase (P.extname filePath) ∉ [".jpg", ".jpeg", ".png", ".tiff", ".tif", ".heic"]) ∧
    (∀ e ∈ supportedFormats.office, e ∉ supportedFormats.images) ∧
    (isSupported P filePath = true ↔ getFileType P filePath ≠ "unknown") := by
  refine ⟨?_, ?_, ?_, ?_, by decide, ?_⟩
  · simp only [getFileType, h]
  · simp only [getFileType, supportedFormats]
    by_cases h1 : P.toLowerCase (P.extname filePath) ∈
        [".doc", ".docx", ".xls", ".xlsx", ".ppt", ".pptx"]
    · simp [h1]
    · by_cases h2 : P.toLowerCase (P.extname filePath) ∈
          [".jpg", ".jpeg", ".png", ".tiff", ".tif", ".heic"]
      · simp [h1, h2]
      · simp [h1, h2]
  · simp only [getFileType, supportedFormats]
    by_cases h1 : P.toLowerCase (P.extname filePath) ∈
        [".doc", ".docx", ".xls", ".xlsx", ".ppt", ".pptx"]
    · have h2 : P.toLowerCase (P.extname filePath) ∉
          [".jpg", ".jpeg", ".png", ".tiff", ".tif", ".heic"] := by
        intro h2
        have hd : ∀ e ∈ [".doc", ".docx", ".xls", ".xlsx", ".ppt", ".pptx"],
            e ∉ [".jpg", ".jpeg", ".png", ".tiff", ".tif", ".heic"] := by decide
        exact hd _ h1 h2
      simp [h1, h2]
    · by_cases h2 : P.toLowerCase (P.extname filePath) ∈
          [".jpg", ".jpeg", ".png", ".tiff", ".tif", ".heic"]
      · simp [h1, h2]
      · simp [h1, h2]
  · simp only [getFileType, supportedFormats]
    by_cases h1 : P.toLowerCase (P.extname filePath) ∈
        [".doc", ".docx", ".xls", ".xlsx", ".ppt", ".pptx"]
    · simp [h1]
    · by_cases h2 : P.toLowerCase (P.extname filePath) ∈
          [".jpg", ".jpeg", ".png", ".tiff", ".tif", ".heic"]
      · simp [h1, h2]
      · simp [h1, h2]
  · simp [isSupported]

/-- Witness for C1: `Report.DOCX` and `b.docx` have the same lower-cased extension, so
they are classified alike, as `office`. -/
theorem getFileType_classifies_witness :
    posixPath.toLowerCase (posixPath.extname "b.docx") =
      posixPath.toLowerCase (posixPath.extname "/docs/Report.DOCX") ∧
    getFileType posixPath "b.docx" = getFileType posixPath "/docs/Report.DOCX" ∧
    getFileType posixPath "/docs/Report.DOCX" = "office" :=
  ⟨by decide,
   (getFileType_classifies posixPath "/docs/Report.DOCX" "b.docx" (by decide)).1, by decide⟩

/-! ## Running the state-passing code -/

theorem bind_eq {α β : Type} (x : Run α) (f : α → Run β) : (x >>= f) = Run.bind x f := rfl

theorem pure_eq {α : Type} (a : α) : (pure a : Run α) = fun s => (.ok a, s) := rfl

theorem throw_eq {α : Type} (m : String) : (throw m : Run α) = Run.throwError m := rfl

theorem tryCatch_eq {α : Type} (x : Run α) (h : String → Run α) :
    tryCatch x h = Run.tryCatch x h := rfl

theorem tryFinally_eq {α : Type} (x : Run α) (fin : Run Unit) :
    tryFinally x fin = Run.tryFinally x fin := by
  funext s
  simp only [tryFinally, Functor.map, Run.tryFinally, MonadFinally.tryFinally', Run.bind,
    Function.comp]
  rcases x s with ⟨r, s1⟩
  cases r <;> simp <;> rcases fin s1 with ⟨r2, s2⟩ <;> cases r2 <;> simp

theorem ite_run {α : Type} (c : Prop) [Decidable c] (x y : Run α) (s : State) :
    (if c then x else y) s = if c then x s else y s := by
  split <;> rfl

theorem bind_run {α β : Type} (x : Run α) (f : α → Run β) (s : State) :
    Run.bind x f s =
      match x s with
      | (.ok a, s1) => f a s1
      | (.error e, s1) => (.error e, s1) := rfl

theorem tryCatch_run {α : Type} (x : Run α) (h : String → Run α) (s : State) :
    Run.tryCatch x h s =
      match x s with
      | (.ok a, s1) => (.ok a, s1)
      | (.error e, s1) => h e s1 := rfl

theorem tryFinally_run {α : Type} (x : Run α) (fin : Run Unit) (s : State) :
    Run.tryFinally x fin s =
      match x s with
      | (r, s1) =>
        match fin s1 with
        | (.ok _, s2) => (r, s2)
        | (.error e, s2) => (.error e, s2) := rfl

/-- The cleanup `fs.unlink(p).catch(() => {})` never throws and logs one `unlink`. -/
theorem unlinkQuiet_run (E : Env) (p : String) (s : State) :
    Run.tryCatch (fsUnlink E p) (fun _ => pure ()) s =
      (.ok (), { s with log := s.log ++ [.unlink p (E.unlink s.log p)] }) := by
  simp only [tryCatch_run, fsUnlink, effect, pure_eq]
  cases E.unlink s.log p <;> rfl

/-- Closed form of the shared runner tail: clock, write, interpreter, unlink. -/
theorem writeAndExecute_run (P : NodeLib) (E : Env) (pre suf script interp : String)
    (s : State) :
    writeAndExecute P E pre suf script interp s =
      (let scriptPath := P.join [E.tmpdir, pre ++ toString (E.now s.log) ++ suf]
       let log1 := s.log ++ [.now (E.now s.log)]
       let log2 := log1 ++ [.writeFile scriptPath script (E.writeFile log1 scriptPath script)]
       let command := interp ++ " \"" ++ scriptPath ++ "\""
       let log3 := log2 ++ [.exec command (E.exec log2 command)]
       match E.writeFile log1 scriptPath script with
       | .error m => (.error m, { s with log := log2 })
       | .ok _ =>
         (E.exec log2 command,
          { s with log := log3 ++ [.unlink scriptPath (E.unlink log3 scriptPath)] })) := by
  simp only [writeAndExecute, bind_eq, tryCatch_eq, tryFinally_eq, bind_run,
    tryFinally_run, unlinkQuiet_run, effect, dateNow, fsWriteFile, execAsync]
  cases h1 : E.writeFile (s.log ++ [.now (E.now s.log)])
      (P.join [E.tmpdir, pre ++ toString (E.now s.log) ++ suf]) script with
  | error m => rfl
  | ok v => rfl

/-- The shared runner tail leaves `this` alone, appends external effects only, and throws
only the message of a failed write or interpreter run. -/
theorem writeAndExecute_spec (P : NodeLib) (E : Env) (pre suf script interp : String)
    (s : State) :
    (writeAndExecute P E pre suf script interp s).2.this = s.this ∧
    ∃ d, (writeAndExecute P E pre suf script interp s).2.log = s.log ++ d ∧ callsIn d = [] ∧
      ∀ m, (writeAndExecute P E pre suf script interp s).1 = .error m → FailedIn m d := by
  rw [writeAndExecute_run]
  simp only
  cases h1 : E.writeFile (s.log ++ [.now (E.now s.log)])
      (P.join [E.tmpdir, pre ++ toString (E.now s.log) ++ suf]) script with
  | error m =>
    refine ⟨rfl, _, by simp only [List.append_assoc]; rfl, by simp [callsIn, isCall], ?_⟩
    intro m1 hm
    simp only [Outcome.error.injEq] at hm
    subst hm
    exact Or.inl ⟨P.join [E.tmpdir, pre ++ toString (E.now s.log) ++ suf], script, by simp⟩
  | ok v =>
    refine ⟨rfl, _, by simp only [List.append_assoc]; rfl, by simp [callsIn, isCall], ?_⟩
    intro m1 hm
    simp only [List.append_assoc, List.singleton_append] at hm
    exact Or.inr ⟨interp ++ " \"" ++ P.join [E.tmpdir, pre ++ toString (E.now s.log) ++ suf]
      ++ "\"", by simp [hm]⟩

/-- The shared runner tail starts at most one process. -/
theorem writeAndExecute_exec_le_one (P : NodeLib) (E : Env) (pre suf script interp : String)
    (s : State) (d : List Event)
    (h : (writeAndExecute P E pre suf script interp s).2.log = s.log ++ d) :
    d.countP isExec ≤ 1 := by
  rw [writeAndExecute_run] at h
  simp only at h
  cases h1 : E.writeFile (s.log ++ [.now (E.now s.log)])
      (P.join [E.tmpdir, pre ++ toString (E.now s.log) ++ suf]) script with
  | error m =>
    rw [h1] at h
    simp only [List.append_assoc, List.append_cancel_left_eq] at h
    subst h
    simp [isExec]
  | ok v =>
    rw [h1] at h
    simp only [List.append_assoc, List.append_cancel_left_eq] at h
    subst h
    simp [isExec]

/-- A method of the form `record c; writeAndExecute ..` meets `RunnerSpec`. -/
theorem runnerSpec_of_writeAndExecute (P : NodeLib) (E : Env) (c : Event)
    (pre suf script interp : String) (s : State) :
    RunnerSpec (Run.bind (record c) fun _ =>
      Run.bind (writeAndExecute P E pre suf script interp) fun _ => pure PUnit.unit) c s := by
  obtain ⟨hthis, d, hlog, hcalls, hfail⟩ :=
    writeAndExecute_spec P E pre suf script interp { s with log := s.log ++ [c] }
  simp only [RunnerSpec, bind_run, record, pure_eq]
  rcases hx : writeAndExecute P E pre suf script interp { s with log := s.log ++ [c] }
    with ⟨r, s2⟩
  rw [hx] at hthis hlog hfail
  simp only at hthis hlog hfail
  cases r with
  | ok a => exact ⟨hthis, d, by simp [hlog], hcalls, by simp⟩
  | error m => exact ⟨hthis, d, by simp [hlog], hcalls, by simpa using hfail⟩

theorem convertWordToPDF_spec (P : NodeLib) (E : Env) (inputPath outputPath : String)
    (s : State) :
    RunnerSpec (convertWordToPDF P E inputPath outputPath)
      (.call .convertWordToPDF [inputPath, outputPath]) s :=
  runnerSpec_of_writeAndExecute P E _ _ _ _ _ s

theorem convertExcelToPDF_spec (P : NodeLib) (E : Env) (inputPath outputPath : String)
    (s : State) :
    RunnerSpec (convertExcelToPDF P E inputPath outputPath)
      (.call .convertExcelToPDF [inputPath, outputPath]) s :=
  runnerSpec_of_writeAndExecute P E _ _ _ _ _ s

theorem convertPowerPointToPDF_spec (P : NodeLib) (E : Env) (inputPath outputPath : String)
    (s : State) :
    RunnerSpec (convertPowerPointToPDF P E inputPath outputPath)
      (.call .convertPowerPointToPDF [inputPath, outputPath]) s :=
  runnerSpec_of_writeAndExecute P E _ _ _ _ _ s

theorem convertWordViaPowerShell_spec (P : NodeLib) (E : Env) (inputPath outputPath : String)
    (s : State) :
    RunnerSpec (convertWordViaPowerShell P E inputPath outputPath)
      (.call .convertWordViaPowerShell [inputPath, outputPath]) s :=
  runnerSpec_of_writeAndExecute P E _ _ _ _ _ s

theorem convertExcelViaPowerShell_spec (P : NodeLib) (E : Env) (inputPath outputPath : String)
    (s : State) :
    RunnerSpec (convertExcelViaPowerShell P E inputPath outputPath)
      (.call .convertExcelViaPowerShell [inputPath, outputPath]) s :=
  runnerSpec_of_writeAndExecute P E _ _ _ _ _ s

theorem convertPowerPointViaPowerShell_spec (P : NodeLib) (E : Env)
    (inputPath outputPath : String) (s : State) :
    RunnerSpec (convertPowerPointViaPowerShell P E inputPath outputPath)
      (.call .convertPowerPointViaPowerShell [inputPath, outputPath]) s :=
  runnerSpec_of_writeAndExecute P E _ _ _ _ _ s

theorem callsIn_append (l1 l2 : List Event) : callsIn (l1 ++ l2) = callsIn l1 ++ callsIn l2 := by
  simp [callsIn]

theorem callsIn_cons_call (m : Method) (args : List String) (d : List Event) :
    callsIn (.call m args :: d) = .call m args :: callsIn d := by
  simp [callsIn, isCall]

theorem failedIn_mono (m : String) (d d1 : List Event) (h : ∀ e ∈ d, e ∈ d1)
    (hf : FailedIn m d) : FailedIn m d1 := by
  rcases hf with ⟨p, c, hm⟩ | ⟨c, hm⟩
  · exact Or.inl ⟨p, c, h _ hm⟩
  · exact Or.inr ⟨c, h _ hm⟩

/-- Wrapping a runner in `try { runner; return outputPath } catch { throw wrapped }`. -/
theorem viaSpec_of_runner (x : Run Unit) (c0 : Event) (mth : Method) (args : List String)
    (outputPath pre post : String) (s : State)
    (h : RunnerSpec x (.call mth args) { s with log := s.log ++ [c0] }) :
    ViaSpec (Run.bind (record c0) fun _ =>
        Run.tryCatch (Run.bind x fun _ => pure outputPath)
          (fun error => throw (pre ++ error ++ post)))
      c0 [.call mth args] outputPath pre post s := by
  obtain ⟨hthis, d, hlog, hcalls, hfail⟩ := h
  simp only [ViaSpec, bind_run, tryCatch_run, record, pure_eq, throw_eq, Run.throwError]
  rcases hx : x { s with log := s.log ++ [c0] } with ⟨r, s2⟩
  rw [hx] at hthis hlog hfail
  simp only at hthis hlog hfail
  cases r with
  | ok a =>
    exact ⟨hthis, .call mth args :: d, by simp [hlog], by simp [callsIn_cons_call, hcalls],
      Or.inl rfl⟩
  | error m =>
    refine ⟨hthis, .call mth args :: d, by simp [hlog], by simp [callsIn_cons_call, hcalls],
      Or.inr ⟨m, rfl, ?_⟩⟩
    exact failedIn_mono m d _ (fun e he => List.mem_cons_of_mem _ he) (hfail m rfl)

/-- No runner at all: `try { return outputPath } catch ..` just returns the output path. -/
theorem viaSpec_of_skip (c0 : Event) (outputPath pre post : String) (s : State) :
    ViaSpec (Run.bind (record c0) fun _ =>
        Run.tryCatch (Run.bind (pure PUnit.unit) fun _ => pure outputPath)
          (fun error => throw (pre ++ error ++ post)))
      c0 [] outputPath pre post s := by
  unfold ViaSpec
  exact ⟨rfl, [], by simp [bind_run, tryCatch_run, record, pure_eq], rfl, Or.inl rfl⟩

theorem convertOfficeViaCOM_spec (P : NodeLib) (E : Env) (inputPath outputPath : String)
    (s : State) :
    ViaSpec (convertOfficeViaCOM P E inputPath outputPath)
      (.call .convertOfficeViaCOM [inputPath, outputPath])
      (comRunnerCalls (P.toLowerCase (P.extname inputPath)) inputPath outputPath)
      outputPath "Office conversion failed: " ". Ensure Microsoft Office is installed." s := by
  unfold convertOfficeViaCOM comRunnerCalls
  simp only [bind_eq, tryCatch_eq]
  by_cases h1 : [".doc", ".docx"].contains (P.toLowerCase (P.extname inputPath)) = true
  · simp only [h1, if_true]
    exact viaSpec_of_runner _ _ _ _ _ _ _ s (convertWordToPDF_spec P E _ _ _)
  · by_cases h2 : [".xls", ".xlsx"].contains (P.toLowerCase (P.extname inputPath)) = true
    · simp only [h1, h2, if_true, if_false]
      exact viaSpec_of_runner _ _ _ _ _ _ _ s (convertExcelToPDF_spec P E _ _ _)
    · by_cases h3 : [".ppt", ".pptx"].contains (P.toLowerCase (P.extname inputPath)) = true
      · simp only [h1, h2, h3, if_true, if_false]
        exact viaSpec_of_runner _ _ _ _ _ _ _ s (convertPowerPointToPDF_spec P E _ _ _)
      · simp only [h1, h2, h3, if_false]
        exact viaSpec_of_skip _ _ _ _ s

theorem convertOfficeViaPowerShell_spec (P : NodeLib) (E : Env)
    (inputPath outputPath : String) (s : State) :
    ViaSpec (convertOfficeViaPowerShell P E inputPath outputPath)
      (.call .convertOfficeViaPowerShell [inputPath, outputPath])
      (psRunnerCalls (P.toLowerCase (P.extname inputPath)) inputPath outputPath)
      outputPath "PowerShell Office conversion failed: "
      ". Please ensure Microsoft Office is installed." s := by
  unfold convertOfficeViaPowerShell psRunnerCalls
  simp only [bind_eq, tryCatch_eq]
  by_cases h1 : [".doc", ".docx"].contains (P.toLowerCase (P.extname inputPath)) = true
  · simp only [h1, if_true]
    exact viaSpec_of_runner _ _ _ _ _ _ _ s (convertWordViaPowerShell_spec P E _ _ _)
  · by_cases h2 : [".xls", ".xlsx"].contains (P.toLowerCase (P.extname inputPath)) = true
    · simp only [h1, h2, if_true, if_false]
      exact viaSpec_of_runner _ _ _ _ _ _ _ s (convertExcelViaPowerShell_spec P E _ _ _)
    · by_cases h3 : [".ppt", ".pptx"].contains (P.toLowerCase (P.extname inputPath)) = true
      · simp only [h1, h2, h3, if_true, if_false]
        exact viaSpec_of_runner _ _ _ _ _ _ _ s (convertPowerPointViaPowerShell_spec P E _ _ _)
      · simp only [h1, h2, h3, if_false]
        exact viaSpec_of_skip _ _ _ _ s

/-! ## The availability probe -/

/-- Closed form of `checkOfficeAvailability`. -/
theorem checkOfficeAvailability_run (P : NodeLib) (E : Env) (s : State) :
    checkOfficeAvailability P E s =
      (let s0 : State := { s with log := s.log ++ [.call .checkOfficeAvailability []] }
       match s.this.officeAvailable with
       | some cached => (.ok (some cached), s0)
       | none =>
         if s.this.isWindows = false then
           (.ok (some false), { s0 with this := { s.this with officeAvailable := some false } })
         else
           match writeAndExecute P E "office_check_" ".js" testScript "cscript //NoLogo" s0 with
           | (.ok stdout, s1) =>
             (.ok (some (decide (trim stdout = "Available"))),
              { s1 with this := { s1.this with
                  officeAvailable := some (decide (trim stdout = "Available")) } })
           | (.error _, s1) =>
             (.ok (some false), { s1 with this := { s1.this with officeAvailable := some false } })) := by
  simp only [checkOfficeAvailability, bind_eq, tryCatch_eq, bind_run, record, getOfficeAvailable]
  cases h : s.this.officeAvailable with
  | some cached => rfl
  | none =>
    simp only [bind_run, getIsWindows, ite_run, setOfficeAvailable, pure_eq, tryCatch_run,
      Bool.not_eq_true']
    split
    · rfl
    · rcases hx : writeAndExecute P E "office_check_" ".js" testScript "cscript //NoLogo"
        { this := s.this, log := s.log ++ [.call .checkOfficeAvailability []] } with ⟨r, s1⟩
      cases r <;> rfl

theorem newEvents_eq {α : Type} (x : Run α) (s : State) (d : List Event)
    (h : (x s).2.log = s.log ++ d) : newEvents x s = d := by
  simp [newEvents, h]

/-- C10: on a first call (nothing cached) the probe returns and caches one boolean `b`.
`b` is `true` exactly when the platform is Windows, `fs.writeFile` accepts the probe
script, the interpreter run on it ends without error, and its output trimmed is
`Available`.  Off Windows `b` is `false` and the call only records itself (no write, no
process).  On Windows the probe does run: the script is written to the temp path; once it
is written the interpreter is started on it and the script is deleted; after a failed
write no process is started. -/
theorem checkOfficeAvailability_first_call (P : NodeLib) (E : Env) (s : State)
    (h : s.this.officeAvailable = none) :
    ∃ b, (checkOfficeAvailability P E s).1 = .ok (some b) ∧
      (checkOfficeAvailability P E s).2.this.officeAvailable = some b ∧
      (b = true ↔ s.this.isWindows = true ∧ probeWritten P E s = .ok () ∧
        ∃ stdout, probeRan P E s = .ok stdout ∧ trim stdout = "Available") ∧
      (s.this.isWindows = false →
        b = false ∧
        newEvents (checkOfficeAvailability P E) s = [.call .checkOfficeAvailability []]) ∧
      (s.this.isWindows = true →
        (∀ m, probeWritten P E s = .error m →
          newEvents (checkOfficeAvailability P E) s =
            [.call .checkOfficeAvailability [], .now (E.now (probeClockLog s)),
             .writeFile (probePath P E s) testScript (.error m)]) ∧
        (probeWritten P E s = .ok () →
          ∃ u, newEvents (checkOfficeAvailability P E) s =
            [.call .checkOfficeAvailability [], .now (E.now (probeClockLog s)),
             .writeFile (probePath P E s) testScript (.ok ()),
             .exec (probeCommand P E s) (probeRan P E s),
             .unlink (probePath P E s) u])) := by
  have hrun := checkOfficeAvailability_run P E s
  simp only [h] at hrun
  simp only [probeRan, probeCommand, probeWritten, probePath, probeClockLog]
  by_cases hw : s.this.isWindows = false
  · simp only [hw, if_true] at hrun
    refine ⟨false, by rw [hrun], by rw [hrun], by simp [hw], fun _ => ⟨rfl, ?_⟩,
      fun hf => by simp [hw] at hf⟩
    exact newEvents_eq _ _ _ (by rw [hrun])
  · simp only [hw, if_false, writeAndExecute_run] at hrun
    have hw1 : s.this.isWindows = true := by simpa using hw
    generalize hp : P.join [E.tmpdir, "office_check_" ++
      toString (E.now (s.log ++ [.call .checkOfficeAvailability []])) ++ ".js"] = path
      at hrun ⊢
    generalize hwr : E.writeFile (s.log ++ [.call .checkOfficeAvailability []] ++
      [.now (E.now (s.log ++ [.call .checkOfficeAvailability []]))]) path testScript = w
      at hrun ⊢
    have hcmd : "cscript //NoLogo" ++ " \"" = "cscript //NoLogo \"" := by decide
    simp only [hcmd] at hrun
    generalize hex : E.exec (s.log ++ [.call .checkOfficeAvailability []] ++
      [.now (E.now (s.log ++ [.call .checkOfficeAvailability []]))] ++
      [.writeFile path testScript w]) ("cscript //NoLogo \"" ++ path ++ "\"") = x at hrun ⊢
    generalize hul : E.unlink (s.log ++ [.call .checkOfficeAvailability []] ++
      [.now (E.now (s.log ++ [.call .checkOfficeAvailability []]))] ++
      [.writeFile path testScript w] ++ [.exec ("cscript //NoLogo \"" ++ path ++ "\"") x])
      path = u at hrun
    cases w with
    | error m =>
      simp only [Bool.true_eq_false, if_false] at hrun
      refine ⟨false, by rw [hrun], by rw [hrun], by simp, fun hf => absurd hf hw,
        fun _ => ⟨fun m1 hm1 => ?_, fun hok => by cases hok⟩⟩
      cases hm1
      exact newEvents_eq _ s _ (by rw [hrun]; simp only [List.append_assoc]; rfl)
    | ok v =>
      have hnew : newEvents (checkOfficeAvailability P E) s =
          [.call .checkOfficeAvailability [],
           .now (E.now (s.log ++ [.call .checkOfficeAvailability []])),
           .writeFile path testScript (.ok ()),
           .exec ("cscript //NoLogo \"" ++ path ++ "\"") x, .unlink path u] := by
        cases x <;>
          exact newEvents_eq _ s _ (by rw [hrun]; simp only [List.append_assoc]; rfl)
      cases x with
      | error m =>
        simp only [Bool.true_eq_false, if_false] at hrun
        exact ⟨false, by rw [hrun], by rw [hrun], by simp, fun hf => absurd hf hw,
          fun _ => ⟨fun m1 hm1 => (by cases hm1), fun _ => ⟨u, hnew⟩⟩⟩
      | ok stdout =>
        simp only [Bool.true_eq_false, if_false] at hrun
        exact ⟨decide (trim stdout = "Available"), by rw [hrun], by rw [hrun],
          by simp [hw1], fun hf => absurd hf hw,
          fun _ => ⟨fun m1 hm1 => (by cases hm1), fun _ => ⟨u, hnew⟩⟩⟩

/-- Every call of the probe returns a boolean, leaves it in the cache, keeps a value that
was already cached, records its own invocation and invokes nothing else, and starts at most
one process. -/
theorem checkOfficeAvailability_resolves (P : NodeLib) (E : Env) (s : State) :
    ∃ b, (checkOfficeAvailability P E s).1 = .ok (some b) ∧
      (checkOfficeAvailability P E s).2.this =
        { isWindows := s.this.isWindows, officeAvailable := some b } ∧
      (∀ c, s.this.officeAvailable = some c → b = c) ∧
      ∃ d, (checkOfficeAvailability P E s).2.log =
          s.log ++ .call .checkOfficeAvailability [] :: d ∧
        callsIn d = [] ∧ d.countP isExec ≤ 1 ∧
        (∀ c, s.this.officeAvailable = some c → d = []) := by
  rw [checkOfficeAvailability_run]
  simp only
  cases h : s.this.officeAvailable with
  | some cached =>
    refine ⟨cached, rfl, ?_, by simp, [], by simp, rfl, by simp, by simp⟩
    simp only [← h]
  | none =>
    by_cases hw : s.this.isWindows = false
    · simp only [hw, if_true]
      exact ⟨false, rfl, rfl, by simp, [], by simp, rfl, by simp, by simp⟩
    · have hw1 : s.this.isWindows = true := by simpa using hw
      simp only [hw1, Bool.true_eq_false, if_false]
      obtain ⟨hthis, d, hlog, hcalls, _⟩ := writeAndExecute_spec P E "office_check_" ".js"
        testScript "cscript //NoLogo"
        { this := s.this, log := s.log ++ [.call .checkOfficeAvailability []] }
      have hexec := writeAndExecute_exec_le_one P E "office_check_" ".js"
        testScript "cscript //NoLogo"
        { this := s.this, log := s.log ++ [.call .checkOfficeAvailability []] } d hlog
      rcases hx : writeAndExecute P E "office_check_" ".js" testScript "cscript //NoLogo"
        { this := s.this, log := s.log ++ [.call .checkOfficeAvailability []] } with ⟨r, s1⟩
      rw [hx] at hthis hlog
      simp only at hthis hlog
      cases r with
      | ok stdout =>
        exact ⟨decide (trim stdout = "Available"), rfl, by simp [hthis, hw1], by simp, d,
          by simp [hlog], hcalls, hexec, by simp⟩
      | error m =>
        exact ⟨false, rfl, by simp [hthis, hw1], by simp, d,
          by simp [hlog], hcalls, hexec, by simp⟩

/-- Witness for C10: a fresh converter on Windows has nothing cached; where the script is
written and the interpreter prints `Available`, the probe answers and caches `true`. -/
theorem checkOfficeAvailability_first_call_witness :
    windowsStart.this.officeAvailable = none ∧
    (checkOfficeAvailability posixPath sampleEnv windowsStart).1 = .ok (some true) ∧
    (checkOfficeAvailability posixPath sampleEnv windowsStart).2.this.officeAvailable =
      some true ∧
    ∃ u, newEvents (checkOfficeAvailability posixPath sampleEnv) windowsStart =
      [.call .checkOfficeAvailability [], .now 1700000000000,
       .writeFile "/tmp/office_check_1700000000000.js" testScript (.ok ()),
       .exec "cscript //NoLogo \"/tmp/office_check_1700000000000.js\"" (.ok "Available\r\n"),
       .unlink "/tmp/office_check_1700000000000.js" u] :=
  ⟨rfl,
   (checkOfficeAvailability_first_call posixPath sampleEnv windowsStart rfl).elim
    fun b hb =>
      have hb1 : b = true := hb.2.2.1.mpr ⟨rfl, rfl, "Available\r\n", rfl, by decide⟩
      ⟨hb1 ▸ hb.1, hb1 ▸ hb.2.1, hb.2.2.2.2 rfl |>.2 rfl⟩⟩

/-- C9: once a call of `checkOfficeAvailability` has returned the boolean `b`, a call in
any later state of the same converter returns `b` again, only records its own invocation
(no script is written, no process is started) and leaves the converter unchanged; the
first call starts at most one process, and it puts `b` in the cache, keeping a value that
was cached before. -/
theorem checkOfficeAvailability_memoized (P : NodeLib) (E : Env) (s later : State)
    (h : later.this = (checkOfficeAvailability P E s).2.this) :
    ∃ b, (checkOfficeAvailability P E s).1 = .ok (some b) ∧
      (checkOfficeAvailability P E s).2.this.officeAvailable = some b ∧
      (∀ c, s.this.officeAvailable = some c → b = c) ∧
      (checkOfficeAvailability P E later).1 = .ok (some b) ∧
      (checkOfficeAvailability P E later).2.this = later.this ∧
      newEvents (checkOfficeAvailability P E) later = [.call .checkOfficeAvailability []] ∧
      ((newEvents (checkOfficeAvailability P E) s) ++
        (newEvents (checkOfficeAvailability P E) later)).countP isExec ≤ 1 := by
  obtain ⟨b, hres, hthis, hkeep, d, hlog, _, hexec, _⟩ := checkOfficeAvailability_resolves P E s
  have hcached : later.this.officeAvailable = some b := by rw [h, hthis]
  have hrun := checkOfficeAvailability_run P E later
  simp only [hcached] at hrun
  have hnew : newEvents (checkOfficeAvailability P E) later =
      [.call .checkOfficeAvailability []] := newEvents_eq _ _ _ (by rw [hrun])
  refine ⟨b, hres, by rw [hthis], hkeep, by rw [hrun], by rw [hrun], hnew, ?_⟩
  rw [hnew, newEvents_eq _ s _ hlog]
  simpa [isExec] using hexec

/-- Witness for C9: the second call is made in the state left by the first one. -/
theorem checkOfficeAvailability_memoized_witness :
    (checkOfficeAvailability posixPath sampleEnv windowsStart).2.this =
      (checkOfficeAvailability posixPath sampleEnv windowsStart).2.this ∧
    ∃ b, (checkOfficeAvailability posixPath sampleEnv windowsStart).1 = .ok (some b) ∧
      (checkOfficeAvailability posixPath sampleEnv
        (checkOfficeAvailability posixPath sampleEnv windowsStart).2).1 = .ok (some b) ∧
      newEvents (checkOfficeAvailability posixPath sampleEnv)
        (checkOfficeAvailability posixPath sampleEnv windowsStart).2 =
          [.call .checkOfficeAvailability []] :=
  ⟨rfl,
   (checkOfficeAvailability_memoized posixPath sampleEnv windowsStart
      (checkOfficeAvailability posixPath sampleEnv windowsStart).2 rfl).elim
    fun b hb => ⟨b, hb.1, hb.2.2.2.1, hb.2.2.2.2.2.1⟩⟩

/-! ## The office strategy -/

/-- Closed form of `convertOfficeToPDF`: resolve the method, make the first attempt, and
fall back to PowerShell when the attempt throws and `useMethod` is `native`. -/
theorem convertOfficeToPDF_run (P : NodeLib) (E : Env) (inputPath outputPath : String)
    (s : State) :
    convertOfficeToPDF P E inputPath outputPath s =
      (let useMethod := (resolved P E inputPath outputPath s).1
       let s2 := (resolved P E inputPath outputPath s).2
       if useMethod = "native" ∧ s2.this.isWindows = true then
         match convertOfficeViaCOM P E inputPath outputPath s2 with
         | (.ok p, s3) => (.ok p, s3)
         | (.error _, s3) =>
           convertOfficeViaPowerShell P E inputPath outputPath (fallbackState s3)
       else
         match convertOfficeViaPowerShell P E inputPath outputPath s2 with
         | (.ok p, s3) => (.ok p, s3)
         | (.error e, s3) =>
           if useMethod = "native" then
             convertOfficeViaPowerShell P E inputPath outputPath (fallbackState s3)
           else (.error e, s3)) := by
  simp only [convertOfficeToPDF, bind_eq, tryCatch_eq, bind_run, record, getSetting, ite_run,
    resolved, configuredMethod, afterSetting]
  simp only [List.append_assoc, List.singleton_append]
  by_cases hauto : E.getSetting (s.log ++ [.call .convertOfficeToPDF [inputPath, outputPath]])
      "officeConversionMethod" = "auto"
  · simp only [hauto, if_true, bind_run]
    obtain ⟨b, hres, -⟩ := checkOfficeAvailability_resolves P E
      { this := s.this, log := s.log ++ [.call .convertOfficeToPDF [inputPath, outputPath],
        .getSetting "officeConversionMethod" "auto"] }
    rcases hx : checkOfficeAvailability P E
      { this := s.this, log := s.log ++ [.call .convertOfficeToPDF [inputPath, outputPath],
        .getSetting "officeConversionMethod" "auto"] } with ⟨r, s2⟩
    rw [hx] at hres
    simp only at hres
    subst hres
    simp only [pure_eq, bind_run, getIsWindows, tryCatch_run, ite_run, consoleLog, record,
      throw_eq, Run.throwError, fallbackState]
    cases b <;> by_cases hw : s2.this.isWindows = true <;> simp [hw] <;>
      first
      | (rcases convertOfficeViaCOM P E inputPath outputPath s2 with ⟨r, s3⟩
         cases r <;> rfl)
      | (rcases convertOfficeViaPowerShell P E inputPath outputPath s2 with ⟨r, s3⟩
         cases r <;> rfl)
  · simp only [hauto, if_false, pure_eq, bind_run, getIsWindows, tryCatch_run, ite_run,
      consoleLog, record, throw_eq, Run.throwError, fallbackState]
    by_cases h : E.getSetting (s.log ++ [.call .convertOfficeToPDF [inputPath, outputPath]])
      "officeConversionMethod" = "native" ∧ s.this.isWindows = true
    · simp only [h, and_self, if_true]
      split <;> rename_i heq <;> rw [heq]
    · simp only [h, if_false, ite_self]
      split <;> rename_i heq <;> rw [heq]

theorem attemptsIn_append (l1 l2 : List Event) :
    attemptsIn (l1 ++ l2) = attemptsIn l1 ++ attemptsIn l2 := by
  induction l1 with
  | nil => rfl
  | cons e l ih =>
    cases e with
    | call m args => cases m <;> simp [attemptsIn, ih]
    | _ => simp [attemptsIn, ih]

theorem attemptsIn_callsIn (l : List Event) : attemptsIn (callsIn l) = attemptsIn l := by
  induction l with
  | nil => rfl
  | cons e l ih =>
    cases e with
    | call m args =>
      rw [callsIn_cons_call]
      cases m <;> simp [attemptsIn, ih]
    | _ => simpa [attemptsIn, callsIn, isCall] using ih

theorem callCount_callsIn (m : Method) (l : List Event) :
    callCount m (callsIn l) = callCount m l := by
  induction l with
  | nil => rfl
  | cons e l ih =>
    cases e with
    | call m1 args =>
      rw [callsIn_cons_call]
      simp only [callCount, List.countP_cons] at ih ⊢
      rw [ih]
    | _ => simpa [callCount, callsIn, isCall, isCallOf] using ih

theorem attemptsIn_comRunnerCalls (ext inputPath outputPath : String) :
    attemptsIn (comRunnerCalls ext inputPath outputPath) = [] := by
  unfold comRunnerCalls
  split
  · rfl
  · split
    · rfl
    · split <;> rfl

theorem attemptsIn_psRunnerCalls (ext inputPath outputPath : String) :
    attemptsIn (psRunnerCalls ext inputPath outputPath) = [] := by
  unfold psRunnerCalls
  split
  · rfl
  · split
    · rfl
    · split <;> rfl

theorem attemptsIn_resolveCalls (cfg inputPath outputPath : String) :
    attemptsIn (resolveCalls cfg inputPath outputPath) = [] := by
  unfold resolveCalls
  split <;> rfl

theorem attemptsIn_comCalls (P : NodeLib) (inputPath outputPath : String) :
    attemptsIn (comCalls P inputPath outputPath) = [.convertOfficeViaCOM] := by
  simp [comCalls, attemptsIn, attemptsIn_comRunnerCalls]

theorem attemptsIn_psCalls (P : NodeLib) (inputPath outputPath : String) :
    attemptsIn (psCalls P inputPath outputPath) = [.convertOfficeViaPowerShell] := by
  simp [psCalls, attemptsIn, attemptsIn_psRunnerCalls]

theorem appends_newEvents {α : Type} (x : Run α) (s : State) (calls : List Event)
    (h : Appends x s calls) : callsIn (newEvents x s) = calls := by
  obtain ⟨d, hlog, hcalls⟩ := h
  rw [newEvents_eq x s d hlog, hcalls]

theorem convertOfficeViaCOM_appends (P : NodeLib) (E : Env) (inputPath outputPath : String)
    (s : State) :
    Appends (convertOfficeViaCOM P E inputPath outputPath) s (comCalls P inputPath outputPath) := by
  obtain ⟨-, d, hlog, hcalls, -⟩ := convertOfficeViaCOM_spec P E inputPath outputPath s
  exact ⟨_, hlog, by rw [callsIn_cons_call, hcalls]; rfl⟩

theorem convertOfficeViaPowerShell_appends (P : NodeLib) (E : Env)
    (inputPath outputPath : String) (s : State) :
    Appends (convertOfficeViaPowerShell P E inputPath outputPath) s
      (psCalls P inputPath outputPath) := by
  obtain ⟨-, d, hlog, hcalls, -⟩ := convertOfficeViaPowerShell_spec P E inputPath outputPath s
  exact ⟨_, hlog, by rw [callsIn_cons_call, hcalls]; rfl⟩

/-- Resolving the method keeps the platform flag and appends the invocations
`resolveCalls`. -/
theorem resolved_spec (P : NodeLib) (E : Env) (inputPath outputPath : String) (s : State) :
    (resolved P E inputPath outputPath s).2.this.isWindows = s.this.isWindows ∧
    ∃ d, (resolved P E inputPath outputPath s).2.log = s.log ++ d ∧
      callsIn d = resolveCalls (configuredMethod E inputPath outputPath s) inputPath outputPath := by
  unfold resolved resolveCalls
  by_cases hauto : configuredMethod E inputPath outputPath s = "auto"
  · simp only [hauto, if_true]
    obtain ⟨b, -, hthis, -, d, hlog, hcalls, -⟩ :=
      checkOfficeAvailability_resolves P E (afterSetting E inputPath outputPath s)
    refine ⟨by rw [hthis]; rfl, _, by rw [hlog]; simp only [afterSetting, List.append_assoc]; rfl, ?_⟩
    simp [callsIn, isCall] at hcalls ⊢
    exact hcalls
  · simp only [hauto, if_false]
    exact ⟨rfl, _, rfl, by simp [callsIn, isCall]⟩

/-- Two stretches appended one after the other. -/
theorem callsIn_newEvents_of_steps {α : Type} (x : Run α) (s s2 : State) (d0 d1 : List Event)
    (h0 : s2.log = s.log ++ d0) (h1 : (x s).2.log = s2.log ++ d1) :
    callsIn (newEvents x s) = callsIn d0 ++ callsIn d1 := by
  rw [newEvents_eq x s (d0 ++ d1) (by rw [h1, h0, List.append_assoc]), callsIn_append]

/-- When `useMethod` is not `native`, `convertOfficeToPDF` is one scripted conversion run
from the state reached after resolving the method. -/
theorem convertOfficeToPDF_scripted (P : NodeLib) (E : Env) (inputPath outputPath : String)
    (s : State) (hm : (resolved P E inputPath outputPath s).1 ≠ "native") :
    convertOfficeToPDF P E inputPath outputPath s =
      convertOfficeViaPowerShell P E inputPath outputPath
        (resolved P E inputPath outputPath s).2 ∧
    Appends (convertOfficeToPDF P E inputPath outputPath) s
      (resolveCalls (configuredMethod E inputPath outputPath s) inputPath outputPath ++
        psCalls P inputPath outputPath) := by
  have hrun : convertOfficeToPDF P E inputPath outputPath s =
      convertOfficeViaPowerShell P E inputPath outputPath
        (resolved P E inputPath outputPath s).2 := by
    rw [convertOfficeToPDF_run]
    simp only [hm, false_and, if_false]
    rcases convertOfficeViaPowerShell P E inputPath outputPath
      (resolved P E inputPath outputPath s).2 with ⟨r, s3⟩
    cases r <;> rfl
  refine ⟨hrun, ?_⟩
  obtain ⟨-, d0, h0, hc0⟩ := resolved_spec P E inputPath outputPath s
  obtain ⟨d1, h1, hc1⟩ := convertOfficeViaPowerShell_appends P E inputPath outputPath
    (resolved P E inputPath outputPath s).2
  exact ⟨d0 ++ d1, by rw [hrun, h1, h0, List.append_assoc], by rw [callsIn_append, hc0, hc1]⟩

/-- When `useMethod` is `native` on Windows, `convertOfficeToPDF` makes the resident
attempt; if that succeeds its outcome is returned, and if it throws the outcome is that
of one scripted conversion run after the console message. -/
theorem convertOfficeToPDF_resident (P : NodeLib) (E : Env) (inputPath outputPath : String)
    (s : State) (hm : (resolved P E inputPath outputPath s).1 = "native")
    (hw : s.this.isWindows = true) :
    (∀ p s3, convertOfficeViaCOM P E inputPath outputPath
        (resolved P E inputPath outputPath s).2 = (.ok p, s3) →
      convertOfficeToPDF P E inputPath outputPath s = (.ok p, s3) ∧
      Appends (convertOfficeToPDF P E inputPath outputPath) s
        (resolveCalls (configuredMethod E inputPath outputPath s) inputPath outputPath ++
          comCalls P inputPath outputPath)) ∧
    (∀ e s3, convertOfficeViaCOM P E inputPath outputPath
        (resolved P E inputPath outputPath s).2 = (.error e, s3) →
      convertOfficeToPDF P E inputPath outputPath s =
        convertOfficeViaPowerShell P E inputPath outputPath (fallbackState s3) ∧
      Appends (convertOfficeToPDF P E inputPath outputPath) s
        (resolveCalls (configuredMethod E inputPath outputPath s) inputPath outputPath ++
          (comCalls P inputPath outputPath ++ psCalls P inputPath outputPath))) := by
  obtain ⟨hwin, d0, h0, hc0⟩ := resolved_spec P E inputPath outputPath s
  obtain ⟨d1, h1, hc1⟩ := convertOfficeViaCOM_appends P E inputPath outputPath
    (resolved P E inputPath outputPath s).2
  have hrun := convertOfficeToPDF_run P E inputPath outputPath s
  simp only [hm, hwin, hw, and_self, if_true] at hrun
  constructor
  · intro p s3 hcom
    rw [hcom] at hrun h1
    simp only at hrun h1
    refine ⟨hrun, ?_⟩
    exact ⟨d0 ++ d1, by rw [hrun, h1, h0, List.append_assoc],
      by rw [callsIn_append, hc0, hc1]⟩
  · intro e s3 hcom
    rw [hcom] at hrun h1
    simp only at hrun h1
    refine ⟨hrun, ?_⟩
    obtain ⟨d2, h2, hc2⟩ := convertOfficeViaPowerShell_appends P E inputPath outputPath
      (fallbackState s3)
    have hfb : (fallbackState s3).log = (resolved P E inputPath outputPath s).2.log ++
        (d1 ++ [.consoleLog "Native Office VBS failed, falling back to PowerShell..."]) := by
      simp only [fallbackState, h1, List.append_assoc]
    refine ⟨d0 ++ ((d1 ++
      [.consoleLog "Native Office VBS failed, falling back to PowerShell..."]) ++ d2),
      by rw [hrun, h2, hfb, h0]; simp only [List.append_assoc], ?_⟩
    simp only [callsIn_append, hc0, hc1, hc2]
    simp [callsIn, isCall]

/-- `useMethod` is `native` exactly when the setting is `native`, or it is `auto` and the
probe answers `true`. -/
theorem resolved_native_iff (P : NodeLib) (E : Env) (inputPath outputPath : String)
    (s : State) :
    (resolved P E inputPath outputPath s).1 = "native" ↔
      (configuredMethod E inputPath outputPath s = "native" ∨
        (configuredMethod E inputPath outputPath s = "auto" ∧
          (checkOfficeAvailability P E (afterSetting E inputPath outputPath s)).1 =
            .ok (some true))) := by
  unfold resolved
  by_cases hauto : configuredMethod E inputPath outputPath s = "auto"
  · simp only [hauto, if_true, true_and]
    by_cases hb : (checkOfficeAvailability P E (afterSetting E inputPath outputPath s)).1 =
        .ok (some true)
    · simp [hb]
    · simp [hb]
  · simp only [hauto, if_false, false_and, or_false]

/-- The invocations of one call of `convertOfficeToPDF` on Windows, in order. -/
theorem callsIn_convertOfficeToPDF_windows (P : NodeLib) (E : Env)
    (inputPath outputPath : String) (s : State) (hw : s.this.isWindows = true) :
    callsIn (newEvents (convertOfficeToPDF P E inputPath outputPath) s) =
      resolveCalls (configuredMethod E inputPath outputPath s) inputPath outputPath ++
      if (resolved P E inputPath outputPath s).1 = "native" then
        match (convertOfficeViaCOM P E inputPath outputPath
            (resolved P E inputPath outputPath s).2).1 with
        | .ok _ => comCalls P inputPath outputPath
        | .error _ => comCalls P inputPath outputPath ++ psCalls P inputPath outputPath
      else psCalls P inputPath outputPath := by
  by_cases hm : (resolved P E inputPath outputPath s).1 = "native"
  · simp only [hm, if_true]
    obtain ⟨hok, herr⟩ := convertOfficeToPDF_resident P E inputPath outputPath s hm hw
    rcases hcom : convertOfficeViaCOM P E inputPath outputPath
      (resolved P E inputPath outputPath s).2 with ⟨r, s3⟩
    cases r with
    | ok p => rw [appends_newEvents _ _ _ (hok p s3 hcom).2]
    | error e => rw [appends_newEvents _ _ _ (herr e s3 hcom).2]
  · simp only [hm, if_false]
    rw [appends_newEvents _ _ _ (convertOfficeToPDF_scripted P E inputPath outputPath s hm).2]

/-- The attempts of one call of `convertOfficeToPDF` on Windows, in order. -/
theorem attemptsIn_convertOfficeToPDF_windows (P : NodeLib) (E : Env)
    (inputPath outputPath : String) (s : State) (hw : s.this.isWindows = true) :
    attemptsIn (newEvents (convertOfficeToPDF P E inputPath outputPath) s) =
      if (resolved P E inputPath outputPath s).1 = "native" then
        match (convertOfficeViaCOM P E inputPath outputPath
            (resolved P E inputPath outputPath s).2).1 with
        | .ok _ => [.convertOfficeViaCOM]
        | .error _ => [.convertOfficeViaCOM, .convertOfficeViaPowerShell]
      else [.convertOfficeViaPowerShell] := by
  rw [← attemptsIn_callsIn, callsIn_convertOfficeToPDF_windows P E inputPath outputPath s hw]
  split_ifs
  · split <;> simp [attemptsIn_append, attemptsIn_resolveCalls, attemptsIn_comCalls,
      attemptsIn_psCalls]
  · simp [attemptsIn_append, attemptsIn_resolveCalls, attemptsIn_psCalls]

theorem callCount_append (m : Method) (l1 l2 : List Event) :
    callCount m (l1 ++ l2) = callCount m l1 + callCount m l2 := by
  simp [callCount]

theorem callCount_check_comCalls (P : NodeLib) (inputPath outputPath : String) :
    callCount .checkOfficeAvailability (comCalls P inputPath outputPath) = 0 := by
  simp only [comCalls, comRunnerCalls]
  split_ifs <;> simp [callCount, isCallOf]

theorem callCount_check_psCalls (P : NodeLib) (inputPath outputPath : String) :
    callCount .checkOfficeAvailability (psCalls P inputPath outputPath) = 0 := by
  simp only [psCalls, psRunnerCalls]
  split_ifs <;> simp [callCount, isCallOf]

/-- C5: on Windows the first conversion `convertOfficeToPDF` attempts is the resident one
(`convertOfficeViaCOM`) exactly when the configured method is `native`, or it is `auto`
and the probe returns `true`; for `powershell`, and for `auto` with the probe returning
`false`, it is the scripted one (`convertOfficeViaPowerShell`); and when the configured
method is not `auto` the probe is not invoked at all. -/
theorem convertOfficeToPDF_first_attempt (P : NodeLib) (E : Env)
    (inputPath outputPath : String) (s : State) (hw : s.this.isWindows = true) :
    (firstAttempt (newEvents (convertOfficeToPDF P E inputPath outputPath) s) =
        some .convertOfficeViaCOM ↔
      (configuredMethod E inputPath outputPath s = "native" ∨
        (configuredMethod E inputPath outputPath s = "auto" ∧
          (checkOfficeAvailability P E (afterSetting E inputPath outputPath s)).1 =
            .ok (some true)))) ∧
    ((configuredMethod E inputPath outputPath s = "powershell" ∨
        (configuredMethod E inputPath outputPath s = "auto" ∧
          (checkOfficeAvailability P E (afterSetting E inputPath outputPath s)).1 =
            .ok (some false))) →
      firstAttempt (newEvents (convertOfficeToPDF P E inputPath outputPath) s) =
        some .convertOfficeViaPowerShell) ∧
    (configuredMethod E inputPath outputPath s ≠ "auto" →
      callCount .checkOfficeAvailability
        (newEvents (convertOfficeToPDF P E inputPath outputPath) s) = 0) := by
  have hatt := attemptsIn_convertOfficeToPDF_windows P E inputPath outputPath s hw
  have hnat := resolved_native_iff P E inputPath outputPath s
  have hfirst : firstAttempt (newEvents (convertOfficeToPDF P E inputPath outputPath) s) =
      some (if (resolved P E inputPath outputPath s).1 = "native" then .convertOfficeViaCOM
        else .convertOfficeViaPowerShell) := by
    unfold firstAttempt
    rw [hatt]
    split_ifs
    · split <;> rfl
    · rfl
  refine ⟨?_, ?_, ?_⟩
  · rw [hfirst, ← hnat]
    split_ifs with h <;> simp [h]
  · intro hB
    have hnot : ¬ (resolved P E inputPath outputPath s).1 = "native" := by
      rw [hnat]
      rcases hB with hps | ⟨hauto, hfalse⟩
      · simp [hps]
      · simp [hauto, hfalse]
    rw [hfirst, if_neg hnot]
  · intro hauto
    rw [← callCount_callsIn, callsIn_convertOfficeToPDF_windows P E inputPath outputPath s hw,
      callCount_append]
    have h0 : callCount .checkOfficeAvailability
        (resolveCalls (configuredMethod E inputPath outputPath s) inputPath outputPath) = 0 := by
      simp [resolveCalls, hauto, callCount, isCallOf]
    rw [h0]
    split_ifs
    · split <;> simp [callCount_append, callCount_check_comCalls, callCount_check_psCalls]
    · simp [callCount_check_psCalls]

theorem callCount_eq_count_attemptsIn (m : Method)
    (hm : m = .convertOfficeViaCOM ∨ m = .convertOfficeViaPowerShell) (l : List Event) :
    callCount m l = (attemptsIn l).count m := by
  induction l with
  | nil => rfl
  | cons e l ih =>
    simp only [callCount, List.countP_cons] at ih ⊢
    cases e with
    | call m1 args =>
      rcases hm with rfl | rfl <;> cases m1 <;> simp [attemptsIn, isCallOf, ih]
    | _ => simp [attemptsIn, isCallOf, ih]

/-- The attempts of one call of `convertOfficeToPDF` whose `useMethod` is not `native`. -/
theorem attemptsIn_convertOfficeToPDF_scripted (P : NodeLib) (E : Env)
    (inputPath outputPath : String) (s : State)
    (hm : (resolved P E inputPath outputPath s).1 ≠ "native") :
    attemptsIn (newEvents (convertOfficeToPDF P E inputPath outputPath) s) =
      [.convertOfficeViaPowerShell] := by
  rw [← attemptsIn_callsIn,
    appends_newEvents _ _ _ (convertOfficeToPDF_scripted P E inputPath outputPath s hm).2]
  simp [attemptsIn_append, attemptsIn_resolveCalls, attemptsIn_psCalls]

/-- C6: when the effective method is scripted (configured `powershell`, or configured
`auto` with the probe answering `false`), one call of `convertOfficeToPDF` never invokes
the resident conversion, invokes the scripted conversion exactly once, and its outcome and
final state are exactly those of that scripted call: a failure is propagated unchanged and
nothing is retried. -/
theorem convertOfficeToPDF_scripted_only (P : NodeLib) (E : Env)
    (inputPath outputPath : String) (s : State)
    (h : configuredMethod E inputPath outputPath s = "powershell" ∨
      (configuredMethod E inputPath outputPath s = "auto" ∧
        (checkOfficeAvailability P E (afterSetting E inputPath outputPath s)).1 =
          .ok (some false))) :
    callCount .convertOfficeViaCOM
      (newEvents (convertOfficeToPDF P E inputPath outputPath) s) = 0 ∧
    callCount .convertOfficeViaPowerShell
      (newEvents (convertOfficeToPDF P E inputPath outputPath) s) = 1 ∧
    convertOfficeToPDF P E inputPath outputPath s =
      convertOfficeViaPowerShell P E inputPath outputPath
        (resolved P E inputPath outputPath s).2 := by
  have hnot : (resolved P E inputPath outputPath s).1 ≠ "native" := by
    rw [Ne, resolved_native_iff]
    rcases h with hps | ⟨hauto, hfalse⟩
    · simp [hps]
    · simp [hauto, hfalse]
  have hatt := attemptsIn_convertOfficeToPDF_scripted P E inputPath outputPath s hnot
  refine ⟨?_, ?_, (convertOfficeToPDF_scripted P E inputPath outputPath s hnot).1⟩
  · rw [callCount_eq_count_attemptsIn _ (Or.inl rfl), hatt]
    decide
  · rw [callCount_eq_count_attemptsIn _ (Or.inr rfl), hatt]
    decide

/-- Witness for C6: with the setting `powershell` and a failing interpreter, the scripted
conversion is invoked once, the resident one never, and the scripted failure is the
outcome. -/
theorem convertOfficeToPDF_scripted_only_witness :
    configuredMethod scriptedFailsEnv "a.docx" "out/a.pdf" windowsStart = "powershell" ∧
    callCount .convertOfficeViaCOM
      (newEvents (convertOfficeToPDF posixPath scriptedFailsEnv "a.docx" "out/a.pdf")
        windowsStart) = 0 ∧
    callCount .convertOfficeViaPowerShell
      (newEvents (convertOfficeToPDF posixPath scriptedFailsEnv "a.docx" "out/a.pdf")
        windowsStart) = 1 ∧
    (convertOfficeToPDF posixPath scriptedFailsEnv "a.docx" "out/a.pdf" windowsStart).1 =
      .error ("PowerShell Office conversion failed: Command failed" ++
        ". Please ensure Microsoft Office is installed.") :=
  have h := convertOfficeToPDF_scripted_only posixPath scriptedFailsEnv "a.docx" "out/a.pdf"
    windowsStart (Or.inl (by decide))
  ⟨by decide, h.1, h.2.1, by rw [h.2.2]; decide⟩

/-- Witness for C5: on a fresh Windows converter with the setting `auto` and Office
present, the first attempt is the resident one. -/
theorem convertOfficeToPDF_first_attempt_witness :
    windowsStart.this.isWindows = true ∧
    firstAttempt (newEvents (convertOfficeToPDF posixPath sampleEnv "a.docx" "out/a.pdf")
      windowsStart) = some .convertOfficeViaCOM :=
  ⟨rfl, (convertOfficeToPDF_first_attempt posixPath sampleEnv "a.docx" "out/a.pdf"
    windowsStart rfl).1.mpr (Or.inr ⟨by decide, by decide⟩)⟩

/-- C7: on Windows with the effective method resident (configured `native`, or `auto`
with the probe answering `true`): if the resident attempt returns, `convertOfficeToPDF`
returns the output path in the state the attempt left and the scripted conversion is never
invoked; if the resident attempt throws, the scripted conversion is invoked exactly once,
after it, and the outcome and final state of `convertOfficeToPDF` are exactly those of that
scripted call. -/
theorem convertOfficeToPDF_fallback (P : NodeLib) (E : Env)
    (inputPath outputPath : String) (s : State) (hw : s.this.isWindows = true)
    (h : configuredMethod E inputPath outputPath s = "native" ∨
      (configuredMethod E inputPath outputPath s = "auto" ∧
        (checkOfficeAvailability P E (afterSetting E inputPath outputPath s)).1 =
          .ok (some true))) :
    (∀ p s3, convertOfficeViaCOM P E inputPath outputPath
        (resolved P E inputPath outputPath s).2 = (.ok p, s3) →
      convertOfficeToPDF P E inputPath outputPath s = (.ok outputPath, s3) ∧
      attemptsIn (newEvents (convertOfficeToPDF P E inputPath outputPath) s) =
        [.convertOfficeViaCOM] ∧
      callCount .convertOfficeViaPowerShell
        (newEvents (convertOfficeToPDF P E inputPath outputPath) s) = 0) ∧
    (∀ e s3, convertOfficeViaCOM P E inputPath outputPath
        (resolved P E inputPath outputPath s).2 = (.error e, s3) →
      convertOfficeToPDF P E inputPath outputPath s =
        convertOfficeViaPowerShell P E inputPath outputPath (fallbackState s3) ∧
      attemptsIn (newEvents (convertOfficeToPDF P E inputPath outputPath) s) =
        [.convertOfficeViaCOM, .convertOfficeViaPowerShell] ∧
      callCount .convertOfficeViaPowerShell
        (newEvents (convertOfficeToPDF P E inputPath outputPath) s) = 1) := by
  have hm : (resolved P E inputPath outputPath s).1 = "native" :=
    (resolved_native_iff P E inputPath outputPath s).mpr h
  have hatt := attemptsIn_convertOfficeToPDF_windows P E inputPath outputPath s hw
  simp only [hm, if_true] at hatt
  obtain ⟨hok, herr⟩ := convertOfficeToPDF_resident P E inputPath outputPath s hm hw
  constructor
  · intro p s3 hcom
    rw [hcom] at hatt
    simp only at hatt
    obtain ⟨-, d, -, -, hres⟩ := convertOfficeViaCOM_spec P E inputPath outputPath
      (resolved P E inputPath outputPath s).2
    rw [hcom] at hres
    have hp : p = outputPath := by
      rcases hres with hres | ⟨m, hres, -⟩
      · simpa using hres
      · simp at hres
    subst hp
    refine ⟨(hok p s3 hcom).1, hatt, ?_⟩
    rw [callCount_eq_count_attemptsIn _ (Or.inr rfl), hatt]
    decide
  · intro e s3 hcom
    rw [hcom] at hatt
    simp only at hatt
    refine ⟨(herr e s3 hcom).1, hatt, ?_⟩
    rw [callCount_eq_count_attemptsIn _ (Or.inr rfl), hatt]
    decide

/-- Witness for C7: with the setting `native` and a failing `cscript`, the resident
attempt is followed by exactly one scripted attempt, whose result is returned. -/
theorem convertOfficeToPDF_fallback_witness :
    windowsStart.this.isWindows = true ∧
    configuredMethod residentFailsEnv "a.docx" "out/a.pdf" windowsStart = "native" ∧
    attemptsIn (newEvents (convertOfficeToPDF posixPath residentFailsEnv "a.docx" "out/a.pdf")
      windowsStart) = [.convertOfficeViaCOM, .convertOfficeViaPowerShell] ∧
    (convertOfficeToPDF posixPath residentFailsEnv "a.docx" "out/a.pdf" windowsStart).1 =
      .ok "out/a.pdf" :=
  have hc : (convertOfficeViaCOM posixPath residentFailsEnv "a.docx" "out/a.pdf"
      (resolved posixPath residentFailsEnv "a.docx" "out/a.pdf" windowsStart).2).1 =
      .error ("Office conversion failed: Command failed: cscript" ++
        ". Ensure Microsoft Office is installed.") := by decide
  have h := (convertOfficeToPDF_fallback posixPath residentFailsEnv "a.docx" "out/a.pdf"
    windowsStart rfl (Or.inl (by decide))).2 _ _ (Prod.ext hc rfl)
  ⟨rfl, by decide, h.2.1, by rw [h.1]; decide⟩

/-- C8: when the resident attempt fails and the scripted retry fails too, the message of
the error raised by `convertOfficeToPDF` is the scripted wrapper around the message of the
step that failed in the retry (the write of the script or the interpreter run); so it
contains the hint `ensure Microsoft Office is installed` and the text of that cause. -/
theorem convertOfficeToPDF_both_fail (P : NodeLib) (E : Env)
    (inputPath outputPath : String) (s s3 : State) (e msg : String)
    (hw : s.this.isWindows = true)
    (h : configuredMethod E inputPath outputPath s = "native" ∨
      (configuredMethod E inputPath outputPath s = "auto" ∧
        (checkOfficeAvailability P E (afterSetting E inputPath outputPath s)).1 =
          .ok (some true)))
    (hcom : convertOfficeViaCOM P E inputPath outputPath
      (resolved P E inputPath outputPath s).2 = (.error e, s3))
    (hfail : (convertOfficeToPDF P E inputPath outputPath s).1 = .error msg) :
    ∃ cause,
      msg = "PowerShell Office conversion failed: " ++ cause ++
        ". Please ensure Microsoft Office is installed." ∧
      FailedIn cause
        (newEvents (convertOfficeViaPowerShell P E inputPath outputPath) (fallbackState s3)) ∧
      List.IsInfix "ensure Microsoft Office is installed".data msg.data ∧
      List.IsInfix cause.data msg.data := by
  have hm : (resolved P E inputPath outputPath s).1 = "native" :=
    (resolved_native_iff P E inputPath outputPath s).mpr h
  have hrun := ((convertOfficeToPDF_resident P E inputPath outputPath s hm hw).2 e s3 hcom).1
  rw [hrun] at hfail
  obtain ⟨-, d, hlog, -, hres⟩ := convertOfficeViaPowerShell_spec P E inputPath outputPath
    (fallbackState s3)
  rcases hres with hres | ⟨cause, hres, hcause⟩
  · rw [hres] at hfail
    simp at hfail
  · rw [hres] at hfail
    simp only [Outcome.error.injEq] at hfail
    refine ⟨cause, hfail.symm, ?_, ?_, ?_⟩
    · rw [newEvents_eq _ _ _ hlog]
      exact failedIn_mono cause d _ (fun ev hev => List.mem_cons_of_mem _ hev) hcause
    · rw [← hfail]
      refine ⟨("PowerShell Office conversion failed: " ++ cause ++ ". Please ").data,
        ".".data, ?_⟩
      simp only [String.data_append, List.append_assoc]
      rfl
    · rw [← hfail]
      exact ⟨"PowerShell Office conversion failed: ".data,
        ". Please ensure Microsoft Office is installed.".data, by
          simp only [String.data_append, List.append_assoc]⟩

/-- Witness for C8: with the setting `native` and every child process failing, both
attempts fail and the message raised is the scripted wrapper around the cause. -/
theorem convertOfficeToPDF_both_fail_witness :
    windowsStart.this.isWindows = true ∧
    configuredMethod allFailEnv "a.docx" "out/a.pdf" windowsStart = "native" ∧
    (convertOfficeToPDF posixPath allFailEnv "a.docx" "out/a.pdf" windowsStart).1 =
      .error ("PowerShell Office conversion failed: Command failed" ++
        ". Please ensure Microsoft Office is installed.") ∧
    ∃ cause,
      "PowerShell Office conversion failed: Command failed" ++
          ". Please ensure Microsoft Office is installed." =
        "PowerShell Office conversion failed: " ++ cause ++
          ". Please ensure Microsoft Office is installed." ∧
      List.IsInfix cause.data
        ("PowerShell Office conversion failed: Command failed" ++
          ". Please ensure Microsoft Office is installed.").data :=
  have hc : (convertOfficeViaCOM posixPath allFailEnv "a.docx" "out/a.pdf"
      (resolved posixPath allFailEnv "a.docx" "out/a.pdf" windowsStart).2).1 =
      .error ("Office conversion failed: Command failed" ++
        ". Ensure Microsoft Office is installed.") := by decide
  have hf : (convertOfficeToPDF posixPath allFailEnv "a.docx" "out/a.pdf" windowsStart).1 =
      .error ("PowerShell Office conversion failed: Command failed" ++
        ". Please ensure Microsoft Office is installed.") := by decide
  have h := convertOfficeToPDF_both_fail posixPath allFailEnv "a.docx" "out/a.pdf"
    windowsStart _ _ _ rfl (Or.inl (by decide)) (Prod.ext hc rfl) hf
  ⟨rfl, by decide, hf, h.elim fun cause hcause => ⟨cause, hcause.1, hcause.2.2.2⟩⟩

/-! ## Runs that invoke no method -/

theorem quiet_pure {α : Type} (a : α) : Quiet (pure a : Run α) :=
  fun s => ⟨rfl, [], by simp [pure_eq], rfl⟩

theorem quiet_throw {α : Type} (m : String) : Quiet (throw m : Run α) :=
  fun s => ⟨rfl, [], by simp [throw_eq, Run.throwError], rfl⟩

theorem quiet_effect {α : Type} (ask : List Event → Outcome α) (ev : Outcome α → Event)
    (hev : ∀ r, isCall (ev r) = false) : Quiet (effect ask ev) :=
  fun s => ⟨rfl, [ev (ask s.log)], rfl, by simp [callsIn, hev]⟩

theorem quiet_dateNow (E : Env) : Quiet (dateNow E) :=
  fun s => ⟨rfl, [.now (E.now s.log)], rfl, by simp [callsIn, isCall]⟩

theorem quiet_execAsync (E : Env) (command : String) : Quiet (execAsync E command) :=
  quiet_effect _ _ (fun _ => rfl)

theorem quiet_fsAccess (E : Env) (path : String) : Quiet (fsAccess E path) :=
  quiet_effect _ _ (fun _ => rfl)

theorem quiet_fsReadFile (E : Env) (path : String) : Quiet (fsReadFile E path) :=
  quiet_effect _ _ (fun _ => rfl)

theorem quiet_fsWriteFile (E : Env) (path content : String) :
    Quiet (fsWriteFile E path content) :=
  quiet_effect _ _ (fun _ => rfl)

theorem quiet_fsUnlink (E : Env) (path : String) : Quiet (fsUnlink E path) :=
  quiet_effect _ _ (fun _ => rfl)

theorem quiet_fsMkdir (E : Env) (folder : String) : Quiet (fsMkdir E folder) :=
  quiet_effect _ _ (fun _ => rfl)

theorem quiet_pdfEmbedPng (E : Env) (png : String) : Quiet (pdfEmbedPng E png) :=
  quiet_effect _ _ (fun _ => rfl)

theorem quiet_pdfSave (E : Env) (doc : ImagePdf) : Quiet (pdfSave E doc) :=
  quiet_effect _ _ (fun _ => rfl)

theorem quiet_bind {α β : Type} (x : Run α) (f : α → Run β) (hx : Quiet x)
    (hf : ∀ a, Quiet (f a)) : Quiet (x >>= f) := by
  intro s
  obtain ⟨hthis, d, hlog, hcalls⟩ := hx s
  simp only [bind_eq, bind_run]
  rcases hxs : x s with ⟨r, s1⟩
  rw [hxs] at hthis hlog
  simp only at hthis hlog
  cases r with
  | error e => exact ⟨hthis, d, hlog, hcalls⟩
  | ok a =>
    obtain ⟨hthis2, d2, hlog2, hcalls2⟩ := hf a s1
    exact ⟨by rw [hthis2, hthis], d ++ d2, by rw [hlog2, hlog, List.append_assoc],
      by rw [callsIn_append, hcalls, hcalls2]; rfl⟩

theorem quiet_tryCatch {α : Type} (x : Run α) (h : String → Run α) (hx : Quiet x)
    (hh : ∀ e, Quiet (h e)) : Quiet (tryCatch x h) := by
  intro s
  obtain ⟨hthis, d, hlog, hcalls⟩ := hx s
  simp only [tryCatch_eq, tryCatch_run]
  rcases hxs : x s with ⟨r, s1⟩
  rw [hxs] at hthis hlog
  simp only at hthis hlog
  cases r with
  | ok a => exact ⟨hthis, d, hlog, hcalls⟩
  | error e =>
    obtain ⟨hthis2, d2, hlog2, hcalls2⟩ := hh e s1
    exact ⟨by rw [hthis2, hthis], d ++ d2, by rw [hlog2, hlog, List.append_assoc],
      by rw [callsIn_append, hcalls, hcalls2]; rfl⟩

theorem quiet_tryFinally {α : Type} (x : Run α) (fin : Run Unit) (hx : Quiet x)
    (hfin : Quiet fin) : Quiet (tryFinally x fin) := by
  intro s
  obtain ⟨hthis, d, hlog, hcalls⟩ := hx s
  simp only [tryFinally_eq, tryFinally_run]
  rcases hxs : x s with ⟨r, s1⟩
  rw [hxs] at hthis hlog
  simp only at hthis hlog
  obtain ⟨hthis2, d2, hlog2, hcalls2⟩ := hfin s1
  rcases hfs : fin s1 with ⟨r2, s2⟩
  rw [hfs] at hthis2 hlog2
  simp only at hthis2 hlog2
  cases r2 with
  | ok a =>
    exact ⟨by rw [hthis2, hthis], d ++ d2, by simp only [hlog2, hlog, List.append_assoc],
      by rw [callsIn_append, hcalls, hcalls2]; rfl⟩
  | error e =>
    exact ⟨by rw [hthis2, hthis], d ++ d2, by simp only [hlog2, hlog, List.append_assoc],
      by rw [callsIn_append, hcalls, hcalls2]; rfl⟩

/-- A method that records its own invocation and then runs a quiet body. -/
theorem appends_of_record_quiet {α : Type} (m : Method) (args : List String) (body : Run α)
    (hbody : Quiet body) (s : State) :
    ((record (.call m args) >>= fun _ => body) s).2.this = s.this ∧
    Appends (record (.call m args) >>= fun _ => body) s [.call m args] := by
  obtain ⟨hthis, d, hlog, hcalls⟩ := hbody { s with log := s.log ++ [.call m args] }
  simp only [Appends, bind_eq, bind_run, record]
  exact ⟨hthis, .call m args :: d, by rw [hlog]; simp, by rw [callsIn_cons_call, hcalls]⟩

/-- The body of `convertImageViaImageMagick` invokes no method. -/
theorem convertImageViaImageMagick_spec (P : NodeLib) (E : Env)
    (inputPath outputPath : String) (s : State) :
    (convertImageViaImageMagick P E inputPath outputPath s).2.this = s.this ∧
    Appends (convertImageViaImageMagick P E inputPath outputPath) s
      [.call .convertImageViaImageMagick [inputPath, outputPath]] := by
  unfold convertImageViaImageMagick
  apply appends_of_record_quiet
  apply quiet_bind _ _ (quiet_dateNow E)
  intro t
  apply quiet_tryFinally
  · apply quiet_bind
    · apply quiet_tryCatch
      · apply quiet_bind _ _ (quiet_execAsync E _)
        intro _
        exact quiet_pure _
      · intro e
        exact quiet_throw _
    · intro _
      apply quiet_bind
      · apply quiet_tryCatch _ _ (quiet_fsAccess E _)
        intro e
        exact quiet_throw _
      · intro _
        apply quiet_bind _ _ (quiet_fsReadFile E _)
        intro pngBuffer
        apply quiet_bind _ _ (quiet_pdfEmbedPng E _)
        intro pngImage
        apply quiet_bind _ _ (quiet_pdfSave E _)
        intro pdfBytes
        apply quiet_bind _ _ (quiet_fsWriteFile E _ _)
        intro _
        exact quiet_pure _
  · apply quiet_tryCatch _ _ (quiet_fsUnlink E _)
    intro e
    exact quiet_pure _

/-- One call of `convertImageToPDF` only appends to the log. -/
theorem convertImageToPDF_grows (P : NodeLib) (E : Env) (inputPath outputPath : String)
    (s : State) :
    ∃ d, (convertImageToPDF P E inputPath outputPath s).2.log = s.log ++ d := by
  obtain ⟨-, d, hd, -⟩ := convertImageViaImageMagick_spec P E inputPath outputPath
    { s with log := s.log ++ [.call .convertImageToPDF [inputPath, outputPath]] }
  refine ⟨.call .convertImageToPDF [inputPath, outputPath] :: d, ?_⟩
  simp only [convertImageToPDF, bind_eq, bind_run, record]
  rw [hd]
  simp

/-! ## Dispatch -/

/-- When `useMethod` is `native` off Windows, the first attempt is already the scripted
one, and a failure of it is followed by a second scripted run. -/
theorem convertOfficeToPDF_native_other (P : NodeLib) (E : Env)
    (inputPath outputPath : String) (s : State)
    (hm : (resolved P E inputPath outputPath s).1 = "native")
    (hw : s.this.isWindows = false) :
    (∀ p s3, convertOfficeViaPowerShell P E inputPath outputPath
        (resolved P E inputPath outputPath s).2 = (.ok p, s3) →
      convertOfficeToPDF P E inputPath outputPath s = (.ok p, s3) ∧
      Appends (convertOfficeToPDF P E inputPath outputPath) s
        (resolveCalls (configuredMethod E inputPath outputPath s) inputPath outputPath ++
          psCalls P inputPath outputPath)) ∧
    (∀ e s3, convertOfficeViaPowerShell P E inputPath outputPath
        (resolved P E inputPath outputPath s).2 = (.error e, s3) →
      convertOfficeToPDF P E inputPath outputPath s =
        convertOfficeViaPowerShell P E inputPath outputPath (fallbackState s3) ∧
      Appends (convertOfficeToPDF P E inputPath outputPath) s
        (resolveCalls (configuredMethod E inputPath outputPath s) inputPath outputPath ++
          (psCalls P inputPath outputPath ++ psCalls P inputPath outputPath))) := by
  obtain ⟨hwin, d0, h0, hc0⟩ := resolved_spec P E inputPath outputPath s
  obtain ⟨d1, h1, hc1⟩ := convertOfficeViaPowerShell_appends P E inputPath outputPath
    (resolved P E inputPath outputPath s).2
  have hrun := convertOfficeToPDF_run P E inputPath outputPath s
  simp only [hm, hwin, hw, Bool.false_eq_true, and_false, if_false, if_true] at hrun
  constructor
  · intro p s3 hps
    rw [hps] at hrun h1
    simp only at hrun h1
    refine ⟨hrun, ?_⟩
    exact ⟨d0 ++ d1, by rw [hrun, h1, h0, List.append_assoc],
      by rw [callsIn_append, hc0, hc1]⟩
  · intro e s3 hps
    rw [hps] at hrun h1
    simp only at hrun h1
    refine ⟨hrun, ?_⟩
    obtain ⟨d2, h2, hc2⟩ := convertOfficeViaPowerShell_appends P E inputPath outputPath
      (fallbackState s3)
    have hfb : (fallbackState s3).log = (resolved P E inputPath outputPath s).2.log ++
        (d1 ++ [.consoleLog "Native Office VBS failed, falling back to PowerShell..."]) := by
      simp only [fallbackState, h1, List.append_assoc]
    refine ⟨d0 ++ ((d1 ++
      [.consoleLog "Native Office VBS failed, falling back to PowerShell..."]) ++ d2),
      by rw [hrun, h2, hfb, h0]; simp only [List.append_assoc], ?_⟩
    simp only [callsIn_append, hc0, hc1, hc2]
    simp [callsIn, isCall]

/-- The invocations of one call of `convertOfficeToPDF`, on any platform: those made
while resolving the method, then one or two conversion attempts. -/
theorem convertOfficeToPDF_calls (P : NodeLib) (E : Env) (inputPath outputPath : String)
    (s : State) :
    ∃ rest, Appends (convertOfficeToPDF P E inputPath outputPath) s
        (resolveCalls (configuredMethod E inputPath outputPath s) inputPath outputPath ++ rest) ∧
      (rest = comCalls P inputPath outputPath ∨
       rest = comCalls P inputPath outputPath ++ psCalls P inputPath outputPath ∨
       rest = psCalls P inputPath outputPath ∨
       rest = psCalls P inputPath outputPath ++ psCalls P inputPath outputPath) := by
  by_cases hm : (resolved P E inputPath outputPath s).1 = "native"
  · by_cases hw : s.this.isWindows = true
    · obtain ⟨hok, herr⟩ := convertOfficeToPDF_resident P E inputPath outputPath s hm hw
      rcases hcom : convertOfficeViaCOM P E inputPath outputPath
        (resolved P E inputPath outputPath s).2 with ⟨r, s3⟩
      cases r with
      | ok p => exact ⟨_, (hok p s3 hcom).2, Or.inl rfl⟩
      | error e => exact ⟨_, (herr e s3 hcom).2, Or.inr (Or.inl rfl)⟩
    · have hw1 : s.this.isWindows = false := by simpa using hw
      obtain ⟨hok, herr⟩ := convertOfficeToPDF_native_other P E inputPath outputPath s hm hw1
      rcases hps : convertOfficeViaPowerShell P E inputPath outputPath
        (resolved P E inputPath outputPath s).2 with ⟨r, s3⟩
      cases r with
      | ok p => exact ⟨_, (hok p s3 hps).2, Or.inr (Or.inr (Or.inl rfl))⟩
      | error e => exact ⟨_, (herr e s3 hps).2, Or.inr (Or.inr (Or.inr rfl))⟩
  · exact ⟨_, (convertOfficeToPDF_scripted P E inputPath outputPath s hm).2,
      Or.inr (Or.inr (Or.inl rfl))⟩

/-- The conversion attempts make no invocation of the three dispatching methods. -/
theorem callCount_dispatch_attempts (P : NodeLib) (inputPath outputPath : String) (m : Method)
    (hm : m = .convertToPDF ∨ m = .convertOfficeToPDF ∨ m = .convertImageToPDF) :
    callCount m (comCalls P inputPath outputPath) = 0 ∧
    callCount m (psCalls P inputPath outputPath) = 0 := by
  simp only [comCalls, psCalls, comRunnerCalls, psRunnerCalls]
  rcases hm with rfl | rfl | rfl <;> constructor <;> split_ifs <;> simp [callCount, isCallOf]

/-- One call of `convertOfficeToPDF` records itself once and invokes neither `convertToPDF`
nor `convertImageToPDF`. -/
theorem callCount_convertOfficeToPDF (P : NodeLib) (E : Env) (inputPath outputPath : String)
    (s : State) :
    callCount .convertToPDF (newEvents (convertOfficeToPDF P E inputPath outputPath) s) = 0 ∧
    callCount .convertOfficeToPDF
      (newEvents (convertOfficeToPDF P E inputPath outputPath) s) = 1 ∧
    callCount .convertImageToPDF
      (newEvents (convertOfficeToPDF P E inputPath outputPath) s) = 0 := by
  obtain ⟨rest, hcalls, hrest⟩ := convertOfficeToPDF_calls P E inputPath outputPath s
  have h1 := callCount_dispatch_attempts P inputPath outputPath .convertToPDF (Or.inl rfl)
  have h2 := callCount_dispatch_attempts P inputPath outputPath .convertOfficeToPDF
    (Or.inr (Or.inl rfl))
  have h3 := callCount_dispatch_attempts P inputPath outputPath .convertImageToPDF
    (Or.inr (Or.inr rfl))
  have hr1 : callCount .convertToPDF
      (resolveCalls (configuredMethod E inputPath outputPath s) inputPath outputPath) = 0 := by
    unfold resolveCalls
    split_ifs <;> simp [callCount, isCallOf]
  have hr2 : callCount .convertOfficeToPDF
      (resolveCalls (configuredMethod E inputPath outputPath s) inputPath outputPath) = 1 := by
    unfold resolveCalls
    split_ifs <;> simp [callCount, isCallOf]
  have hr3 : callCount .convertImageToPDF
      (resolveCalls (configuredMethod E inputPath outputPath s) inputPath outputPath) = 0 := by
    unfold resolveCalls
    split_ifs <;> simp [callCount, isCallOf]
  rw [← callCount_callsIn, ← callCount_callsIn .convertOfficeToPDF,
    ← callCount_callsIn .convertImageToPDF, appends_newEvents _ _ _ hcalls]
  simp only [callCount_append, hr1, hr2, hr3]
  rcases hrest with rfl | rfl | rfl | rfl <;>
    simp only [callCount_append, h1.1, h1.2, h2.1, h2.2, h3.1, h3.2] <;> simp

/-- One call of `convertImageToPDF` records itself once and invokes neither `convertToPDF`
nor `convertOfficeToPDF`. -/
theorem callCount_convertImageToPDF (P : NodeLib) (E : Env) (inputPath outputPath : String)
    (s : State) :
    callCount .convertToPDF (newEvents (convertImageToPDF P E inputPath outputPath) s) = 0 ∧
    callCount .convertOfficeToPDF
      (newEvents (convertImageToPDF P E inputPath outputPath) s) = 0 ∧
    callCount .convertImageToPDF
      (newEvents (convertImageToPDF P E inputPath outputPath) s) = 1 := by
  obtain ⟨-, d, hlog, hcalls⟩ := convertImageViaImageMagick_spec P E inputPath outputPath
    { s with log := s.log ++ [.call .convertImageToPDF [inputPath, outputPath]] }
  have hnew : newEvents (convertImageToPDF P E inputPath outputPath) s =
      .call .convertImageToPDF [inputPath, outputPath] :: d :=
    newEvents_eq _ s _ (by
      simp only [convertImageToPDF, bind_eq, bind_run, record]
      rw [hlog]
      simp)
  rw [hnew, ← callCount_callsIn, ← callCount_callsIn .convertOfficeToPDF,
    ← callCount_callsIn .convertImageToPDF, callsIn_cons_call, hcalls]
  simp [callCount, isCallOf]

/-- The value of `getFileType` in terms of the two membership tests of `convertToPDF`. -/
theorem getFileType_contains (P : NodeLib) (filePath : String) :
    (getFileType P filePath = "office" ↔
      supportedFormats.office.contains (P.toLowerCase (P.extname filePath)) = true) ∧
    (getFileType P filePath = "image" ↔
      supportedFormats.office.contains (P.toLowerCase (P.extname filePath)) = false ∧
      supportedFormats.images.contains (P.toLowerCase (P.extname filePath)) = true) ∧
    (getFileType P filePath = "unknown" ↔
      supportedFormats.office.contains (P.toLowerCase (P.extname filePath)) = false ∧
      supportedFormats.images.contains (P.toLowerCase (P.extname filePath)) = false) := by
  simp only [getFileType]
  cases h1 : supportedFormats.office.contains (P.toLowerCase (P.extname filePath)) <;>
    cases h2 : supportedFormats.images.contains (P.toLowerCase (P.extname filePath)) <;>
    simp

/-- Closed form of `convertToPDF`: record the call, create the folder, then dispatch on
the lower-cased extension. -/
theorem convertToPDF_run (P : NodeLib) (E : Env) (inputPath outputFolder : String)
    (s : State) :
    convertToPDF P E inputPath outputFolder s =
      match mkdirResult E inputPath outputFolder s with
      | .error m => (.error m, afterMkdir E inputPath outputFolder s)
      | .ok _ =>
        if supportedFormats.office.contains (P.toLowerCase (P.extname inputPath)) then
          convertOfficeToPDF P E inputPath (outputPathOf P inputPath outputFolder)
            (afterMkdir E inputPath outputFolder s)
        else if supportedFormats.images.contains (P.toLowerCase (P.extname inputPath)) then
          convertImageToPDF P E inputPath (outputPathOf P inputPath outputFolder)
            (afterMkdir E inputPath outputFolder s)
        else
          (.error (unsupportedMessage (P.toLowerCase (P.extname inputPath))),
            afterMkdir E inputPath outputFolder s) := by
  simp only [convertToPDF, bind_eq, bind_run, record, fsMkdir, effect, mkdirResult, afterMkdir,
    outputPathOf, unsupportedMessage, List.append_assoc, List.singleton_append]
  cases E.mkdir (s.log ++ [.call .convertToPDF [inputPath, outputFolder]]) outputFolder with
  | error m => rfl
  | ok v =>
    simp only [ite_run, throw_eq, Run.throwError]

theorem afterMkdir_log (E : Env) (inputPath outputFolder : String) (s : State) :
    (afterMkdir E inputPath outputFolder s).log =
      s.log ++ [.call .convertToPDF [inputPath, outputFolder],
        .mkdir outputFolder (mkdirResult E inputPath outputFolder s)] := rfl

/-- What a dispatched pipeline appended, seen from the start of `convertToPDF`. -/
theorem newEvents_after_mkdir (P : NodeLib) (E : Env) (inputPath outputFolder : String)
    (s : State) (x : Run String)
    (hrun : convertToPDF P E inputPath outputFolder s =
      x (afterMkdir E inputPath outputFolder s))
    (hgrow : ∃ d, (x (afterMkdir E inputPath outputFolder s)).2.log =
      (afterMkdir E inputPath outputFolder s).log ++ d) :
    newEvents (convertToPDF P E inputPath outputFolder) s =
      [.call .convertToPDF [inputPath, outputFolder],
        .mkdir outputFolder (mkdirResult E inputPath outputFolder s)] ++
      newEvents x (afterMkdir E inputPath outputFolder s) := by
  obtain ⟨d, hd⟩ := hgrow
  rw [newEvents_eq x _ d hd]
  exact newEvents_eq _ s _ (by rw [hrun, hd, afterMkdir_log, List.append_assoc])

/-- When the extension is already lower-case, the output path is the folder joined with
the base name without its extension, plus `.pdf`. -/
theorem outputPathOf_lowercase (P : NodeLib) (inputPath outputFolder : String)
    (h : P.toLowerCase (P.extname inputPath) = P.extname inputPath) :
    outputPathOf P inputPath outputFolder =
      P.join [outputFolder, P.basename inputPath (some (P.extname inputPath)) ++ ".pdf"] := by
  rw [outputPathOf, h]

set_option maxRecDepth 100000 in
/-- C2, evaluated at the source path `Report.DOCX` and output folder `out`: the path is
classified `office`; the folder is created first and the office pipeline is then handed
`out/Report.DOCX.pdf`, which is also what is returned, whereas the folder joined with the
base name without its extension, plus `.pdf`, is `out/Report.pdf`.  The win32 flavour of
`extname` and `basename` behaves the same on `C:\docs\Report.DOCX`. -/
theorem convertToPDF_uppercase_extension :
    getFileType posixPath "Report.DOCX" = "office" ∧
    (newEvents (convertToPDF posixPath sampleEnv "Report.DOCX" "out") windowsStart).take 3 =
      [.call .convertToPDF ["Report.DOCX", "out"], .mkdir "out" (.ok ()),
       .call .convertOfficeToPDF ["Report.DOCX", "out/Report.DOCX.pdf"]] ∧
    (convertToPDF posixPath sampleEnv "Report.DOCX" "out" windowsStart).1 =
      .ok "out/Report.DOCX.pdf" ∧
    posixPath.join ["out", posixPath.basename "Report.DOCX"
      (some (posixPath.extname "Report.DOCX")) ++ ".pdf"] = "out/Report.pdf" ∧
    win32Extname "C:\\docs\\Report.DOCX" = ".DOCX" ∧
    win32Basename "C:\\docs\\Report.DOCX" (some (toLowerCase ".DOCX")) = "Report.DOCX" ∧
    win32Basename "C:\\docs\\Report.DOCX" (some ".DOCX") = "Report" := by
  refine ⟨by decide, by decide, by decide, by decide, by decide, by decide, by decide⟩

set_option maxRecDepth 100000 in
/-- C3 fails when the folder cannot be created: `notes.txt` is classified `unknown`, but
`convertToPDF` then fails with the folder-creation error, whose message names neither the
extension nor the format families; and `a.docx`, classified `office`, is then dispatched
to no pipeline. -/
theorem convertToPDF_mkdir_failure :
    getFileType posixPath "notes.txt" = "unknown" ∧
    (convertToPDF posixPath mkdirFailsEnv "notes.txt" "out" windowsStart).1 =
      .error "EACCES: permission denied, mkdir" ∧
    ¬ List.IsInfix ".txt".data "EACCES: permission denied, mkdir".data ∧
    ¬ List.IsInfix "Office documents and images".data
      "EACCES: permission denied, mkdir".data ∧
    getFileType posixPath "a.docx" = "office" ∧
    callCount .convertOfficeToPDF
      (newEvents (convertToPDF posixPath mkdirFailsEnv "a.docx" "out") windowsStart) = 0 := by
  refine ⟨by decide, by decide, by decide, by decide, by decide, by decide⟩

/-- C3, as it holds on the code: if the output folder cannot be created, `convertToPDF`
fails with that error and stops.  If it was created: a path classified `unknown` makes `convertToPDF` fail
with the message naming the lower-cased extension and the families `Office documents and
images`; a path classified `office` is handed to `convertOfficeToPDF`, and one classified
`image` to `convertImageToPDF`, whose outcome is the outcome of `convertToPDF`, the matching
pipeline being invoked exactly once and the other one never.  For a path classified
`unknown` neither pipeline is invoked, whatever happens to the folder. -/
theorem convertToPDF_dispatch (P : NodeLib) (E : Env) (inputPath outputFolder : String)
    (s : State) :
    (∀ m, mkdirResult E inputPath outputFolder s = .error m →
      convertToPDF P E inputPath outputFolder s =
        (.error m, afterMkdir E inputPath outputFolder s)) ∧
    (mkdirResult E inputPath outputFolder s = .ok () →
      (getFileType P inputPath = "unknown" →
        convertToPDF P E inputPath outputFolder s =
          (.error (unsupportedMessage (P.toLowerCase (P.extname inputPath))),
            afterMkdir E inputPath outputFolder s)) ∧
      (getFileType P inputPath = "office" →
        convertToPDF P E inputPath outputFolder s =
          convertOfficeToPDF P E inputPath (outputPathOf P inputPath outputFolder)
            (afterMkdir E inputPath outputFolder s) ∧
        callCount .convertOfficeToPDF
          (newEvents (convertToPDF P E inputPath outputFolder) s) = 1 ∧
        callCount .convertImageToPDF
          (newEvents (convertToPDF P E inputPath outputFolder) s) = 0) ∧
      (getFileType P inputPath = "image" →
        convertToPDF P E inputPath outputFolder s =
          convertImageToPDF P E inputPath (outputPathOf P inputPath outputFolder)
            (afterMkdir E inputPath outputFolder s) ∧
        callCount .convertOfficeToPDF
          (newEvents (convertToPDF P E inputPath outputFolder) s) = 0 ∧
        callCount .convertImageToPDF
          (newEvents (convertToPDF P E inputPath outputFolder) s) = 1)) ∧
    (getFileType P inputPath = "unknown" →
      callCount .convertOfficeToPDF
        (newEvents (convertToPDF P E inputPath outputFolder) s) = 0 ∧
      callCount .convertImageToPDF
        (newEvents (convertToPDF P E inputPath outputFolder) s) = 0) := by
  have hrun := convertToPDF_run P E inputPath outputFolder s
  have hstop : ∀ r, convertToPDF P E inputPath outputFolder s =
      (r, afterMkdir E inputPath outputFolder s) →
      callCount .convertOfficeToPDF
        (newEvents (convertToPDF P E inputPath outputFolder) s) = 0 ∧
      callCount .convertImageToPDF
        (newEvents (convertToPDF P E inputPath outputFolder) s) = 0 := by
    intro r hr
    rw [newEvents_eq _ s _ (by rw [hr, afterMkdir_log])]
    simp [callCount, isCallOf]
  refine ⟨?_, ?_, ?_⟩
  · intro m hm
    rw [hrun, hm]
  · intro hok
    rw [hok] at hrun
    simp only at hrun
    refine ⟨?_, ?_, ?_⟩
    · intro hty
      obtain ⟨h1, h2⟩ := (getFileType_contains P inputPath).2.2.mp hty
      simp only [h1, h2, Bool.false_eq_true, if_false] at hrun
      exact hrun
    · intro hty
      have h1 := (getFileType_contains P inputPath).1.mp hty
      rw [if_pos h1] at hrun
      have hnew := newEvents_after_mkdir P E inputPath outputFolder s _ hrun
        (by
          obtain ⟨rest, ⟨d, hd, -⟩, -⟩ := convertOfficeToPDF_calls P E inputPath
            (outputPathOf P inputPath outputFolder) (afterMkdir E inputPath outputFolder s)
          exact ⟨d, hd⟩)
      obtain ⟨-, hc1, hc2⟩ := callCount_convertOfficeToPDF P E inputPath
        (outputPathOf P inputPath outputFolder) (afterMkdir E inputPath outputFolder s)
      refine ⟨hrun, ?_, ?_⟩
      · rw [hnew, callCount_append, hc1]
        simp [callCount, isCallOf]
      · rw [hnew, callCount_append, hc2]
        simp [callCount, isCallOf]
    · intro hty
      obtain ⟨h1, h2⟩ := (getFileType_contains P inputPath).2.1.mp hty
      simp only [h1, h2, Bool.false_eq_true, if_false, if_true] at hrun
      have hnew := newEvents_after_mkdir P E inputPath outputFolder s _ hrun
        (by
          obtain ⟨-, d, hd, -⟩ := convertImageViaImageMagick_spec P E inputPath
            (outputPathOf P inputPath outputFolder)
            { this := (afterMkdir E inputPath outputFolder s).this,
              log := (afterMkdir E inputPath outputFolder s).log ++
                [.call .convertImageToPDF
                  [inputPath, outputPathOf P inputPath outputFolder]] }
          refine ⟨.call .convertImageToPDF
            [inputPath, outputPathOf P inputPath outputFolder] :: d, ?_⟩
          simp only [convertImageToPDF, bind_eq, bind_run, record]
          rw [hd]
          simp)
      obtain ⟨-, hc1, hc2⟩ := callCount_convertImageToPDF P E inputPath
        (outputPathOf P inputPath outputFolder) (afterMkdir E inputPath outputFolder s)
      refine ⟨hrun, ?_, ?_⟩
      · rw [hnew, callCount_append, hc1]
        simp [callCount, isCallOf]
      · rw [hnew, callCount_append, hc2]
        simp [callCount, isCallOf]
  · intro hty
    obtain ⟨h1, h2⟩ := (getFileType_contains P inputPath).2.2.mp hty
    cases hmk : mkdirResult E inputPath outputFolder s with
    | error m =>
      rw [hmk] at hrun
      exact hstop _ hrun
    | ok v =>
      rw [hmk] at hrun
      simp only [h1, h2, Bool.false_eq_true, if_false] at hrun
      exact hstop _ hrun

/-! ## The batch handler -/

/-- One call of `convertToPDF` only appends to the log, and records itself exactly once. -/
theorem convertToPDF_appends (P : NodeLib) (E : Env) (inputPath outputFolder : String)
    (s : State) :
    ∃ d, (convertToPDF P E inputPath outputFolder s).2.log = s.log ++ d ∧
      callCount .convertToPDF d = 1 := by
  have hrun := convertToPDF_run P E inputPath outputFolder s
  have hstop : ∀ r, convertToPDF P E inputPath outputFolder s =
      (r, afterMkdir E inputPath outputFolder s) →
      ∃ d, (convertToPDF P E inputPath outputFolder s).2.log = s.log ++ d ∧
        callCount .convertToPDF d = 1 := by
    intro r hr
    exact ⟨_, by rw [hr, afterMkdir_log], by simp [callCount, isCallOf]⟩
  cases hmk : mkdirResult E inputPath outputFolder s with
  | error m =>
    rw [hmk] at hrun
    exact hstop _ hrun
  | ok v =>
    rw [hmk] at hrun
    simp only at hrun
    by_cases h1 : supportedFormats.office.contains (P.toLowerCase (P.extname inputPath)) = true
    · rw [if_pos h1] at hrun
      obtain ⟨rest, ⟨d, hd, -⟩, -⟩ := convertOfficeToPDF_calls P E inputPath
        (outputPathOf P inputPath outputFolder) (afterMkdir E inputPath outputFolder s)
      obtain ⟨hc, -, -⟩ := callCount_convertOfficeToPDF P E inputPath
        (outputPathOf P inputPath outputFolder) (afterMkdir E inputPath outputFolder s)
      rw [newEvents_eq _ _ d hd] at hc
      refine ⟨_, by rw [hrun, hd, afterMkdir_log, List.append_assoc], ?_⟩
      rw [callCount_append, hc]
      simp [callCount, isCallOf]
    · rw [if_neg h1] at hrun
      by_cases h2 : supportedFormats.images.contains (P.toLowerCase (P.extname inputPath)) = true
      · rw [if_pos h2] at hrun
        obtain ⟨hc, -, -⟩ := callCount_convertImageToPDF P E inputPath
          (outputPathOf P inputPath outputFolder) (afterMkdir E inputPath outputFolder s)
        obtain ⟨d, hd⟩ := convertImageToPDF_grows P E inputPath
          (outputPathOf P inputPath outputFolder) (afterMkdir E inputPath outputFolder s)
        rw [newEvents_eq _ _ d hd] at hc
        refine ⟨_, by rw [hrun, hd, afterMkdir_log, List.append_assoc], ?_⟩
        rw [callCount_append, hc]
        simp [callCount, isCallOf]
      · rw [if_neg h2] at hrun
        exact hstop _ hrun

/-- The loop of the handler returns the entries built so far followed by the entries of
the specification, and ends in the state the specification describes. -/
theorem convertFilesLoop_run (P : NodeLib) (E : Env) (outputFolder : String)
    (files : List String) (results : List ConversionResult) (s : State) :
    convertFilesLoop P E outputFolder files results s =
      (.ok (results ++ batchResults P E outputFolder files s),
        batchFinal P E outputFolder files s) := by
  induction files generalizing results s with
  | nil => simp [convertFilesLoop, batchResults, batchFinal, pure_eq]
  | cons filePath rest ih =>
    simp only [convertFilesLoop, bind_eq, tryCatch_eq, bind_run, tryCatch_run, pure_eq,
      batchResults, batchFinal]
    rcases hx : convertToPDF P E filePath outputFolder s with ⟨r, s1⟩
    cases r with
    | ok p => simp [ih, resultEntry]
    | error m => simp [ih, resultEntry]

/-- The files of a batch only append to the log, and `convertToPDF` is invoked once per
file. -/
theorem batchFinal_appends (P : NodeLib) (E : Env) (outputFolder : String)
    (files : List String) (s : State) :
    ∃ d, (batchFinal P E outputFolder files s).log = s.log ++ d ∧
      callCount .convertToPDF d = files.length := by
  induction files generalizing s with
  | nil => exact ⟨[], by simp [batchFinal], rfl⟩
  | cons filePath rest ih =>
    obtain ⟨d1, h1, hc1⟩ := convertToPDF_appends P E filePath outputFolder s
    obtain ⟨d2, h2, hc2⟩ := ih (convertToPDF P E filePath outputFolder s).2
    refine ⟨d1 ++ d2, by rw [batchFinal, h2, h1, List.append_assoc], ?_⟩
    rw [callCount_append, hc1, hc2, List.length_cons, Nat.add_comm]

theorem batchResults_length (P : NodeLib) (E : Env) (outputFolder : String)
    (files : List String) (s : State) :
    (batchResults P E outputFolder files s).length = files.length := by
  induction files generalizing s with
  | nil => rfl
  | cons filePath rest ih => simp [batchResults, ih]

theorem resultEntry_file (P : NodeLib) (filePath : String) (r : Outcome String) :
    (resultEntry P filePath r).file = P.basename filePath none := by
  cases r <;> rfl

theorem batchResults_files (P : NodeLib) (E : Env) (outputFolder : String)
    (files : List String) (s : State) :
    (batchResults P E outputFolder files s).map (fun r => r.file) =
      files.map (fun f => P.basename f none) := by
  induction files generalizing s with
  | nil => rfl
  | cons filePath rest ih => simp [batchResults, ih, resultEntry_file]

/-- Entry `i` of the specification is made from the outcome of `convertToPDF` on file `i`,
run in the state left by the files before it. -/
theorem batchResults_get (P : NodeLib) (E : Env) (outputFolder : String)
    (files : List String) (s : State) (i : Nat) (filePath : String)
    (h : files.get? i = some filePath) :
    (batchResults P E outputFolder files s).get? i =
      some (resultEntry P filePath
        (convertToPDF P E filePath outputFolder
          (batchFinal P E outputFolder (files.take i) s)).1) := by
  induction files generalizing s i with
  | nil => simp at h
  | cons f rest ih =>
    cases i with
    | zero =>
      simp only [List.get?_cons_zero, Option.some.injEq] at h
      subst h
      simp [batchResults, batchFinal]
    | succ j =>
      simp only [List.get?_cons_succ] at h
      simp only [batchResults, List.get?_cons_succ, List.take_succ_cons, batchFinal]
      exact ih _ j h

/-- C4: for every list of files the `convert-files` handler returns (it never throws)
the list `batchResults`: one entry per file, in the order of the input; entry `i` carries
the base name of file `i` and is made from the outcome of `convertToPDF` on file `i`, run
in the state left by the files before it (`success` with the returned path, `error` with
the message thrown); and `convertToPDF` is invoked once for every file, whatever failed
before. -/
theorem convertFiles_batch (P : NodeLib) (E : Env) (files : List String)
    (outputFolder : String) (s : State) :
    convertFiles P E files outputFolder s =
      (.ok (batchResults P E outputFolder files s), batchFinal P E outputFolder files s) ∧
    (batchResults P E outputFolder files s).length = files.length ∧
    (batchResults P E outputFolder files s).map (fun r => r.file) =
      files.map (fun f => P.basename f none) ∧
    (∀ i filePath, files.get? i = some filePath →
      (batchResults P E outputFolder files s).get? i =
        some (resultEntry P filePath
          (convertToPDF P E filePath outputFolder
            (batchFinal P E outputFolder (files.take i) s)).1)) ∧
    callCount .convertToPDF (newEvents (convertFiles P E files outputFolder) s) =
      files.length := by
  have hrun : convertFiles P E files outputFolder s =
      (.ok (batchResults P E outputFolder files s),
        batchFinal P E outputFolder files s) := by
    simp only [convertFiles, tryCatch_eq, tryCatch_run, convertFilesLoop_run, List.nil_append]
  obtain ⟨d, hd, hc⟩ := batchFinal_appends P E outputFolder files s
  refine ⟨hrun, batchResults_length P E outputFolder files s,
    batchResults_files P E outputFolder files s,
    fun i filePath h => batchResults_get P E outputFolder files s i filePath h, ?_⟩
  rw [newEvents_eq _ s d (by rw [hrun]; exact hd), hc]

/-! ## The generated scripts -/

theorem containsInOrder_cons (part : String) (rest : List String) (before after text : String)
    (htext : text = before ++ part ++ after) (h : ContainsInOrder rest after) :
    ContainsInOrder (part :: rest) text :=
  ⟨before, after, htext, h⟩

set_option maxRecDepth 100000 in
/-- C19: for every source and output path, each of the six generated scripts contains, in
this order, the open step on the embedded source path, the export step on the embedded
output path with the fixed code of the document kind (`17` for the word processor,
`0, <path>, 0` for the spreadsheet, `32` for the presentation), the close step and the
quit step. -/
theorem scripts_open_export_close_quit (inputPath outputPath : String) :
    ContainsInOrder
      ["objWord.Documents.Open(\"" ++ escapeSingle inputPath ++ "\", False, True)",
       "objDoc.SaveAs2 \"" ++ escapeSingle outputPath ++ "\", 17",
       "objDoc.Close", "objWord.Quit"]
      (wordVbsScript inputPath outputPath) ∧
    ContainsInOrder
      ["objExcel.Workbooks.Open(\"" ++ escapeDouble inputPath ++ "\", False, True)",
       "objWorkbook.ExportAsFixedFormat 0, \"" ++ escapeDouble outputPath ++ "\", 0, 1",
       "objWorkbook.Close", "objExcel.Quit"]
      (excelVbsScript inputPath outputPath) ∧
    ContainsInOrder
      ["objPPT.Presentations.Open(\"" ++ escapeSingle inputPath ++ "\", False, False, False)",
       "objPresentation.SaveAs \"" ++ escapeSingle outputPath ++ "\", 32",
       "objPresentation.Close", "objPPT.Quit"]
      (powerPointVbsScript inputPath outputPath) ∧
    ContainsInOrder
      ["$word.Documents.Open(\x27" ++ escapeDouble inputPath ++ "\x27, $false, $true)",
       "$doc.SaveAs2(\x27" ++ escapeDouble outputPath ++ "\x27, 17)",
       "$doc.Close()", "$word.Quit()"]
      (wordPsScript inputPath outputPath) ∧
    ContainsInOrder
      ["$excel.Workbooks.Open(\x27" ++ escapeDouble inputPath ++ "\x27, $false, $true)",
       "$workbook.ExportAsFixedFormat(0, \x27" ++ escapeDouble outputPath ++ "\x27, 0, 1)",
       "$workbook.Close($false)", "$excel.Quit()"]
      (excelPsScript inputPath outputPath) ∧
    ContainsInOrder
      ["$ppt.Presentations.Open(\x27" ++ escapeDouble inputPath ++
         "\x27, $false, $false, $false)",
       "$presentation.SaveAs(\x27" ++ escapeDouble outputPath ++ "\x27, 32)",
       "$presentation.Close()", "$ppt.Quit()"]
      (powerPointPsScript inputPath outputPath) := by
  refine ⟨?_, ?_, ?_, ?_, ?_, ?_⟩
  · refine containsInOrder_cons _ _
      ("\n      Set objWord = CreateObject(\"Word.Application\")" ++
        "\n      objWord.Visible = False\n      objWord.DisplayAlerts = 0\n      " ++
        "\n      Set objDoc = ")
      ("\n      objDoc.SaveAs2 \"" ++ escapeSingle outputPath ++ "\", 17" ++
        "\n      objDoc.Close\n      \n      objWord.Quit\n      Set objWord = Nothing\n    ")
      _ ?_ ?_
    · apply String.ext
      simp [wordVbsScript]
    · refine containsInOrder_cons _ _ "\n      "
        "\n      objDoc.Close\n      \n      objWord.Quit\n      Set objWord = Nothing\n    "
        _ ?_ ?_
      · apply String.ext
        simp
      · refine containsInOrder_cons _ _ "\n      "
          "\n      \n      objWord.Quit\n      Set objWord = Nothing\n    " _ (by decide) ?_
        exact containsInOrder_cons _ _ "\n      \n      "
          "\n      Set objWord = Nothing\n    " _ (by decide) trivial
  · refine containsInOrder_cons _ _
      "\n      Set objExcel = CreateObject(\"Excel.Application\")\n      objExcel.Visible = False\n      objExcel.DisplayAlerts = False\n      \n      Set objWorkbook = "
      ("\n      objWorkbook.ExportAsFixedFormat 0, \"" ++ escapeDouble outputPath ++
        "\", 0, 1\n      objWorkbook.Close\n      \n      objExcel.Quit\n      Set objExcel = Nothing\n    ")
      _ ?_ ?_
    · apply String.ext
      simp [excelVbsScript]
    · refine containsInOrder_cons _ _ "\n      "
        "\n      objWorkbook.Close\n      \n      objExcel.Quit\n      Set objExcel = Nothing\n    "
        _ ?_ ?_
      · apply String.ext
        simp
      · refine containsInOrder_cons _ _ "\n      "
          "\n      \n      objExcel.Quit\n      Set objExcel = Nothing\n    " _ (by decide) ?_
        exact containsInOrder_cons _ _ "\n      \n      "
          "\n      Set objExcel = Nothing\n    " _ (by decide) trivial
  · refine containsInOrder_cons _ _
      "\n      Set objPPT = CreateObject(\"PowerPoint.Application\")\n      objPPT.Visible = False\n      \n      Set objPresentation = "
      ("\n      objPresentation.SaveAs \"" ++ escapeSingle outputPath ++
        "\", 32\n      objPresentation.Close\n      \n      objPPT.Quit\n      Set objPPT = Nothing\n    ")
      _ ?_ ?_
    · apply String.ext
      simp [powerPointVbsScript]
    · refine containsInOrder_cons _ _ "\n      "
        "\n      objPresentation.Close\n      \n      objPPT.Quit\n      Set objPPT = Nothing\n    "
        _ ?_ ?_
      · apply String.ext
        simp
      · refine containsInOrder_cons _ _ "\n      "
          "\n      \n      objPPT.Quit\n      Set objPPT = Nothing\n    " _ (by decide) ?_
        exact containsInOrder_cons _ _ "\n      \n      "
          "\n      Set objPPT = Nothing\n    " _ (by decide) trivial
  · refine containsInOrder_cons _ _
      "\n      $word = New-Object -ComObject Word.Application\n      $word.Visible = $false\n      $word.DisplayAlerts = \x27wdAlertsNone\x27\n      try \x7b\n        $doc = "
      ("\n        $doc.SaveAs2(\x27" ++ escapeDouble outputPath ++
        "\x27, 17)\n        $doc.Close()\n      \x7d finally \x7b\n        $word.Quit()\n        [System.Runtime.Interopservices.Marshal]::ReleaseComObject($word) | Out-Null\n      \x7d\n    ")
      _ ?_ ?_
    · apply String.ext
      simp [wordPsScript]
    · refine containsInOrder_cons _ _ "\n        "
        "\n        $doc.Close()\n      \x7d finally \x7b\n        $word.Quit()\n        [System.Runtime.Interopservices.Marshal]::ReleaseComObject($word) | Out-Null\n      \x7d\n    "
        _ ?_ ?_
      · apply String.ext
        simp
      · refine containsInOrder_cons _ _ "\n        "
          "\n      \x7d finally \x7b\n        $word.Quit()\n        [System.Runtime.Interopservices.Marshal]::ReleaseComObject($word) | Out-Null\n      \x7d\n    " _ (by decide) ?_
        exact containsInOrder_cons _ _ "\n      \x7d finally \x7b\n        "
          "\n        [System.Runtime.Interopservices.Marshal]::ReleaseComObject($word) | Out-Null\n      \x7d\n    " _ (by decide) trivial
  · refine containsInOrder_cons _ _
      "\n      $excel = New-Object -ComObject Excel.Application\n      $excel.Visible = $false\n      $excel.DisplayAlerts = $false\n      try \x7b\n        $workbook = "
      ("\n        $workbook.ExportAsFixedFormat(0, \x27" ++ escapeDouble outputPath ++
        "\x27, 0, 1)\n        $workbook.Close($false)\n      \x7d finally \x7b\n        $excel.Quit()\n        [System.Runtime.Interopservices.Marshal]::ReleaseComObject($excel) | Out-Null\n      \x7d\n    ")
      _ ?_ ?_
    · apply String.ext
      simp [excelPsScript]
    · refine containsInOrder_cons _ _ "\n        "
        "\n        $workbook.Close($false)\n      \x7d finally \x7b\n        $excel.Quit()\n        [System.Runtime.Interopservices.Marshal]::ReleaseComObject($excel) | Out-Null\n      \x7d\n    "
        _ ?_ ?_
      · apply String.ext
        simp
      · refine containsInOrder_cons _ _ "\n        "
          "\n      \x7d finally \x7b\n        $excel.Quit()\n        [System.Runtime.Interopservices.Marshal]::ReleaseComObject($excel) | Out-Null\n      \x7d\n    " _ (by decide) ?_
        exact containsInOrder_cons _ _ "\n      \x7d finally \x7b\n        "
          "\n        [System.Runtime.Interopservices.Marshal]::ReleaseComObject($excel) | Out-Null\n      \x7d\n    " _ (by decide) trivial
  · refine containsInOrder_cons _ _
      "\n      $ppt = New-Object -ComObject PowerPoint.Application\n      $ppt.Visible = \x27msoFalse\x27\n      try \x7b\n        $presentation = "
      ("\n        $presentation.SaveAs(\x27" ++ escapeDouble outputPath ++
        "\x27, 32)\n        $presentation.Close()\n      \x7d finally \x7b\n        $ppt.Quit()\n        [System.Runtime.Interopservices.Marshal]::ReleaseComObject($ppt) | Out-Null\n      \x7d\n    ")
      _ ?_ ?_
    · apply String.ext
      simp [powerPointPsScript]
    · refine containsInOrder_cons _ _ "\n        "
        "\n        $presentation.Close()\n      \x7d finally \x7b\n        $ppt.Quit()\n        [System.Runtime.Interopservices.Marshal]::ReleaseComObject($ppt) | Out-Null\n      \x7d\n    "
        _ ?_ ?_
      · apply String.ext
        simp
      · refine containsInOrder_cons _ _ "\n        "
          "\n      \x7d finally \x7b\n        $ppt.Quit()\n        [System.Runtime.Interopservices.Marshal]::ReleaseComObject($ppt) | Out-Null\n      \x7d\n    " _ (by decide) ?_
        exact containsInOrder_cons _ _ "\n      \x7d finally \x7b\n        "
          "\n        [System.Runtime.Interopservices.Marshal]::ReleaseComObject($ppt) | Out-Null\n      \x7d\n    " _ (by decide) trivial

theorem replaceBackslash_single (cs : List Char) : replaceBackslash ['\\'] cs = cs := by
  induction cs with
  | nil => rfl
  | cons c cs ih =>
    simp only [replaceBackslash, ih]
    split
    · next h => simp [h]
    · simp

/-- The replacement used by the Word and PowerPoint VBScript generators changes nothing. -/
theorem escapeSingle_eq (path : String) : escapeSingle path = path := by
  simp [escapeSingle, replaceBackslash_single]

set_option maxRecDepth 100000 in
/-- C17, evaluated at the path `C:\docs\a b.xlsx`: the Word and PowerPoint VBScript
generators embed the path unchanged, the Excel VBScript generator embeds it with every
backslash doubled, so the three VBScript generators do not embed the same text; the three
PowerShell generators all embed the doubled form. -/
theorem vbs_generators_escape_differently :
    escapeSingle "C:\\docs\\a b.xlsx" = "C:\\docs\\a b.xlsx" ∧
    escapeDouble "C:\\docs\\a b.xlsx" = "C:\\\\docs\\\\a b.xlsx" ∧
    List.IsInfix "Documents.Open(\"C:\\docs\\a b.xlsx\"".data
      (wordVbsScript "C:\\docs\\a b.xlsx" "C:\\out\\a b.pdf").data ∧
    List.IsInfix "Workbooks.Open(\"C:\\\\docs\\\\a b.xlsx\"".data
      (excelVbsScript "C:\\docs\\a b.xlsx" "C:\\out\\a b.pdf").data ∧
    ¬ List.IsInfix "Workbooks.Open(\"C:\\docs\\a b.xlsx\"".data
      (excelVbsScript "C:\\docs\\a b.xlsx" "C:\\out\\a b.pdf").data ∧
    List.IsInfix "Presentations.Open(\"C:\\docs\\a b.xlsx\"".data
      (powerPointVbsScript "C:\\docs\\a b.xlsx" "C:\\out\\a b.pdf").data := by
  refine ⟨by decide, by decide, by decide, by decide, by decide, by decide⟩

set_option maxRecDepth 100000 in
/-- C18, evaluated at the path `C:\docs\My Report.docx`: read as a VBScript string, the
text embedded by the Word and PowerPoint VBScript generators denotes the path, but the
text embedded by the Excel VBScript generator denotes `C:\\docs\\My Report.docx`; read as
a PowerShell single-quoted string, the text embedded by the three PowerShell generators
denotes `C:\\docs\\My Report.docx` as well, not the path that was passed in. -/
theorem embedded_path_denotation :
    vbsStringValue (escapeSingle "C:\\docs\\My Report.docx").data =
      some "C:\\docs\\My Report.docx".data ∧
    vbsStringValue (escapeDouble "C:\\docs\\My Report.docx").data =
      some "C:\\\\docs\\\\My Report.docx".data ∧
    psStringValue (escapeDouble "C:\\docs\\My Report.docx").data =
      some "C:\\\\docs\\\\My Report.docx".data ∧
    "C:\\\\docs\\\\My Report.docx" ≠ "C:\\docs\\My Report.docx" ∧
    List.IsInfix ("Workbooks.Open(\"" ++ escapeDouble "C:\\docs\\My Report.docx" ++ "\"").data
      (excelVbsScript "C:\\docs\\My Report.docx" "C:\\out\\My Report.pdf").data ∧
    List.IsInfix ("Documents.Open(\x27" ++ escapeDouble "C:\\docs\\My Report.docx" ++
        "\x27").data
      (wordPsScript "C:\\docs\\My Report.docx" "C:\\out\\My Report.pdf").data ∧
    List.IsInfix ("Workbooks.Open(\x27" ++ escapeDouble "C:\\docs\\My Report.docx" ++
        "\x27").data
      (excelPsScript "C:\\docs\\My Report.docx" "C:\\out\\My Report.pdf").data ∧
    List.IsInfix ("Presentations.Open(\x27" ++ escapeDouble "C:\\docs\\My Report.docx" ++
        "\x27").data
      (powerPointPsScript "C:\\docs\\My Report.docx" "C:\\out\\My Report.pdf").data := by
  refine ⟨by decide, by decide, by decide, by decide, by decide, by decide, by decide,
    by decide⟩

set_option maxRecDepth 100000 in
/-- C20, evaluated off Windows with the setting `native` and every child process failing:
the resident conversion is never invoked, the scripted conversion is invoked twice (the
first attempt and again as the fallback), and the message about the failed native attempt
is printed although no resident attempt was made. -/
theorem convertOfficeToPDF_scripted_twice :
    otherStart.this.isWindows = false ∧
    configuredMethod allFailEnv "a.docx" "out/a.pdf" otherStart = "native" ∧
    callCount .convertOfficeViaCOM
      (newEvents (convertOfficeToPDF posixPath allFailEnv "a.docx" "out/a.pdf")
        otherStart) = 0 ∧
    callCount .convertOfficeViaPowerShell
      (newEvents (convertOfficeToPDF posixPath allFailEnv "a.docx" "out/a.pdf")
        otherStart) = 2 ∧
    Event.consoleLog "Native Office VBS failed, falling back to PowerShell..." ∈
      newEvents (convertOfficeToPDF posixPath allFailEnv "a.docx" "out/a.pdf")
        otherStart := by
  refine ⟨by decide, by decide, by decide, by decide, by decide⟩

/-! ## The image pipeline -/

/-- Closed form of `convertImageViaImageMagick`: the `try` block, then the delete of the
intermediate bitmap, which never changes the outcome. -/
theorem convertImageViaImageMagick_run (P : NodeLib) (E : Env)
    (inputPath outputPath : String) (s : State) :
    convertImageViaImageMagick P E inputPath outputPath s =
      (let log0 := s.log ++ [.call .convertImageViaImageMagick [inputPath, outputPath]]
       let png := tempPngPath P E log0
       let body := imageTry P E inputPath outputPath png (log0 ++ [.now (E.now log0)])
       (body.1, { s with log := body.2 ++ [.unlink png (E.unlink body.2 png)] })) := by
  simp only [convertImageViaImageMagick, bind_eq, tryCatch_eq, tryFinally_eq, bind_run,
    tryFinally_run, tryCatch_run, effect, dateNow, fsWriteFile, execAsync, fsAccess,
    fsReadFile, fsUnlink, pdfEmbedPng, pdfSave, record, imageTry, tempPngPath, magickCommand,
    imageDocument, throw_eq, Run.throwError, pure_eq]
  generalize E.exec _ _ = r1
  rcases r1 with v1 | m1
  swap
  · simp only []
    generalize E.unlink _ _ = u
    cases u <;> rfl
  simp only []
  generalize E.access _ _ = r2
  rcases r2 with v2 | m2
  swap
  · simp only []
    generalize E.unlink _ _ = u
    cases u <;> rfl
  simp only []
  generalize E.readFile _ _ = r3
  rcases r3 with v3 | m3
  swap
  · simp only []
    generalize E.unlink _ _ = u
    cases u <;> rfl
  simp only []
  generalize E.embedPng _ = r4
  rcases r4 with v4 | m4
  swap
  · simp only []
    generalize E.unlink _ _ = u
    cases u <;> rfl
  simp only []
  generalize E.savePdf _ = r5
  rcases r5 with v5 | m5
  swap
  · simp only []
    generalize E.unlink _ _ = u
    cases u <;> rfl
  simp only []
  generalize E.writeFile _ _ _ = r6
  rcases r6 with v6 | m6
  swap
  · simp only []
    generalize E.unlink _ _ = u
    cases u <;> rfl
  simp only []
  generalize E.unlink _ _ = u
  cases u <;> rfl

/-- `convertImageToPDF` is `convertImageViaImageMagick` after recording its own call. -/
theorem convertImageToPDF_run (P : NodeLib) (E : Env) (inputPath outputPath : String)
    (s : State) :
    convertImageToPDF P E inputPath outputPath s =
      (let log0 := imageClockLog inputPath outputPath s
       let png := tempPngPath P E log0
       let body := imageTry P E inputPath outputPath png (log0 ++ [.now (E.now log0)])
       (body.1, { s with log := body.2 ++ [.unlink png (E.unlink body.2 png)] })) := by
  simp only [convertImageToPDF, bind_eq, bind_run, record, convertImageViaImageMagick_run,
    imageClockLog]

/-- C16: if the raster engine fails, `convertImageToPDF` throws the engine's message
wrapped in `Bundled ImageMagick failed. .. Error: `; if the engine exits normally but the
intermediate bitmap cannot be accessed, it throws `ImageMagick conversion failed - no
output file created`.  In both cases the run embeds no bitmap, serialises no document and
calls `fs.writeFile` not at all, so nothing is written to `outputPath`. -/
theorem convertImageToPDF_engine_failure (P : NodeLib) (E : Env)
    (inputPath outputPath : String) (s : State) :
    let log0 := imageClockLog inputPath outputPath s
    let png := tempPngPath P E log0
    let log1 := log0 ++ [.now (E.now log0)]
    let command := magickCommand P E inputPath png
    let built := (newEvents (convertImageToPDF P E inputPath outputPath) s).filter
      fun e => isPdfStep e || isWriteFile e
    (∀ m, E.exec log1 command = .error m →
      (convertImageToPDF P E inputPath outputPath s).1 =
        .error ("Bundled ImageMagick failed. This may indicate a corrupted installation " ++
          "or unsupported file format. Error: " ++ m) ∧ built = []) ∧
    (∀ stdout m, E.exec log1 command = .ok stdout →
      E.access (log1 ++ [.exec command (.ok stdout)]) png = .error m →
      (convertImageToPDF P E inputPath outputPath s).1 =
        .error "ImageMagick conversion failed - no output file created" ∧ built = []) := by
  intro log0 png log1 command built
  constructor
  · intro m hm
    have hbody : imageTry P E inputPath outputPath png log1 =
        (.error ("Bundled ImageMagick failed. This may indicate a corrupted installation " ++
          "or unsupported file format. Error: " ++ m),
         log1 ++ [.exec command (.error m)]) := by
      simp only [imageTry]
      rw [hm]
      rfl
    have hrun := convertImageToPDF_run P E inputPath outputPath s
    simp only at hrun
    rw [hbody] at hrun
    refine ⟨by rw [hrun], ?_⟩
    simp only [built, newEvents, hrun, log1, log0, imageClockLog, List.append_assoc,
      List.drop_left]
    rfl
  · intro stdout m hexec hacc
    have hbody : imageTry P E inputPath outputPath png log1 =
        (.error "ImageMagick conversion failed - no output file created",
         log1 ++ [.exec command (.ok stdout)] ++ [.access png (.error m)]) := by
      simp only [imageTry]
      rw [hexec]
      simp only
      rw [hacc]
    have hrun := convertImageToPDF_run P E inputPath outputPath s
    simp only at hrun
    rw [hbody] at hrun
    refine ⟨by rw [hrun], ?_⟩
    simp only [built, newEvents, hrun, log1, log0, imageClockLog, List.append_assoc,
      List.drop_left]
    rfl

theorem convertImageToPDF_engine_failure_witness :
    ((convertImageToPDF posixPath allFailEnv "a.png" "out/a.pdf" otherStart).1 =
        .error ("Bundled ImageMagick failed. This may indicate a corrupted installation " ++
          "or unsupported file format. Error: Command failed") ∧
      (newEvents (convertImageToPDF posixPath allFailEnv "a.png" "out/a.pdf")
        otherStart).filter (fun e => isPdfStep e || isWriteFile e) = []) ∧
    ((convertImageToPDF posixPath noBitmapEnv "a.png" "out/a.pdf" otherStart).1 =
        .error "ImageMagick conversion failed - no output file created" ∧
      (newEvents (convertImageToPDF posixPath noBitmapEnv "a.png" "out/a.pdf")
        otherStart).filter (fun e => isPdfStep e || isWriteFile e) = []) :=
  ⟨(convertImageToPDF_engine_failure posixPath allFailEnv "a.png" "out/a.pdf" otherStart).1
      "Command failed" rfl,
   (convertImageToPDF_engine_failure posixPath noBitmapEnv "a.png" "out/a.pdf" otherStart).2
      "" "ENOENT: no such file or directory" rfl rfl⟩

/-! ## Temp files are deleted -/

/-- The environment `diskFullEnv` removes what `fs.unlink` reports as removed. -/
theorem diskFullEnv_unlinkRemoves : UnlinkRemoves diskFullEnv := by
  intro log path
  refine ⟨"ENOENT: no such file or directory", ?_⟩
  simp [diskFullEnv, fileExists, List.foldl_append]

set_option maxRecDepth 100000 in
/-- C15 as stated fails when the write of the temp script fails: on a full disk
`convertWordToPDF` throws the error of `fs.writeFile` without ever calling `fs.unlink`, and
the temp script that the failed write created is still there when the operation returns. -/
theorem convertWordToPDF_write_failure :
    UnlinkRemoves diskFullEnv ∧
    (convertWordToPDF posixPath diskFullEnv "a.docx" "out/a.pdf" windowsStart).1 =
      .error "ENOSPC: no space left on device, write" ∧
    (convertWordToPDF posixPath diskFullEnv "a.docx" "out/a.pdf" windowsStart).2.log.filter
      isUnlink = [] ∧
    Event.writeFile "/tmp/temp_word_script_1700000000000.vbs"
        (wordVbsScript "a.docx" "out/a.pdf") (.error "ENOSPC: no space left on device, write") ∈
      (convertWordToPDF posixPath diskFullEnv "a.docx" "out/a.pdf" windowsStart).2.log ∧
    ¬ Absent diskFullEnv "/tmp/temp_word_script_1700000000000.vbs"
      (convertWordToPDF posixPath diskFullEnv "a.docx" "out/a.pdf" windowsStart).2.log := by
  refine ⟨diskFullEnv_unlinkRemoves, by decide, by decide, by decide, ?_⟩
  have h : diskFullEnv.access
      (convertWordToPDF posixPath diskFullEnv "a.docx" "out/a.pdf" windowsStart).2.log
      "/tmp/temp_word_script_1700000000000.vbs" = .ok () := by decide
  rintro ⟨m, hm⟩
  rw [h] at hm
  exact Outcome.noConfusion hm

/-- Once its script is written, the shared runner tail ends with the delete of the
script, whose answer does not reach the outcome. -/
theorem writeAndExecute_cleansUp (P : NodeLib) (E : Env) (pre suf script interp : String)
    (s : State) (hw : ScriptWritten P E pre suf script s.log) :
    CleansUp (fun E => writeAndExecute P E pre suf script interp) E s
      (scriptPath P E pre suf s.log) := by
  simp only [ScriptWritten, scriptPath] at hw
  have hlog : ∃ before, (writeAndExecute P E pre suf script interp s).2.log =
      before ++ [.unlink (scriptPath P E pre suf s.log)
        (E.unlink before (scriptPath P E pre suf s.log))] := by
    rw [writeAndExecute_run]
    simp only [hw, scriptPath]
    exact ⟨_, rfl⟩
  refine ⟨hlog, ?_, ?_⟩
  · rintro hlaw ⟨before, hb⟩
    simp only [] at hb ⊢
    rw [hb]
    exact hlaw before _
  · intro unlink
    simp only [writeAndExecute_run, hw]

/-- A script runner that records its call and then runs the shared tail. -/
theorem runner_cleansUp {α : Type} (P : NodeLib) (E : Env) (c : Event)
    (pre suf script interp : String) (k : String → α) (s : State) :
    RunnerCleansUp P (fun E => Run.bind (record c) fun _ =>
      Run.bind (writeAndExecute P E pre suf script interp) fun out => pure (k out))
      E s c pre suf script := by
  intro hw
  obtain ⟨⟨before, hb⟩, -, hout⟩ := writeAndExecute_cleansUp P E pre suf script interp
    { s with log := s.log ++ [c] } hw
  simp only [] at hb hout
  have hlog : ∃ before, ((Run.bind (record c) fun _ =>
      Run.bind (writeAndExecute P E pre suf script interp) fun out => pure (k out)) s).2.log =
      before ++ [.unlink (scriptPath P E pre suf (s.log ++ [c]))
        (E.unlink before (scriptPath P E pre suf (s.log ++ [c])))] := by
    refine ⟨before, ?_⟩
    rw [← hb]
    simp only [bind_run, record, pure_eq]
    rcases writeAndExecute P E pre suf script interp { s with log := s.log ++ [c] }
      with ⟨r, s1⟩
    cases r <;> rfl
  refine ⟨hlog, ?_, ?_⟩
  · rintro hlaw ⟨b, hb2⟩
    simp only [] at hb2 ⊢
    rw [hb2]
    exact hlaw b _
  · intro unlink
    have h := hout unlink
    simp only [bind_run, record, pure_eq]
    rcases hx : writeAndExecute P { E with unlink := unlink } pre suf script interp
      { s with log := s.log ++ [c] } with ⟨r, s1⟩
    rcases hy : writeAndExecute P E pre suf script interp
      { s with log := s.log ++ [c] } with ⟨r2, s2⟩
    rw [hx, hy] at h
    simp only at h
    subst h
    cases r <;> rfl

/-- The probe, when it runs its script, ends with the delete of the script. -/
theorem checkOfficeAvailability_cleansUp (P : NodeLib) (E : Env) (s : State)
    (hnone : s.this.officeAvailable = none) (hwin : s.this.isWindows = true) :
    RunnerCleansUp P (fun E => checkOfficeAvailability P E) E s
      (.call .checkOfficeAvailability []) "office_check_" ".js" testScript := by
  intro hw
  obtain ⟨⟨before, hb⟩, -, hout⟩ := writeAndExecute_cleansUp P E "office_check_" ".js"
    testScript "cscript //NoLogo" { s with log := s.log ++ [.call .checkOfficeAvailability []] } hw
  simp only [] at hb hout
  have hlog : ∃ before, (checkOfficeAvailability P E s).2.log =
      before ++ [.unlink
        (scriptPath P E "office_check_" ".js" (s.log ++ [.call .checkOfficeAvailability []]))
        (E.unlink before
          (scriptPath P E "office_check_" ".js" (s.log ++ [.call .checkOfficeAvailability []])))] := by
    refine ⟨before, ?_⟩
    rw [← hb, checkOfficeAvailability_run]
    simp only [hnone, hwin, Bool.true_eq_false, if_false]
    rcases writeAndExecute P E "office_check_" ".js" testScript "cscript //NoLogo"
      { s with log := s.log ++ [.call .checkOfficeAvailability []] } with ⟨r, s1⟩
    cases r <;> rfl
  refine ⟨hlog, ?_, ?_⟩
  · rintro hlaw ⟨b, hb2⟩
    simp only [] at hb2 ⊢
    rw [hb2]
    exact hlaw b _
  · intro unlink
    have h := hout unlink
    simp only [checkOfficeAvailability_run, hnone, hwin, Bool.true_eq_false, if_false]
    rcases hx : writeAndExecute P { E with unlink := unlink } "office_check_" ".js" testScript
      "cscript //NoLogo" { s with log := s.log ++ [.call .checkOfficeAvailability []] }
      with ⟨r, s1⟩
    rcases hy : writeAndExecute P E "office_check_" ".js" testScript "cscript //NoLogo"
      { s with log := s.log ++ [.call .checkOfficeAvailability []] } with ⟨r2, s2⟩
    rw [hx, hy] at h
    simp only at h
    subst h
    cases r <;> rfl

/-- The image pipeline ends with the delete of the intermediate bitmap on every path. -/
theorem convertImageViaImageMagick_cleansUp (P : NodeLib) (E : Env)
    (inputPath outputPath : String) (s : State) :
    CleansUp (fun E => convertImageViaImageMagick P E inputPath outputPath) E s
      (tempPngPath P E
        (s.log ++ [.call .convertImageViaImageMagick [inputPath, outputPath]])) := by
  refine ⟨?_, ?_, ?_⟩
  · simp only [convertImageViaImageMagick_run]
    exact ⟨_, rfl⟩
  · rintro hlaw ⟨b, hb⟩
    simp only [] at hb ⊢
    rw [hb]
    exact hlaw b _
  · intro unlink
    simp only [convertImageViaImageMagick_run]
    rfl

/-- C15, amended: each of the six script runners, once its temp script is written, and the
availability probe, when it runs its script and the script is written, ends with
`fs.unlink` of the temp script as its last effect, whether the interpreter succeeded or
failed; the image pipeline ends with `fs.unlink` of the intermediate bitmap on every
path.  So when that delete succeeds the temp path is absent at the return, and the answer
of `fs.unlink` never changes the outcome of the operation. -/
theorem temp_file_cleanup (P : NodeLib) (E : Env) (inputPath outputPath : String)
    (s : State) :
    RunnerCleansUp P (fun E => convertWordToPDF P E inputPath outputPath) E s
      (.call .convertWordToPDF [inputPath, outputPath]) "temp_word_script_" ".vbs"
      (wordVbsScript inputPath outputPath) ∧
    RunnerCleansUp P (fun E => convertExcelToPDF P E inputPath outputPath) E s
      (.call .convertExcelToPDF [inputPath, outputPath]) "temp_excel_script_" ".vbs"
      (excelVbsScript inputPath outputPath) ∧
    RunnerCleansUp P (fun E => convertPowerPointToPDF P E inputPath outputPath) E s
      (.call .convertPowerPointToPDF [inputPath, outputPath]) "temp_powerpoint_script_" ".vbs"
      (powerPointVbsScript inputPath outputPath) ∧
    RunnerCleansUp P (fun E => convertWordViaPowerShell P E inputPath outputPath) E s
      (.call .convertWordViaPowerShell [inputPath, outputPath]) "temp_word_ps_" ".ps1"
      (wordPsScript inputPath outputPath) ∧
    RunnerCleansUp P (fun E => convertExcelViaPowerShell P E inputPath outputPath) E s
      (.call .convertExcelViaPowerShell [inputPath, outputPath]) "temp_excel_ps_" ".ps1"
      (excelPsScript inputPath outputPath) ∧
    RunnerCleansUp P (fun E => convertPowerPointViaPowerShell P E inputPath outputPath) E s
      (.call .convertPowerPointViaPowerShell [inputPath, outputPath]) "temp_powerpoint_ps_" ".ps1"
      (powerPointPsScript inputPath outputPath) ∧
    (s.this.officeAvailable = none → s.this.isWindows = true →
      RunnerCleansUp P (fun E => checkOfficeAvailability P E) E s
        (.call .checkOfficeAvailability []) "office_check_" ".js" testScript) ∧
    CleansUp (fun E => convertImageViaImageMagick P E inputPath outputPath) E s
      (tempPngPath P E
        (s.log ++ [.call .convertImageViaImageMagick [inputPath, outputPath]])) :=
  ⟨runner_cleansUp P E _ _ _ _ _ (fun _ => PUnit.unit) s,
   runner_cleansUp P E _ _ _ _ _ (fun _ => PUnit.unit) s,
   runner_cleansUp P E _ _ _ _ _ (fun _ => PUnit.unit) s,
   runner_cleansUp P E _ _ _ _ _ (fun _ => PUnit.unit) s,
   runner_cleansUp P E _ _ _ _ _ (fun _ => PUnit.unit) s,
   runner_cleansUp P E _ _ _ _ _ (fun _ => PUnit.unit) s,
   checkOfficeAvailability_cleansUp P E s,
   convertImageViaImageMagick_cleansUp P E inputPath outputPath s⟩

theorem temp_file_cleanup_witness :
    CleansUp (fun E => convertWordToPDF posixPath E "a.docx" "out/a.pdf") sampleEnv
      windowsStart
      (scriptPath posixPath sampleEnv "temp_word_script_" ".vbs"
        (windowsStart.log ++ [.call .convertWordToPDF ["a.docx", "out/a.pdf"]])) ∧
    CleansUp (fun E => checkOfficeAvailability posixPath E) sampleEnv windowsStart
      (scriptPath posixPath sampleEnv "office_check_" ".js"
        (windowsStart.log ++ [.call .checkOfficeAvailability []])) :=
  ⟨(temp_file_cleanup posixPath sampleEnv "a.docx" "out/a.pdf" windowsStart).1 rfl,
   (temp_file_cleanup posixPath sampleEnv "a.docx" "out/a.pdf" windowsStart).2.2.2.2.2.2.1
     rfl rfl rfl⟩

/-! ## Rounding in the image layout -/

/-- With enough fuel, `log2Fuel` is the position of the leading binary digit. -/
theorem log2Fuel_spec : ∀ (fuel n : Nat), n ≤ fuel → 1 ≤ n →
    2 ^ log2Fuel fuel n ≤ n ∧ n < 2 ^ (log2Fuel fuel n + 1)
  | 0, n, h0, h1 => by omega
  | fuel + 1, n, h0, h1 => by
    unfold log2Fuel
    split
    · rename_i h2
      obtain ⟨ih1, ih2⟩ := log2Fuel_spec fuel (n / 2) (by omega) (by omega)
      rw [pow_succ, pow_succ] at *
      constructor <;> omega
    · simp
      omega

/-- The rounded quotient is within one half of the exact quotient. -/
theorem roundNearestEven_near (n d : Nat) (hd : 0 < d) :
    |((roundNearestEven n d : Nat) : ℚ) * d - n| ≤ (d : ℚ) / 2 := by
  have hdiv : (n : ℚ) = d * (n / d : Nat) + (n % d : Nat) := by
    exact_mod_cast (Nat.div_add_mod n d).symm
  have hmod : n % d < d := Nat.mod_lt _ hd
  have hmod' : ((n % d : Nat) : ℚ) < d := by exact_mod_cast hmod
  have hmod0 : (0 : ℚ) ≤ ((n % d : Nat) : ℚ) := by positivity
  unfold roundNearestEven
  simp only
  split_ifs with h1 h2 h3
  · have : (2 : ℚ) * (n % d : Nat) < d := by exact_mod_cast h1
    rw [abs_le]; constructor <;> nlinarith
  · have : (d : ℚ) < 2 * (n % d : Nat) := by exact_mod_cast h2
    push_cast
    rw [abs_le]; constructor <;> nlinarith
  · have : (2 : ℚ) * (n % d : Nat) = d := by
      have : 2 * (n % d) = d := by omega
      exact_mod_cast this
    rw [abs_le]; constructor <;> nlinarith
  · have : (2 : ℚ) * (n % d : Nat) = d := by
      have : 2 * (n % d) = d := by omega
      exact_mod_cast this
    push_cast
    rw [abs_le]; constructor <;> nlinarith

/-- A power of two with an integer exponent, as a quotient of two natural powers. -/
theorem two_zpow_split (k : Int) :
    ((2 : ℚ) ^ k.toNat) / (2 ^ (-k).toNat) = (2 : ℚ) ^ k := by
  rcases le_total 0 k with h | h
  · obtain ⟨n, rfl⟩ := Int.eq_ofNat_of_zero_le h
    simp
  · obtain ⟨n, hn⟩ := Int.eq_ofNat_of_zero_le (neg_nonneg.mpr h)
    have hk : k = -(n : Int) := by omega
    subst hk
    simp [zpow_neg]

/-- The binary exponent of a quotient is not above it: `2 ^ e ≤ n / d`. -/
theorem binaryExponent_le (n d : Nat) (hn : 0 < n) (hd : 0 < d) :
    (2 : ℚ) ^ binaryExponent n d ≤ (n : ℚ) / d := by
  have hdq : (0 : ℚ) < d := by exact_mod_cast hd
  obtain ⟨hn1, -⟩ := log2Fuel_spec n n le_rfl hn
  obtain ⟨-, hd2⟩ := log2Fuel_spec d d le_rfl hd
  unfold binaryExponent
  simp only
  split_ifs with h
  · rw [← two_zpow_split, div_le_div_iff₀ (by positivity) hdq]
    have : ((d * 2 ^ ((log2Fuel n n : Int) - (log2Fuel d d : Int)).toNat : Nat) : ℚ) ≤
        ((n * 2 ^ (-((log2Fuel n n : Int) - (log2Fuel d d : Int))).toNat : Nat) : ℚ) := by
      exact_mod_cast h
    push_cast at this
    linarith
  · have e : (2 : ℚ) ^ ((log2Fuel n n : Int) - (log2Fuel d d : Int) - 1) =
        (2 : ℚ) ^ log2Fuel n n / (2 ^ log2Fuel d d * 2) := by
      rw [zpow_sub₀ (by norm_num), zpow_sub₀ (by norm_num)]
      simp only [zpow_natCast, zpow_one]
      field_simp
    rw [e, div_le_div_iff₀ (by positivity) hdq]
    have h1 : ((2 : ℚ) ^ log2Fuel n n) ≤ n := by exact_mod_cast hn1
    have h2 : (d : ℚ) < 2 ^ log2Fuel d d * 2 := by
      have : d < 2 ^ log2Fuel d d * 2 := by rw [← pow_succ]; exact hd2
      exact_mod_cast this
    have hn0 : (0 : ℚ) ≤ n := by positivity
    nlinarith [pow_pos (by norm_num : (0 : ℚ) < 2) (log2Fuel n n)]

/-- Rounding a positive value gives a positive number within the relative error
`2 ^ (-53)` of the value. -/
theorem roundToDouble_near (num : Int) (den : Nat) (hnum : 0 < num) (hden : 0 < den) :
    (roundToDouble num den).Pos ∧
    |(roundToDouble num den).toRat - (num : ℚ) / den| ≤ ((num : ℚ) / den) / 2 ^ 53 := by
  obtain ⟨n, rfl⟩ := Int.eq_ofNat_of_zero_le hnum.le
  have hn : 0 < n := by exact_mod_cast hnum
  have hnq : (0 : ℚ) < n := by exact_mod_cast hn
  have hdq : (0 : ℚ) < den := by exact_mod_cast hden
  have hne : ¬ ((n : Int) = 0) := by omega
  have hnn : ¬ ((n : Int) < 0) := by omega
  unfold roundToDouble
  simp only [hne, hnn, if_false, Int.natAbs_ofNat, one_mul]
  set k : Int := 52 - binaryExponent n den with hk
  set A : Nat := 2 ^ k.toNat with hA
  set B : Nat := 2 ^ (-k).toNat with hB
  set m : Nat := roundNearestEven (n * A) (den * B) with hm
  have hA0 : 0 < A := by positivity
  have hB0 : 0 < B := by positivity
  have hAq : (0 : ℚ) < A := by exact_mod_cast hA0
  have hBq : (0 : ℚ) < B := by exact_mod_cast hB0
  have hAB : (A : ℚ) / B = (2 : ℚ) ^ k := by
    rw [hA, hB]; push_cast; exact two_zpow_split k
  have hlow : (2 : ℚ) ^ (52 : Nat) * (den * B) ≤ n * A := by
    have h1 := binaryExponent_le n den hn hden
    have h2 : (2 : ℚ) ^ k = 2 ^ (52 : Nat) / 2 ^ binaryExponent n den := by
      rw [hk, zpow_sub₀ (by norm_num)]; norm_cast
    have h3 : (0 : ℚ) < 2 ^ binaryExponent n den := by positivity
    have h4 : (A : ℚ) = 2 ^ k * B := by rw [← hAB]; field_simp
    rw [h4, h2]
    rw [div_mul_eq_mul_div, mul_div_assoc', le_div_iff₀ h3]
    have : (2 : ℚ) ^ binaryExponent n den * den ≤ n := by
      rwa [le_div_iff₀ hdq] at h1
    nlinarith [pow_pos (by norm_num : (0 : ℚ) < 2) 52]
  have hnear := roundNearestEven_near (n * A) (den * B) (by positivity)
  rw [← hm] at hnear
  push_cast at hnear
  set g := Nat.gcd (m * B) A with hg
  have hg0 : 0 < g := Nat.gcd_pos_of_pos_right _ hA0
  have hgq : (g : ℚ) ≠ 0 := by exact_mod_cast hg0.ne'
  have hval : (JsNumber.mk ((m * B / g : Nat) : Int) (A / g)).toRat = (m : ℚ) * B / A := by
    unfold JsNumber.toRat
    simp only [Int.cast_natCast]
    rw [Nat.cast_div (Nat.gcd_dvd_left _ _) hgq, Nat.cast_div (Nat.gcd_dvd_right _ _) hgq]
    push_cast
    field_simp
  have herr : |(m : ℚ) * B / A - (n : ℚ) / den| ≤ ((n : ℚ) / den) / 2 ^ 53 := by
    have e1 : (m : ℚ) * B / A - (n : ℚ) / den = ((m : ℚ) * (den * B) - n * A) / (A * den) := by
      field_simp
      ring
    rw [e1, abs_div, abs_of_pos (by positivity : (0 : ℚ) < A * den),
      div_le_iff₀ (by positivity)]
    calc |(m : ℚ) * (den * B) - n * A| ≤ (den * B : ℚ) / 2 := hnear
      _ ≤ (n : ℚ) / den / 2 ^ 53 * (A * den) := by
        have : (n : ℚ) / den / 2 ^ 53 * (A * den) = n * A / 2 ^ 53 := by
          field_simp
          ring
        rw [this, div_le_div_iff₀ (by norm_num) (by positivity)]
        nlinarith
  refine ⟨⟨?_, ?_⟩, ?_⟩
  · simp only
    have hpos : (0 : ℚ) < (m : ℚ) * B / A := by
      have h1 := (abs_le.mp herr).1
      have h2 : (n : ℚ) / den / 2 ^ 53 < (n : ℚ) / den := by
        apply div_lt_self (by positivity)
        norm_num
      linarith
    have hmB : 0 < m * B := by
      by_contra hc
      have : m * B = 0 := by omega
      have : ((m * B : Nat) : ℚ) = 0 := by exact_mod_cast this
      push_cast at this
      rw [this] at hpos
      simp at hpos
    have : 0 < m * B / g := Nat.div_pos (Nat.le_of_dvd hmB (Nat.gcd_dvd_left _ _)) hg0
    exact_mod_cast this
  · simp only
    exact Nat.div_pos (Nat.le_of_dvd hA0 (Nat.gcd_dvd_right _ _)) hg0
  · rw [hval]
    simpa only [Int.cast_natCast] using herr

theorem toRat_pos (a : JsNumber) (ha : a.Pos) : 0 < a.toRat := by
  have h1 : (0 : ℚ) < a.num := by exact_mod_cast ha.1
  have h2 : (0 : ℚ) < a.den := by exact_mod_cast ha.2
  exact div_pos h1 h2

theorem ofNat_pos (n : Nat) (hn : 0 < n) : (JsNumber.ofNat n).Pos :=
  ⟨by simpa [JsNumber.ofNat] using hn, Nat.one_pos⟩

theorem toRat_ofNat (n : Nat) : (JsNumber.ofNat n).toRat = n := by
  simp [JsNumber.toRat, JsNumber.ofNat]

/-- The product of two positive numbers, up to one rounding. -/
theorem jsMul_near (a b : JsNumber) (ha : a.Pos) (hb : b.Pos) :
    (jsMul a b).Pos ∧
    |(jsMul a b).toRat - a.toRat * b.toRat| ≤ a.toRat * b.toRat / 2 ^ 53 := by
  have h := roundToDouble_near (a.num * b.num) (a.den * b.den) (mul_pos ha.1 hb.1)
    (Nat.mul_pos ha.2 hb.2)
  have e : (((a.num * b.num : Int) : ℚ)) / ((a.den * b.den : Nat) : ℚ) =
      a.toRat * b.toRat := by
    unfold JsNumber.toRat
    push_cast
    rw [div_mul_div_comm]
  rw [e] at h
  exact h

/-- The quotient of two positive numbers, up to one rounding. -/
theorem jsDiv_near (a b : JsNumber) (ha : a.Pos) (hb : b.Pos) :
    (jsDiv a b).Pos ∧
    |(jsDiv a b).toRat - a.toRat / b.toRat| ≤ a.toRat / b.toRat / 2 ^ 53 := by
  have hsign : b.num.sign = 1 := Int.sign_eq_one_of_pos hb.1
  have habs : 0 < b.num.natAbs := Int.natAbs_pos.mpr hb.1.ne'
  have h := roundToDouble_near (a.num * b.den * b.num.sign) (a.den * b.num.natAbs)
    (by rw [hsign, mul_one]; exact mul_pos ha.1 (by exact_mod_cast hb.2))
    (Nat.mul_pos ha.2 habs)
  have hb1 : (0 : ℚ) < b.num := by exact_mod_cast hb.1
  have hb2 : (0 : ℚ) < b.den := by exact_mod_cast hb.2
  have ha2 : (0 : ℚ) < a.den := by exact_mod_cast ha.2
  have hcast : ((b.num.natAbs : Nat) : ℚ) = (b.num : ℚ) := by
    rw [Nat.cast_natAbs, abs_of_pos hb.1]
  have e : (((a.num * b.den * b.num.sign : Int) : ℚ)) / ((a.den * b.num.natAbs : Nat) : ℚ) =
      a.toRat / b.toRat := by
    unfold JsNumber.toRat
    rw [hsign]
    push_cast
    rw [hcast]
    field_simp
  rw [e] at h
  exact h

/-- The positive difference of two positive numbers, up to one rounding. -/
theorem jsSub_near (a b : JsNumber) (ha : a.Pos) (hb : b.Pos) (hlt : b.toRat < a.toRat) :
    (jsSub a b).Pos ∧
    |(jsSub a b).toRat - (a.toRat - b.toRat)| ≤ (a.toRat - b.toRat) / 2 ^ 53 := by
  have hb2 : (0 : ℚ) < b.den := by exact_mod_cast hb.2
  have ha2 : (0 : ℚ) < a.den := by exact_mod_cast ha.2
  have hnum : 0 < a.num * b.den - b.num * a.den := by
    unfold JsNumber.toRat at hlt
    rw [div_lt_div_iff₀ hb2 ha2] at hlt
    have : b.num * (a.den : Int) < a.num * (b.den : Int) := by exact_mod_cast hlt
    linarith
  have h := roundToDouble_near (a.num * b.den - b.num * a.den) (a.den * b.den) hnum
    (Nat.mul_pos ha.2 hb.2)
  have e : (((a.num * b.den - b.num * a.den : Int) : ℚ)) / ((a.den * b.den : Nat) : ℚ) =
      a.toRat - b.toRat := by
    unfold JsNumber.toRat
    push_cast
    field_simp
    ring
  rw [e] at h
  exact h

/-- `Math.min` returns one of its arguments, the one whose value is not above the
other. -/
theorem mathMin_cases (a b : JsNumber) (ha : a.Pos) (hb : b.Pos) :
    (mathMin a b = a ∧ a.toRat ≤ b.toRat) ∨ (mathMin a b = b ∧ b.toRat ≤ a.toRat) := by
  have hb2 : (0 : ℚ) < b.den := by exact_mod_cast hb.2
  have ha2 : (0 : ℚ) < a.den := by exact_mod_cast ha.2
  unfold mathMin JsNumber.lt
  by_cases h : b.num * a.den < a.num * b.den
  · right
    refine ⟨by simp [h], ?_⟩
    unfold JsNumber.toRat
    rw [div_le_div_iff₀ hb2 ha2]
    have : ((b.num * a.den : Int) : ℚ) < ((a.num * b.den : Int) : ℚ) := by exact_mod_cast h
    push_cast at this
    linarith
  · left
    refine ⟨by simp [h], ?_⟩
    unfold JsNumber.toRat
    rw [div_le_div_iff₀ ha2 hb2]
    have : ((a.num * b.den : Int) : ℚ) ≤ ((b.num * a.den : Int) : ℚ) := by
      exact_mod_cast not_lt.mp h
    push_cast at this
    linarith

/-- Centring of a side `f` shorter than the page side `page`: the offset computed by
`(page - f) / 2` is within `page * (3 / 2) / 2 ^ 53` of the exact one. -/
theorem centre_near (page : Nat) (f : JsNumber) (hf : f.Pos) (hlt : f.toRat < page) :
    |(jsDiv (jsSub (.ofNat page) f) 2).toRat - ((page : ℚ) - f.toRat) / 2| ≤
      (page : ℚ) * (3 / 2) / 2 ^ 53 := by
  have hpage : 0 < page := by
    have := toRat_pos f hf
    have h : (0 : ℚ) < page := by linarith
    exact_mod_cast h
  have hp := ofNat_pos page hpage
  obtain ⟨hd1, he1⟩ := jsSub_near (.ofNat page) f hp hf (by rw [toRat_ofNat]; exact hlt)
  obtain ⟨-, he2⟩ := jsDiv_near (jsSub (.ofNat page) f) 2 hd1 (ofNat_pos 2 (by norm_num))
  have h2 : (2 : JsNumber).toRat = 2 := toRat_ofNat 2
  rw [toRat_ofNat] at he1
  rw [h2] at he2
  have hf0 := toRat_pos f hf
  have hd0 := toRat_pos _ hd1
  set d := (jsSub (.ofNat page) f).toRat
  set x := (jsDiv (jsSub (.ofNat page) f) 2).toRat
  set t := f.toRat
  have hu : (0 : ℚ) < 1 / 2 ^ 53 := by positivity
  have hu1 : (1 : ℚ) / 2 ^ 53 ≤ 1 := by
    rw [div_le_one (by positivity)]
    norm_num
  set u : ℚ := 1 / 2 ^ 53 with hudef
  have e1 : ((page : ℚ) - t) / 2 ^ 53 = ((page : ℚ) - t) * u := by rw [hudef]; ring
  have e2 : d / 2 / 2 ^ 53 = d / 2 * u := by rw [hudef]; ring
  have e3 : (page : ℚ) * (3 / 2) / 2 ^ 53 = (page : ℚ) * (3 / 2) * u := by rw [hudef]; ring
  rw [e1] at he1
  rw [e2] at he2
  rw [e3]
  rw [abs_le] at he1 he2 ⊢
  obtain ⟨a1, a2⟩ := he1
  obtain ⟨b1, b2⟩ := he2
  have hpt : 0 < (page : ℚ) - t := by linarith
  have hdu : d * u ≤ ((page : ℚ) - t) * u + ((page : ℚ) - t) * u * u := by
    nlinarith [mul_le_mul_of_nonneg_right a2 hu.le]
  have huu : ((page : ℚ) - t) * u * u ≤ ((page : ℚ) - t) * u := by
    nlinarith [mul_nonneg (mul_pos hpt hu).le (sub_nonneg.mpr hu1)]
  have htu : 0 < t * u := mul_pos hf0 hu
  have hdu0 : 0 < d * u := mul_pos hd0 hu
  clear_value u d x t
  constructor <;> linarith

/-- A side `a` scaled by the ratio `limit / a` comes back to `limit` up to two roundings. -/
theorem scaled_near (a : JsNumber) (limit : Nat) (ha : a.Pos) (hl : 0 < limit) :
    (jsDiv (.ofNat limit) a).Pos ∧
    |(jsMul a (jsDiv (.ofNat limit) a)).toRat - limit| ≤ 3 * (limit : ℚ) / 2 ^ 53 ∧
    a.toRat * (jsDiv (.ofNat limit) a).toRat ≤ limit + (limit : ℚ) / 2 ^ 53 := by
  obtain ⟨hs, he1⟩ := jsDiv_near (.ofNat limit) a (ofNat_pos limit hl) ha
  obtain ⟨-, he2⟩ := jsMul_near a (jsDiv (.ofNat limit) a) ha hs
  rw [toRat_ofNat] at he1
  have ha0 := toRat_pos a ha
  have hs0 := toRat_pos _ hs
  have hl0 : (0 : ℚ) < limit := by exact_mod_cast hl
  set t := a.toRat
  set r := (jsDiv (.ofNat limit) a).toRat
  set f := (jsMul a (jsDiv (.ofNat limit) a)).toRat
  have hu : (0 : ℚ) < 1 / 2 ^ 53 := by positivity
  have hu1 : (1 : ℚ) / 2 ^ 53 ≤ 1 := by
    rw [div_le_one (by positivity)]
    norm_num
  set u : ℚ := 1 / 2 ^ 53 with hudef
  have e1 : (limit : ℚ) / t / 2 ^ 53 = (limit : ℚ) / t * u := by rw [hudef]; ring
  have e2 : t * r / 2 ^ 53 = t * r * u := by rw [hudef]; ring
  have e3 : 3 * (limit : ℚ) / 2 ^ 53 = 3 * limit * u := by rw [hudef]; ring
  have e4 : (limit : ℚ) / 2 ^ 53 = limit * u := by rw [hudef]; ring
  rw [e1] at he1
  rw [e2] at he2
  rw [e3, e4]
  rw [abs_le] at he1 he2 ⊢
  obtain ⟨a1, a2⟩ := he1
  obtain ⟨b1, b2⟩ := he2
  have hq : t * ((limit : ℚ) / t) = limit := by field_simp
  have c1 : (limit : ℚ) - limit * u ≤ t * r := by
    have := mul_le_mul_of_nonneg_left a1 ha0.le
    have e : t * (r - (limit : ℚ) / t) = t * r - limit := by rw [mul_sub, hq]
    have e' : t * -((limit : ℚ) / t * u) = -(limit * u) := by
      rw [mul_neg, ← mul_assoc, hq]
    rw [e, e'] at this
    linarith
  have c2 : t * r ≤ (limit : ℚ) + limit * u := by
    have := mul_le_mul_of_nonneg_left a2 ha0.le
    have e : t * (r - (limit : ℚ) / t) = t * r - limit := by rw [mul_sub, hq]
    have e' : t * ((limit : ℚ) / t * u) = limit * u := by
      rw [← mul_assoc, hq]
    rw [e, e'] at this
    linarith
  have c3 : t * r * u ≤ (limit : ℚ) * u + limit * u * u := by
    nlinarith [mul_le_mul_of_nonneg_right c2 hu.le]
  have c4 : (limit : ℚ) * u * u ≤ limit * u := by
    nlinarith [mul_nonneg (mul_pos hl0 hu).le (sub_nonneg.mpr hu1)]
  have c5 : 0 < t * r * u := mul_pos (mul_pos ha0 hs0) hu
  have c6 : 0 < (limit : ℚ) * u := mul_pos hl0 hu
  clear_value u t r f
  exact ⟨hs, ⟨by linarith, by linarith⟩, c2⟩

/-- A side `a` scaled by a ratio not above `limit / a` stays below `limit` up to two
roundings. -/
theorem scaled_le (a s : JsNumber) (limit : Nat) (ha : a.Pos) (hs : s.Pos) (hl : 0 < limit)
    (hle : s.toRat ≤ (jsDiv (.ofNat limit) a).toRat) :
    (jsMul a s).Pos ∧ (jsMul a s).toRat ≤ limit + 3 * (limit : ℚ) / 2 ^ 53 := by
  obtain ⟨-, -, c2⟩ := scaled_near a limit ha hl
  obtain ⟨hp, he⟩ := jsMul_near a s ha hs
  have ha0 := toRat_pos a ha
  have hs0 := toRat_pos s hs
  have hl0 : (0 : ℚ) < limit := by exact_mod_cast hl
  set t := a.toRat
  set r := (jsDiv (.ofNat limit) a).toRat
  set v := s.toRat
  set f := (jsMul a s).toRat
  have hu : (0 : ℚ) < 1 / 2 ^ 53 := by positivity
  have hu1 : (1 : ℚ) / 2 ^ 53 ≤ 1 := by
    rw [div_le_one (by positivity)]
    norm_num
  set u : ℚ := 1 / 2 ^ 53 with hudef
  have e2 : t * v / 2 ^ 53 = t * v * u := by rw [hudef]; ring
  have e3 : 3 * (limit : ℚ) / 2 ^ 53 = 3 * limit * u := by rw [hudef]; ring
  have e4 : (limit : ℚ) / 2 ^ 53 = limit * u := by rw [hudef]; ring
  rw [e2] at he
  rw [e4] at c2
  rw [e3]
  obtain ⟨-, b2⟩ := abs_le.mp he
  have c1 : t * v ≤ t * r := mul_le_mul_of_nonneg_left hle ha0.le
  have c3 : t * v * u ≤ (limit : ℚ) * u + limit * u * u := by
    nlinarith [mul_le_mul_of_nonneg_right (le_trans c1 c2) hu.le]
  have c4 : (limit : ℚ) * u * u ≤ limit * u := by
    nlinarith [mul_nonneg (mul_pos hl0 hu).le (sub_nonneg.mpr hu1)]
  clear_value u t r f v
  exact ⟨hp, by linarith⟩

theorem lt_ofNat (a b : Nat) : JsNumber.lt (.ofNat a) (.ofNat b) = true ↔ a < b := by
  simp [JsNumber.lt, JsNumber.ofNat]

/-- The layout of a bitmap that exceeds the box. -/
theorem imageLayout_scaled (w h : Nat) (hc : 555 < w ∨ 802 < h) :
    imageLayout w h =
      { x := jsDiv (jsSub 595 (jsMul (.ofNat w)
          (mathMin (jsDiv 555 (.ofNat w)) (jsDiv 802 (.ofNat h))))) 2,
        y := jsDiv (jsSub 842 (jsMul (.ofNat h)
          (mathMin (jsDiv 555 (.ofNat w)) (jsDiv 802 (.ofNat h))))) 2,
        width := jsMul (.ofNat w) (mathMin (jsDiv 555 (.ofNat w)) (jsDiv 802 (.ofNat h))),
        height := jsMul (.ofNat h) (mathMin (jsDiv 555 (.ofNat w)) (jsDiv 802 (.ofNat h))) } := by
  have hc' : JsNumber.lt 555 (.ofNat w) = true ∨ JsNumber.lt 802 (.ofNat h) = true :=
    hc.imp (lt_ofNat 555 w).mpr (lt_ofNat 802 h).mpr
  unfold imageLayout
  simp only [if_pos hc']

/-- The layout of a bitmap that fits in the box. -/
theorem imageLayout_unscaled (w h : Nat) (hc : ¬ (555 < w ∨ 802 < h)) :
    imageLayout w h =
      { x := jsDiv (jsSub 595 (.ofNat w)) 2, y := jsDiv (jsSub 842 (.ofNat h)) 2,
        width := .ofNat w, height := .ofNat h } := by
  have hc' : ¬ (JsNumber.lt 555 (.ofNat w) = true ∨ JsNumber.lt 802 (.ofNat h) = true) :=
    fun h' => hc (h'.imp (lt_ofNat 555 w).mp (lt_ofNat 802 h).mp)
  unfold imageLayout
  simp only [if_neg hc']

/-- What sides within the limits, up to rounding, give for the drawn rectangle. -/
theorem placement_bounds (fw fh : JsNumber) (hw : fw.Pos) (hh : fh.Pos)
    (h1 : fw.toRat ≤ 555 + 3 * 555 / 2 ^ 53) (h2 : fh.toRat ≤ 802 + 3 * 802 / 2 ^ 53) :
    fw.toRat ≤ 555 + 1 / 10 ^ 12 ∧ fh.toRat ≤ 802 + 1 / 10 ^ 12 ∧
    20 - 1 / 10 ^ 12 ≤ (jsDiv (jsSub 595 fw) 2).toRat ∧
    20 - 1 / 10 ^ 12 ≤ (jsDiv (jsSub 842 fh) 2).toRat ∧
    (jsDiv (jsSub 595 fw) 2).toRat + fw.toRat ≤ 575 + 1 / 10 ^ 12 ∧
    (jsDiv (jsSub 842 fh) 2).toRat + fh.toRat ≤ 822 + 1 / 10 ^ 12 ∧
    |(jsDiv (jsSub 595 fw) 2).toRat + fw.toRat / 2 - 595 / 2| ≤ 1 / 10 ^ 12 ∧
    |(jsDiv (jsSub 842 fh) 2).toRat + fh.toRat / 2 - 421| ≤ 1 / 10 ^ 12 := by
  have hx := centre_near 595 fw hw (lt_of_le_of_lt h1 (by norm_num))
  have hy := centre_near 842 fh hh (lt_of_le_of_lt h2 (by norm_num))
  have hw0 := toRat_pos fw hw
  have hh0 := toRat_pos fh hh
  have k1 : (3 : ℚ) * 555 / 2 ^ 53 ≤ 1 / 10 ^ 12 / 4 := by norm_num
  have k2 : (3 : ℚ) * 802 / 2 ^ 53 ≤ 1 / 10 ^ 12 / 2 := by norm_num
  have k3 : ((595 : Nat) : ℚ) * (3 / 2) / 2 ^ 53 ≤ 1 / 10 ^ 12 / 4 := by norm_num
  have k4 : ((842 : Nat) : ℚ) * (3 / 2) / 2 ^ 53 ≤ 1 / 10 ^ 12 / 4 := by norm_num
  have c1 : ((595 : Nat) : ℚ) = 595 := by norm_num
  have c2 : ((842 : Nat) : ℚ) = 842 := by norm_num
  have hx' := le_trans hx k3
  have hy' := le_trans hy k4
  rw [c1] at hx'
  rw [c2] at hy'
  change |(jsDiv (jsSub 595 fw) 2).toRat - (595 - fw.toRat) / 2| ≤ _ at hx'
  change |(jsDiv (jsSub 842 fh) 2).toRat - (842 - fh.toRat) / 2| ≤ _ at hy'
  rw [abs_le] at hx' hy'
  obtain ⟨x1, x2⟩ := hx'
  obtain ⟨y1, y2⟩ := hy'
  set x := (jsDiv (jsSub 595 fw) 2).toRat
  set y := (jsDiv (jsSub 842 fh) 2).toRat
  set a := fw.toRat
  set b := fh.toRat
  set tol : ℚ := 1 / 10 ^ 12
  clear_value x y a b tol
  refine ⟨by linarith, by linarith, by linarith, by linarith, by linarith, by linarith,
    ?_, ?_⟩
  · rw [abs_le]; constructor <;> linarith
  · rw [abs_le]; constructor <;> linarith

set_option maxRecDepth 100000 in
/-- C12 as stated fails in the arithmetic of the code: for a bitmap of 1082 by 1 pixels
the drawn width is `555 + 2 ^ (-43)`, above 555, and `x` is below 20; for a bitmap of 364
by 1092 pixels, which exceeds the box, neither the drawn width is 555 nor the drawn height
802. -/
theorem imageLayout_rounding_overshoot :
    (imageLayout 1082 1).width = ⟨4881831627325441, 8796093022208⟩ ∧
    (555 : JsNumber).lt (imageLayout 1082 1).width = true ∧
    (imageLayout 1082 1).x = ⟨351843720888319, 17592186044416⟩ ∧
    (imageLayout 1082 1).x.lt 20 = true ∧
    (imageLayout 364 1092).width = ⟨2351488867936939, 8796093022208⟩ ∧
    (imageLayout 364 1092).width ≠ 555 ∧
    (imageLayout 364 1092).height = ⟨7054466603810817, 8796093022208⟩ ∧
    (imageLayout 364 1092).height ≠ 802 ∧
    ¬ ((imageLayout 1082 1).width.toRat ≤ 555) ∧
    ¬ (20 ≤ (imageLayout 1082 1).x.toRat) := by
  have h1 : (imageLayout 1082 1).width = ⟨4881831627325441, 8796093022208⟩ := by decide
  have h2 : (imageLayout 1082 1).x = ⟨351843720888319, 17592186044416⟩ := by decide
  refine ⟨h1, by decide, h2, by decide, by decide, by decide, by decide, by decide, ?_, ?_⟩
  · rw [h1]
    norm_num [JsNumber.toRat]
  · rw [h2]
    norm_num [JsNumber.toRat]

/-- C12, amended: for every bitmap of `w` by `h` pixels, `w, h > 0`, the drawn rectangle
lies in the content box and is centred on the page up to `10 ^ (-12)` points: the bounds
on the drawn width and height, on `x` and `y`, on `x + width` and `y + height`, and the
two centring equalities each hold within that tolerance; when the bitmap exceeds the box,
the drawn width is within the tolerance of 555 or the drawn height within the tolerance of
802; when it fits, the drawn sides are exactly `w` and `h`. -/
theorem imageLayout_within_tolerance (w h : Nat) (hw : 0 < w) (hh : 0 < h) :
    (imageLayout w h).width.toRat ≤ 555 + 1 / 10 ^ 12 ∧
    (imageLayout w h).height.toRat ≤ 802 + 1 / 10 ^ 12 ∧
    20 - 1 / 10 ^ 12 ≤ (imageLayout w h).x.toRat ∧
    20 - 1 / 10 ^ 12 ≤ (imageLayout w h).y.toRat ∧
    (imageLayout w h).x.toRat + (imageLayout w h).width.toRat ≤ 575 + 1 / 10 ^ 12 ∧
    (imageLayout w h).y.toRat + (imageLayout w h).height.toRat ≤ 822 + 1 / 10 ^ 12 ∧
    |(imageLayout w h).x.toRat + (imageLayout w h).width.toRat / 2 - 595 / 2| ≤ 1 / 10 ^ 12 ∧
    |(imageLayout w h).y.toRat + (imageLayout w h).height.toRat / 2 - 421| ≤ 1 / 10 ^ 12 ∧
    ((555 < w ∨ 802 < h) →
      |(imageLayout w h).width.toRat - 555| ≤ 1 / 10 ^ 12 ∨
      |(imageLayout w h).height.toRat - 802| ≤ 1 / 10 ^ 12) ∧
    (w ≤ 555 → h ≤ 802 →
      (imageLayout w h).width = .ofNat w ∧ (imageLayout w h).height = .ofNat h) := by
  have hW := ofNat_pos w hw
  have hH := ofNat_pos h hh
  have k1 : (3 : ℚ) * 555 / 2 ^ 53 ≤ 1 / 10 ^ 12 := by norm_num
  have k2 : (3 : ℚ) * 802 / 2 ^ 53 ≤ 1 / 10 ^ 12 := by norm_num
  by_cases hc : 555 < w ∨ 802 < h
  · obtain ⟨hsx, hex, -⟩ := scaled_near (.ofNat w) 555 hW (by norm_num)
    obtain ⟨hsy, hey, -⟩ := scaled_near (.ofNat h) 802 hH (by norm_num)
    simp only [Nat.cast_ofNat] at hex hey
    have key : (jsMul (.ofNat w) (mathMin (jsDiv 555 (.ofNat w)) (jsDiv 802 (.ofNat h)))).Pos ∧
        (jsMul (.ofNat w) (mathMin (jsDiv 555 (.ofNat w)) (jsDiv 802 (.ofNat h)))).toRat ≤
          555 + 3 * 555 / 2 ^ 53 ∧
        (jsMul (.ofNat h) (mathMin (jsDiv 555 (.ofNat w)) (jsDiv 802 (.ofNat h)))).Pos ∧
        (jsMul (.ofNat h) (mathMin (jsDiv 555 (.ofNat w)) (jsDiv 802 (.ofNat h)))).toRat ≤
          802 + 3 * 802 / 2 ^ 53 ∧
        (|(jsMul (.ofNat w)
            (mathMin (jsDiv 555 (.ofNat w)) (jsDiv 802 (.ofNat h)))).toRat - 555| ≤
              3 * 555 / 2 ^ 53 ∨
          |(jsMul (.ofNat h)
            (mathMin (jsDiv 555 (.ofNat w)) (jsDiv 802 (.ofNat h)))).toRat - 802| ≤
              3 * 802 / 2 ^ 53) := by
      rcases mathMin_cases (jsDiv 555 (.ofNat w)) (jsDiv 802 (.ofNat h)) hsx hsy with
        ⟨hm, hle⟩ | ⟨hm, hle⟩
      · rw [hm]
        have a1 := scaled_le (.ofNat w) (jsDiv 555 (.ofNat w)) 555 hW hsx (by norm_num) le_rfl
        have a2 := scaled_le (.ofNat h) (jsDiv 555 (.ofNat w)) 802 hH hsx (by norm_num) hle
        simp only [Nat.cast_ofNat] at a1 a2
        exact ⟨a1.1, a1.2, a2.1, a2.2, Or.inl hex⟩
      · rw [hm]
        have a1 := scaled_le (.ofNat w) (jsDiv 802 (.ofNat h)) 555 hW hsy (by norm_num) hle
        have a2 := scaled_le (.ofNat h) (jsDiv 802 (.ofNat h)) 802 hH hsy (by norm_num) le_rfl
        simp only [Nat.cast_ofNat] at a1 a2
        exact ⟨a1.1, a1.2, a2.1, a2.2, Or.inr hey⟩
    obtain ⟨p1, b1, p2, b2, hnear⟩ := key
    obtain ⟨c1, c2, c3, c4, c5, c6, c7, c8⟩ := placement_bounds _ _ p1 p2 b1 b2
    rw [imageLayout_scaled w h hc]
    refine ⟨c1, c2, c3, c4, c5, c6, c7, c8, fun _ => ?_, fun h1 h2 => ?_⟩
    · exact hnear.imp (fun e => le_trans e k1) (fun e => le_trans e k2)
    · omega
  · have hw' : w ≤ 555 := by omega
    have hh' : h ≤ 802 := by omega
    have b1 : (JsNumber.ofNat w).toRat ≤ 555 + 3 * 555 / 2 ^ 53 := by
      rw [toRat_ofNat]
      have : (w : ℚ) ≤ 555 := by exact_mod_cast hw'
      have : (0 : ℚ) ≤ 3 * 555 / 2 ^ 53 := by positivity
      linarith
    have b2 : (JsNumber.ofNat h).toRat ≤ 802 + 3 * 802 / 2 ^ 53 := by
      rw [toRat_ofNat]
      have : (h : ℚ) ≤ 802 := by exact_mod_cast hh'
      have : (0 : ℚ) ≤ 3 * 802 / 2 ^ 53 := by positivity
      linarith
    obtain ⟨c1, c2, c3, c4, c5, c6, c7, c8⟩ := placement_bounds _ _ hW hH b1 b2
    rw [imageLayout_unscaled w h hc]
    exact ⟨c1, c2, c3, c4, c5, c6, c7, c8, fun h' => absurd h' hc, fun _ _ => ⟨rfl, rfl⟩⟩

theorem imageLayout_within_tolerance_witness :
    0 < 1082 ∧ 0 < 1 ∧
    (imageLayout 1082 1).width.toRat ≤ 555 + 1 / 10 ^ 12 ∧
    20 - 1 / 10 ^ 12 ≤ (imageLayout 1082 1).x.toRat ∧
    ((555 < 1082 ∨ 802 < 1) →
      |(imageLayout 1082 1).width.toRat - 555| ≤ 1 / 10 ^ 12 ∨
      |(imageLayout 1082 1).height.toRat - 802| ≤ 1 / 10 ^ 12) :=
  ⟨by decide, by decide,
   (imageLayout_within_tolerance 1082 1 (by decide) (by decide)).1,
   (imageLayout_within_tolerance 1082 1 (by decide) (by decide)).2.2.1,
   (imageLayout_within_tolerance 1082 1 (by decide) (by decide)).2.2.2.2.2.2.2.2.1⟩

set_option maxRecDepth 100000 in
/-- Multiplying a side that fits in the box by the scale `1` leaves it unchanged. -/
theorem jsMul_one_of_fits : ∀ n, n < 803 → jsMul (.ofNat n) 1 = .ofNat n := by decide

/-- What the `try` block of the image pipeline appends: a document is serialised only
after its bitmap was embedded, and it is the one-page document of that bitmap. -/
theorem imageTry_log (P : NodeLib) (E : Env) (inputPath outputPath png : String)
    (log1 : List Event) :
    ∃ d, (imageTry P E inputPath outputPath png log1).2 = log1 ++ d ∧
      ∀ doc r, Event.savePdf doc r ∈ d →
        ∃ buffer size, Event.embedPng buffer (.ok size) ∈ d ∧
          doc = imageDocument P inputPath buffer size := by
  unfold imageTry
  simp only [List.append_assoc]
  generalize E.exec _ _ = r1
  rcases r1 with v1 | m1
  swap
  · exact ⟨_, rfl, by simp⟩
  simp only []
  generalize E.access _ _ = r2
  rcases r2 with v2 | m2
  swap
  · exact ⟨_, rfl, by simp⟩
  simp only []
  generalize E.readFile _ _ = r3
  rcases r3 with v3 | m3
  swap
  · exact ⟨_, rfl, by simp⟩
  simp only []
  generalize h4 : E.embedPng _ = r4
  rcases r4 with v4 | m4
  swap
  · exact ⟨_, rfl, by simp⟩
  simp only []
  generalize E.savePdf _ = r5
  rcases r5 with v5 | m5
  swap
  · refine ⟨_, rfl, ?_⟩
    intro doc r hmem
    simp at hmem
    exact ⟨v3, v4, by simp, hmem.1⟩
  simp only []
  generalize E.writeFile _ _ _ = r6
  rcases r6 with v6 | m6
  all_goals
    refine ⟨_, rfl, ?_⟩
    intro doc r hmem
    simp at hmem
    exact ⟨v3, v4, by simp, hmem.1⟩

/-- C11: a bitmap of `w` by `h` pixels (`w, h > 0`) is laid out with the scale
`Math.min(555 / w, 802 / h)` when `w > 555` or `h > 802` and the scale `1` otherwise, at
the size `(w * scale, h * scale)` and the position `x = (595 - w * scale) / 2`,
`y = (842 - h * scale) / 2`, each operation being the one of JavaScript numbers.  A bitmap
of 1000 by 2000 is drawn at 401 by 802 with `x = 97`, `y = 20`, and one of 100 by 100 at
100 by 100 with `x = 247.5`, `y = 371`.  Every document that the image pipeline
serialises has one page of 595 by 842 and draws the embedded bitmap with the layout of its
pixel size.  And the pipeline does serialise it: when the raster engine ends without
error, the intermediate bitmap is there and is read, and pdf-lib embeds it with the pixel
size `(w, h)`, the run hands to `pdfDoc.save` the document with one page of 595 by 842 on
which that bitmap is drawn with this layout; the bytes that `save` returns are given to
`fs.writeFile(outputPath, ..)`, and when that write succeeds the run returns
`outputPath`. -/
theorem imageLayout_scale_and_centre (P : NodeLib) (E : Env) (inputPath outputPath : String)
    (s : State) (w h : Nat) (hw : 0 < w) (hh : 0 < h) :
    (let scale : JsNumber :=
        if 555 < w ∨ 802 < h then mathMin (jsDiv 555 (.ofNat w)) (jsDiv 802 (.ofNat h))
        else 1
     imageLayout w h =
      { x := jsDiv (jsSub 595 (jsMul (.ofNat w) scale)) 2,
        y := jsDiv (jsSub 842 (jsMul (.ofNat h) scale)) 2,
        width := jsMul (.ofNat w) scale,
        height := jsMul (.ofNat h) scale }) ∧
    imageLayout 1000 2000 = { x := 97, y := 20, width := 401, height := 802 } ∧
    imageLayout 100 100 = { x := ⟨495, 2⟩, y := 371, width := 100, height := 100 } ∧
    (JsNumber.mk 495 2).toRat = 247.5 ∧
    (∀ doc r,
      Event.savePdf doc r ∈
        newEvents (convertImageViaImageMagick P E inputPath outputPath) s →
      doc.pageSize = (595, 842) ∧
      ∃ buffer size,
        Event.embedPng buffer (.ok size) ∈
          newEvents (convertImageViaImageMagick P E inputPath outputPath) s ∧
        doc.png = buffer ∧ doc.draw = imageLayout size.1 size.2) ∧
    (let log0 := s.log ++ [.call .convertImageViaImageMagick [inputPath, outputPath]]
     let png := tempPngPath P E log0
     let log1 := log0 ++ [.now (E.now log0)]
     let command := magickCommand P E inputPath png
     let scale : JsNumber :=
        if 555 < w ∨ 802 < h then mathMin (jsDiv 555 (.ofNat w)) (jsDiv 802 (.ofNat h))
        else 1
     ∀ stdout pngBuffer,
      E.exec log1 command = .ok stdout →
      E.access (log1 ++ [.exec command (.ok stdout)]) png = .ok () →
      E.readFile (log1 ++ [.exec command (.ok stdout)] ++ [.access png (.ok ())]) png =
        .ok pngBuffer →
      E.embedPng pngBuffer = .ok (w, h) →
      ∃ doc : ImagePdf,
        doc.pageSize = (595, 842) ∧ doc.png = pngBuffer ∧
        doc.title = P.basename inputPath (some (P.extname inputPath)) ∧
        doc.draw =
          { x := jsDiv (jsSub 595 (jsMul (.ofNat w) scale)) 2,
            y := jsDiv (jsSub 842 (jsMul (.ofNat h) scale)) 2,
            width := jsMul (.ofNat w) scale,
            height := jsMul (.ofNat h) scale } ∧
        (newEvents (convertImageViaImageMagick P E inputPath outputPath) s).filter
            isPdfStep =
          [.embedPng pngBuffer (.ok (w, h)), .savePdf doc (E.savePdf doc)] ∧
        (∀ m, E.savePdf doc = .error m →
          (convertImageViaImageMagick P E inputPath outputPath s).1 = .error m ∧
          (newEvents (convertImageViaImageMagick P E inputPath outputPath) s).filter
            isWriteFile = []) ∧
        (∀ pdfBytes, E.savePdf doc = .ok pdfBytes →
          ∃ log6,
            (newEvents (convertImageViaImageMagick P E inputPath outputPath) s).filter
              isWriteFile =
                [.writeFile outputPath pdfBytes (E.writeFile log6 outputPath pdfBytes)] ∧
            (E.writeFile log6 outputPath pdfBytes = .ok () →
              (convertImageViaImageMagick P E inputPath outputPath s).1 = .ok outputPath) ∧
            (∀ m, E.writeFile log6 outputPath pdfBytes = .error m →
              (convertImageViaImageMagick P E inputPath outputPath s).1 = .error m))) := by
  have hformula : (let scale : JsNumber :=
        if 555 < w ∨ 802 < h then mathMin (jsDiv 555 (.ofNat w)) (jsDiv 802 (.ofNat h))
        else 1
     imageLayout w h =
      { x := jsDiv (jsSub 595 (jsMul (.ofNat w) scale)) 2,
        y := jsDiv (jsSub 842 (jsMul (.ofNat h) scale)) 2,
        width := jsMul (.ofNat w) scale,
        height := jsMul (.ofNat h) scale }) := by
    by_cases hc : 555 < w ∨ 802 < h
    · simp only [if_pos hc]
      exact imageLayout_scaled w h hc
    · simp only [if_neg hc]
      rw [jsMul_one_of_fits w (by omega), jsMul_one_of_fits h (by omega)]
      exact imageLayout_unscaled w h hc
  refine ⟨hformula, by decide, by decide, by norm_num [JsNumber.toRat], ?_, ?_⟩
  · intro doc r hmem
    obtain ⟨d, hd, hsave⟩ := imageTry_log P E inputPath outputPath
      (tempPngPath P E (s.log ++ [.call .convertImageViaImageMagick [inputPath, outputPath]]))
      (s.log ++ [.call .convertImageViaImageMagick [inputPath, outputPath]] ++
        [.now (E.now (s.log ++ [.call .convertImageViaImageMagick [inputPath, outputPath]]))])
    have hnew : newEvents (convertImageViaImageMagick P E inputPath outputPath) s =
        [.call .convertImageViaImageMagick [inputPath, outputPath]] ++
          [.now (E.now (s.log ++ [.call .convertImageViaImageMagick [inputPath, outputPath]]))]
          ++ d ++ [.unlink
            (tempPngPath P E
              (s.log ++ [.call .convertImageViaImageMagick [inputPath, outputPath]]))
            (E.unlink
              (s.log ++ [.call .convertImageViaImageMagick [inputPath, outputPath]] ++
                [.now (E.now (s.log ++
                  [.call .convertImageViaImageMagick [inputPath, outputPath]]))] ++ d)
              (tempPngPath P E
                (s.log ++ [.call .convertImageViaImageMagick [inputPath, outputPath]])))] := by
      apply newEvents_eq
      rw [convertImageViaImageMagick_run]
      simp only []
      rw [hd]
      simp only [List.append_assoc]
    rw [hnew] at hmem ⊢
    have hin : Event.savePdf doc r ∈ d := by
      simpa using hmem
    obtain ⟨buffer, size, hemb, hdoc⟩ := hsave doc r hin
    subst hdoc
    exact ⟨rfl, buffer, size, by simp [hemb], rfl, rfl⟩
  · intro log0 png log1 command scale stdout pngBuffer hexec hacc hread hembed
    refine ⟨imageDocument P inputPath pngBuffer (w, h), rfl, rfl, rfl, hformula, ?_⟩
    have hrun := convertImageViaImageMagick_run P E inputPath outputPath s
    simp only [] at hrun
    have hbody : imageTry P E inputPath outputPath png log1 =
        (let doc := imageDocument P inputPath pngBuffer (w, h)
         let log5 := log1 ++ [.exec command (.ok stdout)] ++ [.access png (.ok ())] ++
           [.readFile png (.ok pngBuffer)] ++ [.embedPng pngBuffer (.ok (w, h))]
         let log6 := log5 ++ [.savePdf doc (E.savePdf doc)]
         match E.savePdf doc with
         | .error m => (.error m, log6)
         | .ok pdfBytes =>
           match E.writeFile log6 outputPath pdfBytes with
           | .error m =>
             (.error m, log6 ++ [.writeFile outputPath pdfBytes (.error m)])
           | .ok _ => (.ok outputPath, log6 ++ [.writeFile outputPath pdfBytes (.ok ())])) := by
      simp only [imageTry]
      rw [hexec]
      simp only
      rw [hacc]
      simp only
      rw [hread]
      simp only
      rw [hembed]
      simp only
      cases E.savePdf (imageDocument P inputPath pngBuffer (w, h)) with
      | error m => rfl
      | ok pdfBytes =>
        simp only
        cases E.writeFile _ outputPath pdfBytes <;> rfl
    rw [hbody] at hrun
    simp only [] at hrun
    cases hs : E.savePdf (imageDocument P inputPath pngBuffer (w, h)) with
    | error m =>
      rw [hs] at hrun
      simp only [] at hrun
      have hnew := newEvents_eq _ s _
        (show (convertImageViaImageMagick P E inputPath outputPath s).2.log = s.log ++ _ by
          rw [hrun]
          simp only [log1, log0, List.append_assoc]
          rfl)
      rw [hnew]
      refine ⟨rfl, fun m1 hm1 => ?_, fun pdfBytes hp => by cases hp⟩
      cases hm1
      exact ⟨by rw [hrun], rfl⟩
    | ok pdfBytes =>
      rw [hs] at hrun
      simp only [] at hrun
      cases hwr : E.writeFile (log1 ++ [.exec command (.ok stdout)] ++ [.access png (.ok ())] ++
          [.readFile png (.ok pngBuffer)] ++ [.embedPng pngBuffer (.ok (w, h))] ++
          [.savePdf (imageDocument P inputPath pngBuffer (w, h)) (.ok pdfBytes)])
          outputPath pdfBytes with
      | error m =>
        rw [hwr] at hrun
        simp only [] at hrun
        have hnew := newEvents_eq _ s _
          (show (convertImageViaImageMagick P E inputPath outputPath s).2.log = s.log ++ _ by
            rw [hrun]
            simp only [log1, log0, List.append_assoc]
            rfl)
        rw [hnew]
        refine ⟨rfl, fun m1 hm1 => (by cases hm1), fun bytes hp => ?_⟩
        have hb : pdfBytes = bytes := by
          cases hp
          rfl
        subst hb
        refine ⟨(log1 ++ [.exec command (.ok stdout)] ++ [.access png (.ok ())] ++
          [.readFile png (.ok pngBuffer)] ++ [.embedPng pngBuffer (.ok (w, h))] ++
          [.savePdf (imageDocument P inputPath pngBuffer (w, h)) (.ok pdfBytes)]), ?_, ?_, ?_⟩
        · rw [hwr]
          rfl
        · intro hok
          rw [hwr] at hok
          cases hok
        · intro m1 hm1
          rw [hwr] at hm1
          cases hm1
          rw [hrun]
      | ok v =>
        rw [hwr] at hrun
        simp only [] at hrun
        have hnew := newEvents_eq _ s _
          (show (convertImageViaImageMagick P E inputPath outputPath s).2.log = s.log ++ _ by
            rw [hrun]
            simp only [log1, log0, List.append_assoc]
            rfl)
        rw [hnew]
        refine ⟨rfl, fun m1 hm1 => (by cases hm1), fun bytes hp => ?_⟩
        have hb : pdfBytes = bytes := by
          cases hp
          rfl
        subst hb
        refine ⟨(log1 ++ [.exec command (.ok stdout)] ++ [.access png (.ok ())] ++
          [.readFile png (.ok pngBuffer)] ++ [.embedPng pngBuffer (.ok (w, h))] ++
          [.savePdf (imageDocument P inputPath pngBuffer (w, h)) (.ok pdfBytes)]), ?_, ?_, ?_⟩
        · rw [hwr]
          rfl
        · intro _
          rw [hrun]
        · intro m1 hm1
          rw [hwr] at hm1
          cases hm1

set_option maxRecDepth 100000 in
/-- Witness for C11: the layout formula at 1000 by 2000, and a run of the pipeline on a
bitmap of 100 by 100 pixels, which serialises a page of 595 by 842 with the bitmap drawn
at 100 by 100 with `x = 247.5`, `y = 371`, writes the bytes and returns `outputPath`. -/
theorem imageLayout_scale_and_centre_witness :
    0 < 1000 ∧ 0 < 2000 ∧
    (let scale : JsNumber :=
        if 555 < 1000 ∨ 802 < 2000 then
          mathMin (jsDiv 555 (.ofNat 1000)) (jsDiv 802 (.ofNat 2000))
        else 1
     imageLayout 1000 2000 =
      { x := jsDiv (jsSub 595 (jsMul (.ofNat 1000) scale)) 2,
        y := jsDiv (jsSub 842 (jsMul (.ofNat 2000) scale)) 2,
        width := jsMul (.ofNat 1000) scale,
        height := jsMul (.ofNat 2000) scale }) ∧
    ∃ doc : ImagePdf, doc.pageSize = (595, 842) ∧ doc.png = "PNG" ∧
      (newEvents (convertImageViaImageMagick posixPath sampleEnv "a.png" "out/a.pdf")
        windowsStart).filter isPdfStep =
        [.embedPng "PNG" (.ok (100, 100)), .savePdf doc (.ok "%PDF")] ∧
      (convertImageViaImageMagick posixPath sampleEnv "a.png" "out/a.pdf" windowsStart).1 =
        .ok "out/a.pdf" :=
  ⟨by decide, by decide,
   (imageLayout_scale_and_centre posixPath sampleEnv "a.png" "out/a.pdf" windowsStart
      1000 2000 (by decide) (by decide)).1,
   ((imageLayout_scale_and_centre posixPath sampleEnv "a.png" "out/a.pdf" windowsStart
      100 100 (by decide) (by decide)).2.2.2.2.2 "Available\r\n" "PNG" rfl rfl rfl rfl).elim
    fun doc hd =>
      ⟨doc, hd.1, hd.2.1, hd.2.2.2.2.1,
        ((hd.2.2.2.2.2.2 "%PDF" rfl).elim fun _ hw => hw.2.1 rfl)⟩⟩

/-! ## Merging -/

/-- Copying the pages at all the indices of a document gives its pages, in order. -/
theorem copiedPagesOf_getPageIndices (pdf : List String) :
    copiedPagesOf pdf (getPageIndices pdf) = pdf := by
  unfold copiedPagesOf getPageIndices
  induction pdf with
  | nil => rfl
  | cons x xs ih =>
    rw [List.length_cons, List.range_succ_eq_map, List.filterMap_cons]
    simp only [List.get?_cons_zero, List.filterMap_map]
    exact congrArg (x :: ·) ih

/-- Adding the copied pages one by one appends them. -/
theorem foldl_addPage (copied pages : List String) :
    copied.foldl (fun merged page => merged ++ [page]) pages = pages ++ copied := by
  induction copied generalizing pages with
  | nil => simp
  | cons c cs ih => simp [ih]

/-- One turn of the loop of `mergePDFs`: read, parse, copy, add. -/
theorem mergeLoop_cons_run (E : Env) (p : String) (rest pages : List String) (s : State) :
    mergeLoop E (p :: rest) pages s =
      match E.readFile s.log p with
      | .error m => (.error m, { s with log := s.log ++ [.readFile p (.error m)] })
      | .ok bytes =>
        match E.loadPdf bytes with
        | .error m =>
          (.error m,
           { s with log := s.log ++ [.readFile p (.ok bytes)] ++ [.loadPdf bytes (.error m)] })
        | .ok pdf =>
          match E.copyPages pdf with
          | .error m =>
            (.error m,
             { s with log := s.log ++ [.readFile p (.ok bytes)] ++ [.loadPdf bytes (.ok pdf)] ++
                [.copyPages pdf (getPageIndices pdf) (.error m)] })
          | .ok _ =>
            mergeLoop E rest (pages ++ pdf)
              { s with log := s.log ++ [.readFile p (.ok bytes)] ++ [.loadPdf bytes (.ok pdf)] ++
                [.copyPages pdf (getPageIndices pdf) (.ok ())] } := by
  simp only [mergeLoop, bind_eq, bind_run, fsReadFile, pdfLoad, pdfCopyPages, effect, pure_eq,
    copiedPagesOf_getPageIndices, foldl_addPage]
  rcases h1 : E.readFile s.log p with bytes | m
  swap
  · rfl
  simp only []
  rcases h2 : E.loadPdf bytes with pdf | m
  swap
  · rfl
  simp only []
  rcases h3 : E.copyPages pdf with u | m
  swap
  · rfl
  rfl

/-- The loop of `mergePDFs` only loads: it appends reads, parses and page copies, all
successful but possibly the last one, whose message is then the error of the loop. -/
theorem mergeLoop_spec (E : Env) : ∀ (paths pages : List String) (s : State),
    ∃ d, (mergeLoop E paths pages s).2 = { s with log := s.log ++ d } ∧
      d.filter modifiesFiles = [] ∧ savedDocuments d = [] ∧
      ((∃ out, (mergeLoop E paths pages s).1 = .ok out ∧ ∀ e ∈ d, loadFailure e = none) ∨
        ∃ m d0 e, (mergeLoop E paths pages s).1 = .error m ∧ d = d0 ++ [e] ∧
          loadFailure e = some m ∧ ∀ e1 ∈ d0, loadFailure e1 = none)
  | [], pages, s => ⟨[], by simp [mergeLoop, pure_eq], rfl, rfl, Or.inl ⟨pages, rfl, by simp⟩⟩
  | p :: rest, pages, s => by
    rw [mergeLoop_cons_run]
    rcases h1 : E.readFile s.log p with bytes | m
    swap
    · exact ⟨[.readFile p (.error m)], rfl, rfl, rfl,
        Or.inr ⟨m, [], _, rfl, rfl, rfl, by simp⟩⟩
    simp only []
    rcases h2 : E.loadPdf bytes with pdf | m
    swap
    · exact ⟨[.readFile p (.ok bytes), .loadPdf bytes (.error m)], by simp, rfl, rfl,
        Or.inr ⟨m, [.readFile p (.ok bytes)], _, rfl, rfl, rfl, by simp [loadFailure]⟩⟩
    simp only []
    rcases h3 : E.copyPages pdf with u | m
    swap
    · exact ⟨[.readFile p (.ok bytes), .loadPdf bytes (.ok pdf),
          .copyPages pdf (getPageIndices pdf) (.error m)], by simp, rfl, rfl,
        Or.inr ⟨m, [.readFile p (.ok bytes), .loadPdf bytes (.ok pdf)], _, rfl, rfl, rfl,
          by simp [loadFailure]⟩⟩
    simp only []
    obtain ⟨d, hd, hmod, hsaved, hcase⟩ := mergeLoop_spec E rest (pages ++ pdf)
      { s with log := s.log ++ [.readFile p (.ok bytes)] ++ [.loadPdf bytes (.ok pdf)] ++
        [.copyPages pdf (getPageIndices pdf) (.ok ())] }
    refine ⟨[.readFile p (.ok bytes), .loadPdf bytes (.ok pdf),
      .copyPages pdf (getPageIndices pdf) (.ok ())] ++ d, by rw [hd]; simp, ?_, ?_, ?_⟩
    · rw [List.filter_append, hmod]
      rfl
    · unfold savedDocuments at hsaved ⊢
      rw [List.filterMap_append, hsaved]
      rfl
    · rcases hcase with ⟨out, hout, hnone⟩ | ⟨m, d0, e, hout, hd0, hfail, hnone⟩
      · refine Or.inl ⟨out, hout, ?_⟩
        intro e he
        simp only [List.mem_append, List.mem_cons, List.mem_singleton, List.not_mem_nil,
          or_false] at he
        rcases he with (rfl | rfl | rfl) | he
        · rfl
        · rfl
        · rfl
        · exact hnone e he
      · refine Or.inr ⟨m, [.readFile p (.ok bytes), .loadPdf bytes (.ok pdf),
          .copyPages pdf (getPageIndices pdf) (.ok ())] ++ d0, e, hout, by rw [hd0]; simp,
          hfail, ?_⟩
        intro e1 he
        simp only [List.mem_append, List.mem_cons, List.mem_singleton, List.not_mem_nil,
          or_false] at he
        rcases he with (rfl | rfl | rfl) | he
        · rfl
        · rfl
        · rfl
        · exact hnone e1 he

/-- The loop of `mergePDFs` on readable inputs: it returns the pages so far followed by
the pages of each input in turn. -/
theorem mergeLoop_readable (E : Env) (content : String → String)
    (pagesOf : String → List String) : ∀ (paths pages : List String) (s : State),
    (∀ log p, p ∈ paths → E.readFile log p = .ok (content p)) →
    (∀ p ∈ paths, E.loadPdf (content p) = .ok (pagesOf p)) →
    (∀ p ∈ paths, E.copyPages (pagesOf p) = .ok ()) →
    mergeLoop E paths pages s =
      (.ok (pages ++ (paths.map pagesOf).flatten),
       { s with log := s.log ++ loadEvents content pagesOf paths })
  | [], pages, s, _, _, _ => by simp [mergeLoop, pure_eq, loadEvents]
  | p :: rest, pages, s, hread, hload, hcopy => by
    rw [mergeLoop_cons_run, hread s.log p (List.mem_cons_self _ _)]
    simp only []
    rw [hload p (List.mem_cons_self _ _)]
    simp only []
    rw [hcopy p (List.mem_cons_self _ _)]
    simp only []
    rw [mergeLoop_readable E content pagesOf rest _ _
      (fun log q hq => hread log q (List.mem_cons_of_mem _ hq))
      (fun q hq => hload q (List.mem_cons_of_mem _ hq))
      (fun q hq => hcopy q (List.mem_cons_of_mem _ hq))]
    simp [loadEvents, List.append_assoc]

/-- Closed form of `mergePDFs` around its loop: serialise, write, and wrap every error. -/
theorem mergePDFs_run (E : Env) (pdfPaths : List String) (outputPath : String) (s : State) :
    mergePDFs E pdfPaths outputPath s =
      match mergeLoop E pdfPaths []
        { s with log := s.log ++ [.call .mergePDFs (pdfPaths ++ [outputPath])] } with
      | (.error m, s1) => (.error ("PDF merge failed: " ++ m), s1)
      | (.ok pages, s1) =>
        match E.saveMerged (mergedDocument pages) with
        | .error m =>
          (.error ("PDF merge failed: " ++ m),
           { s1 with log := s1.log ++ [.saveMerged (mergedDocument pages) (.error m)] })
        | .ok bytes =>
          match E.writeFile (s1.log ++ [.saveMerged (mergedDocument pages) (.ok bytes)])
            outputPath bytes with
          | .error m =>
            (.error ("PDF merge failed: " ++ m),
             { s1 with log := s1.log ++ [.saveMerged (mergedDocument pages) (.ok bytes)] ++
                [.writeFile outputPath bytes (.error m)] })
          | .ok _ =>
            (.ok outputPath,
             { s1 with log := s1.log ++ [.saveMerged (mergedDocument pages) (.ok bytes)] ++
                [.writeFile outputPath bytes (.ok ())] }) := by
  simp only [mergePDFs, bind_eq, tryCatch_eq, bind_run, tryCatch_run, record, pdfSaveMerged,
    fsWriteFile, effect, throw_eq, Run.throwError, pure_eq, mergedDocument]
  rcases mergeLoop E pdfPaths []
    { s with log := s.log ++ [.call .mergePDFs (pdfPaths ++ [outputPath])] } with ⟨r, s1⟩
  rcases r with pages | m
  swap
  · rfl
  simp only []
  generalize hsave : E.saveMerged _ = r2
  rcases r2 with bytes | m
  swap
  · rfl
  simp only []
  generalize hw : E.writeFile _ _ _ = r3
  rcases r3 with u | m
  · rfl
  · rfl

theorem loadEvents_cons (content : String → String) (pagesOf : String → List String)
    (p : String) (paths : List String) :
    loadEvents content pagesOf (p :: paths) =
      [.readFile p (.ok (content p)), .loadPdf (content p) (.ok (pagesOf p)),
       .copyPages (pagesOf p) (getPageIndices (pagesOf p)) (.ok ())] ++
        loadEvents content pagesOf paths := by
  simp [loadEvents]

/-- Loading the inputs serialises nothing and writes nothing. -/
theorem loadEvents_quiet (content : String → String) (pagesOf : String → List String)
    (outputPath : String) : ∀ paths : List String,
    savedDocuments (loadEvents content pagesOf paths) = [] ∧
    writesTo outputPath (loadEvents content pagesOf paths) = [] ∧
    (loadEvents content pagesOf paths).filter isWriteFile = []
  | [] => ⟨rfl, rfl, rfl⟩
  | p :: paths => by
    obtain ⟨h1, h2, h3⟩ := loadEvents_quiet content pagesOf outputPath paths
    rw [loadEvents_cons]
    unfold savedDocuments writesTo at *
    rw [List.filterMap_append, List.filterMap_append, List.filter_append, h1, h2, h3]
    exact ⟨rfl, rfl, rfl⟩

/-- What `mergePDFs` appends on readable inputs: the loads, the serialisation of the
concatenated document and, when that succeeds, the write of its bytes to `outputPath`,
whose outcome decides the result. -/
theorem mergePDFs_readable (E : Env) (content : String → String)
    (pagesOf : String → List String) (pdfPaths : List String) (outputPath : String)
    (s : State)
    (hread : ∀ log p, p ∈ pdfPaths → E.readFile log p = .ok (content p))
    (hload : ∀ p ∈ pdfPaths, E.loadPdf (content p) = .ok (pagesOf p))
    (hcopy : ∀ p ∈ pdfPaths, E.copyPages (pagesOf p) = .ok ()) :
    ∃ tail, newEvents (mergePDFs E pdfPaths outputPath) s =
        [.call .mergePDFs (pdfPaths ++ [outputPath])] ++ loadEvents content pagesOf pdfPaths ++
          [.saveMerged (mergedDocument (pdfPaths.map pagesOf).flatten)
            (E.saveMerged (mergedDocument (pdfPaths.map pagesOf).flatten))] ++ tail ∧
      (∀ m, E.saveMerged (mergedDocument (pdfPaths.map pagesOf).flatten) = .error m →
        tail = []) ∧
      ∀ bytes, E.saveMerged (mergedDocument (pdfPaths.map pagesOf).flatten) = .ok bytes →
        ∃ r, tail = [.writeFile outputPath bytes r] ∧
          (r = .ok () → (mergePDFs E pdfPaths outputPath s).1 = .ok outputPath) ∧
          ∀ m, r = .error m →
            (mergePDFs E pdfPaths outputPath s).1 = .error ("PDF merge failed: " ++ m) := by
  have hrun := mergePDFs_run E pdfPaths outputPath s
  rw [mergeLoop_readable E content pagesOf pdfPaths [] _ hread hload hcopy] at hrun
  simp only [List.nil_append] at hrun
  rcases hsave : E.saveMerged (mergedDocument (pdfPaths.map pagesOf).flatten) with bytes | m
  · rw [hsave] at hrun
    simp only [] at hrun
    rcases hw : E.writeFile
      (s.log ++ [.call .mergePDFs (pdfPaths ++ [outputPath])] ++
        loadEvents content pagesOf pdfPaths ++
        [.saveMerged (mergedDocument (pdfPaths.map pagesOf).flatten) (.ok bytes)])
      outputPath bytes with u | m
    · rw [hw] at hrun
      simp only [] at hrun
      refine ⟨[.writeFile outputPath bytes (.ok ())], ?_, by simp, ?_⟩
      · apply newEvents_eq
        rw [hrun]
        simp only [List.append_assoc]
      · intro b hb
        cases hb
        exact ⟨.ok (), rfl, fun _ => (by rw [hrun]), fun m hm => (by cases hm)⟩
    · rw [hw] at hrun
      simp only [] at hrun
      refine ⟨[.writeFile outputPath bytes (.error m)], ?_, by simp, ?_⟩
      · apply newEvents_eq
        rw [hrun]
        simp only [List.append_assoc]
      · intro b hb
        cases hb
        exact ⟨.error m, rfl, fun h => (by cases h), fun m1 hm => (by cases hm; rw [hrun])⟩
  · rw [hsave] at hrun
    simp only [] at hrun
    refine ⟨[], ?_, by simp, by simp⟩
    apply newEvents_eq
    rw [hrun]
    simp only [List.append_assoc, List.append_nil]

/-- For one-page inputs, the pages of the reversed list are the reversed pages. -/
theorem flatten_reverse_of_single (pagesOf : String → List String) :
    ∀ paths : List String, (∀ p ∈ paths, (pagesOf p).length = 1) →
      (paths.reverse.map pagesOf).flatten = (paths.map pagesOf).flatten.reverse
  | [], _ => rfl
  | p :: paths, h => by
    obtain ⟨a, ha⟩ := List.length_eq_one.mp (h p (List.mem_cons_self _ _))
    have ih := flatten_reverse_of_single pagesOf paths
      (fun q hq => h q (List.mem_cons_of_mem _ hq))
    simp only [List.reverse_cons, List.map_append, List.map_cons, List.map_nil,
      List.flatten_append, List.flatten_cons, List.flatten_nil, List.append_nil,
      List.reverse_append, ih, ha, List.reverse_singleton, List.reverse_cons, List.reverse_nil,
      List.nil_append]

/-- C13: when every input of the list can be read, parsed and copied, `mergePDFs`
serialises exactly one document, whose pages are the pages of the first input in their own
order, then those of the second, and so on in the caller's order; the bytes of that
document are the only thing it writes, to `outputPath`, and it returns `outputPath` when
the write succeeds.  The page count is the sum of the page counts of the inputs, and for
one-page inputs the reversed list gives the reversed pages. -/
theorem mergePDFs_concatenates (E : Env) (content : String → String)
    (pagesOf : String → List String) (pdfPaths : List String) (outputPath : String)
    (s : State)
    (hread : ∀ log p, p ∈ pdfPaths → E.readFile log p = .ok (content p))
    (hload : ∀ p ∈ pdfPaths, E.loadPdf (content p) = .ok (pagesOf p))
    (hcopy : ∀ p ∈ pdfPaths, E.copyPages (pagesOf p) = .ok ()) :
    savedDocuments (newEvents (mergePDFs E pdfPaths outputPath) s) =
      [mergedDocument (pdfPaths.map pagesOf).flatten] ∧
    (∀ bytes, E.saveMerged (mergedDocument (pdfPaths.map pagesOf).flatten) = .ok bytes →
      writesTo outputPath (newEvents (mergePDFs E pdfPaths outputPath) s) = [bytes] ∧
      ((newEvents (mergePDFs E pdfPaths outputPath) s).filter isWriteFile).length = 1 ∧
      (Event.writeFile outputPath bytes (.ok ()) ∈
          newEvents (mergePDFs E pdfPaths outputPath) s →
        (mergePDFs E pdfPaths outputPath s).1 = .ok outputPath)) ∧
    (mergedDocument (pdfPaths.map pagesOf).flatten).pages.length =
      (pdfPaths.map fun p => (pagesOf p).length).sum ∧
    ((∀ p ∈ pdfPaths, (pagesOf p).length = 1) →
      savedDocuments (newEvents (mergePDFs E pdfPaths.reverse outputPath) s) =
        [mergedDocument (pdfPaths.map pagesOf).flatten.reverse]) := by
  have hsaved : ∀ paths : List String,
      (∀ log p, p ∈ paths → E.readFile log p = .ok (content p)) →
      (∀ p ∈ paths, E.loadPdf (content p) = .ok (pagesOf p)) →
      (∀ p ∈ paths, E.copyPages (pagesOf p) = .ok ()) →
      savedDocuments (newEvents (mergePDFs E paths outputPath) s) =
        [mergedDocument (paths.map pagesOf).flatten] := by
    intro paths h1 h2 h3
    obtain ⟨tail, hnew, herr, hok⟩ :=
      mergePDFs_readable E content pagesOf paths outputPath s h1 h2 h3
    obtain ⟨q1, -, -⟩ := loadEvents_quiet content pagesOf outputPath paths
    have htail : savedDocuments tail = [] := by
      rcases hsave : E.saveMerged (mergedDocument (paths.map pagesOf).flatten) with bytes | m
      · obtain ⟨r, hr, -⟩ := hok bytes hsave
        rw [hr]
        rfl
      · rw [herr m hsave]
        rfl
    rw [hnew]
    unfold savedDocuments at *
    rw [List.filterMap_append, List.filterMap_append, List.filterMap_append, q1, htail]
    rfl
  refine ⟨hsaved pdfPaths hread hload hcopy, ?_, ?_, ?_⟩
  · intro bytes hsave
    obtain ⟨tail, hnew, -, hok⟩ :=
      mergePDFs_readable E content pagesOf pdfPaths outputPath s hread hload hcopy
    obtain ⟨-, q2, q3⟩ := loadEvents_quiet content pagesOf outputPath pdfPaths
    obtain ⟨r, hr, hgood, -⟩ := hok bytes hsave
    subst hr
    rw [hnew]
    refine ⟨?_, ?_, ?_⟩
    · unfold writesTo at *
      rw [List.filterMap_append, List.filterMap_append, List.filterMap_append, q2]
      simp
    · rw [List.filter_append, List.filter_append, List.filter_append, q3]
      simp [isWriteFile]
    · intro hmem
      apply hgood
      have hnot : Event.writeFile outputPath bytes (.ok ()) ∉
          loadEvents content pagesOf pdfPaths := by
        intro hin
        have : Event.writeFile outputPath bytes (.ok ()) ∈
            (loadEvents content pagesOf pdfPaths).filter isWriteFile :=
          List.mem_filter.mpr ⟨hin, rfl⟩
        rw [q3] at this
        exact List.not_mem_nil _ this
      simp [hnot] at hmem
      first | exact hmem | exact hmem.symm
  · simp [mergedDocument, List.length_flatten, Function.comp_def]
  · intro hone
    rw [hsaved pdfPaths.reverse
      (fun log p hp => hread log p (List.mem_reverse.mp hp))
      (fun p hp => hload p (List.mem_reverse.mp hp))
      (fun p hp => hcopy p (List.mem_reverse.mp hp)),
      flatten_reverse_of_single pagesOf pdfPaths hone]

theorem mergePDFs_concatenates_witness :
    savedDocuments (newEvents (mergePDFs mergeEnv ["a.pdf", "b.pdf", "c.pdf"] "out.pdf")
      windowsStart) = [mergedDocument ["%PDF a.pdf", "%PDF b.pdf", "%PDF c.pdf"]] ∧
    savedDocuments (newEvents (mergePDFs mergeEnv ["a.pdf", "b.pdf", "c.pdf"].reverse
      "out.pdf") windowsStart) =
        [mergedDocument ["%PDF a.pdf", "%PDF b.pdf", "%PDF c.pdf"].reverse] :=
  ⟨(mergePDFs_concatenates mergeEnv (fun p => "%PDF " ++ p) (fun p => ["%PDF " ++ p])
      ["a.pdf", "b.pdf", "c.pdf"] "out.pdf" windowsStart
      (fun _ p hp => by
        simp only [List.mem_cons, List.mem_singleton, List.not_mem_nil, or_false] at hp
        rcases hp with rfl | rfl | rfl <;> rfl)
      (fun _ _ => rfl) (fun _ _ => rfl)).1,
   (mergePDFs_concatenates mergeEnv (fun p => "%PDF " ++ p) (fun p => ["%PDF " ++ p])
      ["a.pdf", "b.pdf", "c.pdf"] "out.pdf" windowsStart
      (fun _ p hp => by
        simp only [List.mem_cons, List.mem_singleton, List.not_mem_nil, or_false] at hp
        rcases hp with rfl | rfl | rfl <;> rfl)
      (fun _ _ => rfl) (fun _ _ => rfl)).2.2.2 (fun _ _ => rfl)⟩

/-- C14: if a read, a parse or a page copy of the merge fails with message `m`, then
`mergePDFs` throws `PDF merge failed: ` followed by `m`, and the call serialises no
document and performs no write (nor any other effect that can change the file system), so
`outputPath` is as it was before the call. -/
theorem mergePDFs_all_or_nothing (E : Env) (pdfPaths : List String) (outputPath : String)
    (s : State) (e : Event) (m : String)
    (he : e ∈ newEvents (mergePDFs E pdfPaths outputPath) s)
    (hfail : loadFailure e = some m) :
    (mergePDFs E pdfPaths outputPath s).1 = .error ("PDF merge failed: " ++ m) ∧
    (newEvents (mergePDFs E pdfPaths outputPath) s).filter modifiesFiles = [] ∧
    savedDocuments (newEvents (mergePDFs E pdfPaths outputPath) s) = [] := by
  have hrun := mergePDFs_run E pdfPaths outputPath s
  obtain ⟨d, hd, hmod, hsaved, hcase⟩ := mergeLoop_spec E pdfPaths []
    { s with log := s.log ++ [.call .mergePDFs (pdfPaths ++ [outputPath])] }
  rcases hx : mergeLoop E pdfPaths []
    { s with log := s.log ++ [.call .mergePDFs (pdfPaths ++ [outputPath])] } with ⟨r, s1⟩
  rw [hx] at hrun hd hcase
  simp only [] at hd hcase
  subst hd
  rcases hcase with ⟨out, hout, hnone⟩ | ⟨m0, d0, e0, hout, hd0, hfail0, hnone⟩
  · exfalso
    subst hout
    simp only [] at hrun
    have hno : ∀ tail : List Event, (∀ e1 ∈ tail, loadFailure e1 = none) →
        newEvents (mergePDFs E pdfPaths outputPath) s =
          [.call .mergePDFs (pdfPaths ++ [outputPath])] ++ d ++ tail → False := by
      intro tail htail hnew
      rw [hnew] at he
      simp only [List.mem_append, List.mem_singleton] at he
      rcases he with (rfl | he) | he
      · cases hfail
      · rw [hnone e he] at hfail
        cases hfail
      · rw [htail e he] at hfail
        cases hfail
    rcases hsave : E.saveMerged (mergedDocument out) with bytes | m1
    · rw [hsave] at hrun
      simp only [] at hrun
      rcases hw : E.writeFile
        (s.log ++ [.call .mergePDFs (pdfPaths ++ [outputPath])] ++ d ++
          [.saveMerged (mergedDocument out) (.ok bytes)]) outputPath bytes with u | m2
      · rw [hw] at hrun
        simp only [] at hrun
        refine hno [.saveMerged (mergedDocument out) (.ok bytes),
          .writeFile outputPath bytes (.ok ())] (by simp [loadFailure]) ?_
        apply newEvents_eq
        rw [hrun]
        simp only [List.append_assoc, List.singleton_append]
      · rw [hw] at hrun
        simp only [] at hrun
        refine hno [.saveMerged (mergedDocument out) (.ok bytes),
          .writeFile outputPath bytes (.error m2)] (by simp [loadFailure]) ?_
        apply newEvents_eq
        rw [hrun]
        simp only [List.append_assoc, List.singleton_append]
    · rw [hsave] at hrun
      simp only [] at hrun
      refine hno [.saveMerged (mergedDocument out) (.error m1)] (by simp [loadFailure]) ?_
      apply newEvents_eq
      rw [hrun]
      simp only [List.append_assoc]
  · subst hout
    simp only [] at hrun
    have hnew : newEvents (mergePDFs E pdfPaths outputPath) s =
        [.call .mergePDFs (pdfPaths ++ [outputPath])] ++ d := by
      apply newEvents_eq
      rw [hrun]
      simp only [List.append_assoc]
    rw [hnew] at he ⊢
    have hm : m0 = m := by
      rw [hd0] at he
      simp only [List.mem_append, List.mem_singleton] at he
      rcases he with rfl | he | rfl
      · cases hfail
      · rw [hnone e he] at hfail
        cases hfail
      · rw [hfail0] at hfail
        exact Option.some.inj hfail
    subst hm
    refine ⟨by rw [hrun], ?_, ?_⟩
    · rw [List.filter_append, hmod]
      rfl
    · unfold savedDocuments at hsaved ⊢
      rw [List.filterMap_append, hsaved]
      rfl

set_option maxRecDepth 100000 in
theorem mergePDFs_all_or_nothing_witness :
    (mergePDFs mergeEnv ["a.pdf", "missing.pdf", "c.pdf"] "out.pdf" windowsStart).1 =
      .error "PDF merge failed: ENOENT: no such file or directory, open missing.pdf" ∧
    (newEvents (mergePDFs mergeEnv ["a.pdf", "missing.pdf", "c.pdf"] "out.pdf")
      windowsStart).filter modifiesFiles = [] ∧
    savedDocuments (newEvents (mergePDFs mergeEnv ["a.pdf", "missing.pdf", "c.pdf"] "out.pdf")
      windowsStart) = [] :=
  mergePDFs_all_or_nothing mergeEnv ["a.pdf", "missing.pdf", "c.pdf"] "out.pdf" windowsStart
    (.readFile "missing.pdf" (.error "ENOENT: no such file or directory, open missing.pdf"))
    "ENOENT: no such file or directory, open missing.pdf" (by decide) rfl

/-! ## The renderer lists -/

/-- Removing one entry with `splice` is `List.eraseIdx`. -/
theorem splice_remove {α : Type} (l : List α) (i : Nat) : splice l i 1 [] = l.eraseIdx i := by
  simp [splice, List.eraseIdx_eq_take_drop_succ]

/-- C24: for a list `l` and indices `i ≠ j` inside it, a drop of the entry dragged from
index `i` on the entry at index `j` gives a list of the same length that is a permutation
of `l`; without the dragged entry it is `l` without the dragged entry (the other entries
keep their order); and the dragged entry stands at index `k` with the entry that was at
index `j` right after it, at `k + 1`.  When `i = j`, or when no drag is in progress, the
list is unchanged. -/
theorem handlePDFDrop_reorders {α : Type} (undefined : α) (l : List α) (i j : Nat)
    (hi : i < l.length) (hj : j < l.length) (hij : i ≠ j) :
    (handlePDFDrop undefined l (some i) j).length = l.length ∧
    (handlePDFDrop undefined l (some i) j).Perm l ∧
    (handlePDFDrop undefined l (some i) j).eraseIdx (if i < j then j - 1 else j) =
      l.eraseIdx i ∧
    (handlePDFDrop undefined l (some i) j).get? (if i < j then j - 1 else j) = l.get? i ∧
    (handlePDFDrop undefined l (some i) j).get? ((if i < j then j - 1 else j) + 1) =
      l.get? j ∧
    handlePDFDrop undefined l (some j) j = l ∧
    handlePDFDrop undefined l none j = l := by
  have hlen : (l.eraseIdx i).length = l.length - 1 := List.length_eraseIdx_of_lt hi
  set k := if i < j then j - 1 else j with hk
  have hk_le : k ≤ (l.eraseIdx i).length := by
    rw [hlen, hk]
    split_ifs <;> omega
  have hx : l.getD i undefined = l[i] := by
    simp [List.getD, List.getElem?_eq_getElem hi]
  have hr : handlePDFDrop undefined l (some i) j =
      (l.eraseIdx i).take k ++ l[i] :: (l.eraseIdx i).drop k := by
    simp only [handlePDFDrop, hij, ne_eq, not_false_eq_true, if_true, splice_remove, hx]
    simp [splice, ← hk]
  have htake : ((l.eraseIdx i).take k).length = k := by
    rw [List.length_take]
    omega
  refine ⟨?_, ?_, ?_, ?_, ?_, by simp [handlePDFDrop], rfl⟩
  · rw [hr]
    simp only [List.length_append, List.length_cons, List.length_take, List.length_drop]
    omega
  · rw [hr]
    have h1 : ((l.eraseIdx i).take k ++ l[i] :: (l.eraseIdx i).drop k).Perm
        (l[i] :: ((l.eraseIdx i).take k ++ (l.eraseIdx i).drop k)) := List.perm_middle
    rw [List.take_append_drop] at h1
    refine h1.trans ?_
    have h2 : l = l.take i ++ l[i] :: l.drop (i + 1) := by
      rw [← List.drop_eq_getElem_cons hi, List.take_append_drop]
    have h3 : (l[i] :: l.eraseIdx i).Perm (l.take i ++ l[i] :: l.drop (i + 1)) := by
      rw [List.eraseIdx_eq_take_drop_succ]
      exact List.perm_middle.symm
    rw [← h2] at h3
    exact h3
  · rw [hr]
    have := List.eraseIdx_append_of_length_le (l := (l.eraseIdx i).take k)
      (k := k) (by omega) (l[i] :: (l.eraseIdx i).drop k)
    rw [this, htake]
    simp
  · rw [hr, List.get?_eq_getElem?, List.getElem?_append_right (by omega), htake]
    simp [List.getElem?_eq_getElem hi]
  · rw [hr, List.get?_eq_getElem?, List.getElem?_append_right (by omega), htake]
    simp only [Nat.add_sub_cancel_left, List.getElem?_cons_succ, List.getElem?_cons_zero,
      List.getElem?_drop, Nat.add_zero, List.get?_eq_getElem?]
    rw [List.getElem?_eraseIdx]
    rw [hk]
    split_ifs with h1 h2 h3
    · omega
    · congr 1
      omega
    · rfl
    · omega

theorem handlePDFDrop_reorders_witness :
    (handlePDFDrop "" ["a.pdf", "b.pdf", "c.pdf", "d.pdf"] (some 0) 2).length = 4 ∧
    (handlePDFDrop "" ["a.pdf", "b.pdf", "c.pdf", "d.pdf"] (some 0) 2).Perm
      ["a.pdf", "b.pdf", "c.pdf", "d.pdf"] ∧
    (handlePDFDrop "" ["a.pdf", "b.pdf", "c.pdf", "d.pdf"] (some 0) 2).get? 1 = some "a.pdf" ∧
    (handlePDFDrop "" ["a.pdf", "b.pdf", "c.pdf", "d.pdf"] (some 0) 2).get? 2 = some "c.pdf" :=
  ⟨(handlePDFDrop_reorders "" ["a.pdf", "b.pdf", "c.pdf", "d.pdf"] 0 2
      (by decide) (by decide) (by decide)).1,
   (handlePDFDrop_reorders "" ["a.pdf", "b.pdf", "c.pdf", "d.pdf"] 0 2
      (by decide) (by decide) (by decide)).2.1,
   (handlePDFDrop_reorders "" ["a.pdf", "b.pdf", "c.pdf", "d.pdf"] 0 2
      (by decide) (by decide) (by decide)).2.2.2.1,
   (handlePDFDrop_reorders "" ["a.pdf", "b.pdf", "c.pdf", "d.pdf"] 0 2
      (by decide) (by decide) (by decide)).2.2.2.2.1⟩

/-- The loop of `addFiles` pushes one entry per new path, in order. -/
theorem foldl_push (paths : List String) (files : List FileEntry) :
    paths.foldl (fun files path => files ++ [fileEntry path]) files =
      files ++ paths.map fileEntry := by
  induction paths generalizing files with
  | nil => simp
  | cons p ps ih => simp [ih]

/-- Closed form of `addFiles`: the entries already present, then one entry for each path
of the argument that no entry already present has. -/
theorem addFiles_eq (selectedFiles : List FileEntry) (filePaths : List String) :
    addFiles selectedFiles filePaths =
      selectedFiles ++ (filePaths.filter fun path =>
        !selectedFiles.any fun file => decide (file.path = path)).map fileEntry := by
  simp only [addFiles, foldl_push]

theorem fileEntry_path (path : String) : (fileEntry path).path = path := rfl

/-- When the paths passed in are pairwise different, `addFiles` keeps the paths of
`selectedFiles` pairwise different. -/
theorem addFiles_nodup (selectedFiles : List FileEntry) (filePaths : List String)
    (hsel : (selectedFiles.map (·.path)).Nodup) (hnew : filePaths.Nodup) :
    ((addFiles selectedFiles filePaths).map (·.path)).Nodup := by
  rw [addFiles_eq, List.map_append, List.map_map]
  have hid : ((fun e : FileEntry => e.path) ∘ fileEntry) = id := by
    funext p
    rfl
  rw [hid, List.map_id]
  refine List.Nodup.append hsel (hnew.filter _) ?_
  intro p hp1 hp2
  obtain ⟨e, he, hep⟩ := List.mem_map.mp hp1
  have := (List.mem_filter.mp hp2).2
  simp only [Bool.not_eq_true', List.any_eq_false, decide_eq_true_eq] at this
  exact this e he hep

/-- `removeFile` keeps the paths of `selectedFiles` pairwise different. -/
theorem removeFile_nodup (selectedFiles : List FileEntry) (index : Nat)
    (hsel : (selectedFiles.map (·.path)).Nodup) :
    ((removeFile selectedFiles index).map (·.path)).Nodup := by
  rw [removeFile, splice_remove]
  exact hsel.sublist ((List.eraseIdx_sublist _ _).map _)

/-- C26, evaluated at an empty list and a call of `addFiles` with the same path twice:
both copies pass the filter, which looks only at the entries already present, and the list
ends up with two entries of the same path. -/
theorem addFiles_repeated_path :
    addFiles [] ["C:\\docs\\a.docx", "C:\\docs\\a.docx"] =
      [⟨"C:\\docs\\a.docx", "a.docx", "Office"⟩, ⟨"C:\\docs\\a.docx", "a.docx", "Office"⟩] ∧
    ¬ ((addFiles [] ["C:\\docs\\a.docx", "C:\\docs\\a.docx"]).map (·.path)).Nodup ∧
    ((addFiles [] ["C:\\docs\\a.docx"]).map (·.path)).Nodup ∧
    addFiles (addFiles [] ["C:\\docs\\a.docx"]) ["C:\\docs\\a.docx"] =
      addFiles [] ["C:\\docs\\a.docx"] := by
  refine ⟨by decide, by decide, by decide, by decide⟩

set_option maxRecDepth 100000 in
/-- C25, evaluated at a file whose name has no dot, `docx`, and at a file whose name
starts with its only dot, `.png`: the renderer takes what follows the last dot of the
name, or the whole name when there is no dot, and labels them `Office` and `Image`, while
`getFileType`, through `path.extname`, finds no extension and answers `unknown`.  For
`report.docx` the two agree. -/
theorem fileEntry_label_without_extension :
    (fileEntry "C:\\docs\\docx").type = "Office" ∧
    getFileType win32Path "C:\\docs\\docx" = "unknown" ∧
    (fileEntry "/home/user/docx").type = "Office" ∧
    getFileType posixPath "/home/user/docx" = "unknown" ∧
    (fileEntry "C:\\docs\\.png").type = "Image" ∧
    getFileType win32Path "C:\\docs\\.png" = "unknown" ∧
    (addFiles [] ["C:\\docs\\docx"]).map (·.type) = ["Office"] ∧
    (fileEntry "C:\\docs\\report.docx").type = "Office" ∧
    getFileType win32Path "C:\\docs\\report.docx" = "office" := by
  refine ⟨by decide, by decide, by decide, by decide, by decide, by decide, by decide,
    by decide, by decide⟩

/-- Each extension of the office set is in exactly one of the three kind lists. -/
theorem kindCount_office : ∀ ext ∈ supportedFormats.office, kindCount ext = 1 := by decide

/-- C27: for every path that `convertToPDF` dispatches to the office pipeline (its
lower-cased extension is in the office set), the extension is in exactly one of the word,
spreadsheet and presentation lists, and each of `convertOfficeViaCOM` and
`convertOfficeViaPowerShell`, on every run, invokes exactly one kind-specific script
runner; what it returns, when it returns, is the output path.  The fall-through that
returns the output path without running a script is never taken. -/
theorem office_kind_runs_one_runner (P : NodeLib) (E : Env) (inputPath outputPath : String)
    (s : State)
    (hoffice : supportedFormats.office.contains (P.toLowerCase (P.extname inputPath)) = true) :
    kindCount (P.toLowerCase (P.extname inputPath)) = 1 ∧
    runnerCount (newEvents (convertOfficeViaCOM P E inputPath outputPath) s) = 1 ∧
    runnerCount (newEvents (convertOfficeViaPowerShell P E inputPath outputPath) s) = 1 ∧
    (∀ p, (convertOfficeViaCOM P E inputPath outputPath s).1 = .ok p → p = outputPath) ∧
    (∀ p, (convertOfficeViaPowerShell P E inputPath outputPath s).1 = .ok p →
      p = outputPath) := by
  have hmem : P.toLowerCase (P.extname inputPath) ∈ supportedFormats.office := by
    simpa using hoffice
  have hcount : ∀ d : List Event, runnerCount d = runnerCount (callsIn d) := by
    intro d
    unfold runnerCount callsIn
    rw [List.countP_filter]
    congr 1
    funext e
    cases e <;> simp [isCall]
  obtain ⟨-, d1, hd1, hc1, ho1⟩ := convertOfficeViaCOM_spec P E inputPath outputPath s
  obtain ⟨-, d2, hd2, hc2, ho2⟩ := convertOfficeViaPowerShell_spec P E inputPath outputPath s
  have hn1 := newEvents_eq _ s _ hd1
  have hn2 := newEvents_eq _ s _ hd2
  have hcom : runnerCount
      (comRunnerCalls (P.toLowerCase (P.extname inputPath)) inputPath outputPath) = 1 := by
    generalize P.toLowerCase (P.extname inputPath) = ext at hmem
    simp only [supportedFormats, List.mem_cons, List.mem_singleton, List.not_mem_nil,
      or_false] at hmem
    rcases hmem with rfl | rfl | rfl | rfl | rfl | rfl <;> rfl
  have hps : runnerCount
      (psRunnerCalls (P.toLowerCase (P.extname inputPath)) inputPath outputPath) = 1 := by
    generalize P.toLowerCase (P.extname inputPath) = ext at hmem
    simp only [supportedFormats, List.mem_cons, List.mem_singleton, List.not_mem_nil,
      or_false] at hmem
    rcases hmem with rfl | rfl | rfl | rfl | rfl | rfl <;> rfl
  refine ⟨kindCount_office _ hmem, ?_, ?_, ?_, ?_⟩
  · rw [hn1, hcount, callsIn_cons_call, hc1]
    simpa [runnerCount, scriptRunners] using hcom
  · rw [hn2, hcount, callsIn_cons_call, hc2]
    simpa [runnerCount, scriptRunners] using hps
  · intro p hp
    rcases ho1 with h | ⟨m, h, -⟩
    · rw [h] at hp
      exact (Outcome.ok.inj hp).symm
    · rw [h] at hp
      cases hp
  · intro p hp
    rcases ho2 with h | ⟨m, h, -⟩
    · rw [h] at hp
      exact (Outcome.ok.inj hp).symm
    · rw [h] at hp
      cases hp

set_option maxRecDepth 100000 in
theorem office_kind_runs_one_runner_witness :
    kindCount ".docx" = 1 ∧
    runnerCount (newEvents (convertOfficeViaCOM posixPath sampleEnv "a.docx" "out/a.pdf")
      windowsStart) = 1 ∧
    runnerCount (newEvents (convertOfficeViaPowerShell posixPath sampleEnv "a.docx"
      "out/a.pdf") windowsStart) = 1 :=
  ⟨(office_kind_runs_one_runner posixPath sampleEnv "a.docx" "out/a.pdf" windowsStart
      (by decide)).1,
   (office_kind_runs_one_runner posixPath sampleEnv "a.docx" "out/a.pdf" windowsStart
      (by decide)).2.1,
   (office_kind_runs_one_runner posixPath sampleEnv "a.docx" "out/a.pdf" windowsStart
      (by decide)).2.2.1⟩

/-! ## The label of the conversion method -/

/-- Closed form of `getConversionMethod`. -/
theorem getConversionMethod_run (P : NodeLib) (E : Env) (s : State) :
    getConversionMethod P E s =
      if labelSetting E s = "auto" then
        match checkOfficeAvailability P E (afterLabelSetting E s) with
        | (.ok hasOffice, s1) =>
          (.ok (if hasOffice = some true then "Microsoft Office (VBS)"
            else "Microsoft Office (PowerShell)"), s1)
        | (.error e, s1) => (.error e, s1)
      else if labelSetting E s = "native" then
        (.ok "Microsoft Office (VBS)", afterLabelSetting E s)
      else if labelSetting E s = "powershell" then
        (.ok "Microsoft Office (PowerShell)", afterLabelSetting E s)
      else (.ok "Microsoft Office (Auto)", afterLabelSetting E s) := by
  simp only [getConversionMethod, bind_eq, bind_run, getSetting, labelSetting,
    afterLabelSetting, pure_eq]
  split_ifs <;> first | rfl | skip
  rw [bind_run]
  generalize checkOfficeAvailability P E _ = x
  rcases x with ⟨r, s1⟩
  cases r <;> rfl

/-- The label in terms of the setting and of the probe's answer. -/
theorem getConversionMethod_label (P : NodeLib) (E : Env) (s : State) :
    (getConversionMethod P E s).1 =
      .ok (if labelSetting E s = "native" ∨ (labelSetting E s = "auto" ∧
            (checkOfficeAvailability P E (afterLabelSetting E s)).1 = .ok (some true)) then
          "Microsoft Office (VBS)"
        else if labelSetting E s = "auto" ∨ labelSetting E s = "powershell" then
          "Microsoft Office (PowerShell)"
        else "Microsoft Office (Auto)") := by
  rw [getConversionMethod_run]
  obtain ⟨b, hb, -⟩ := checkOfficeAvailability_resolves P E (afterLabelSetting E s)
  by_cases h1 : labelSetting E s = "auto"
  · rcases hx : checkOfficeAvailability P E (afterLabelSetting E s) with ⟨r, s1⟩
    rw [hx] at hb
    simp only at hb
    subst hb
    cases b <;> simp [h1]
  · by_cases h2 : labelSetting E s = "native"
    · simp [h2]
    · by_cases h3 : labelSetting E s = "powershell"
      · simp [h3]
      · simp [h1, h2, h3]

/-- The first attempt of `convertOfficeToPDF`, on Windows or when the method does not
resolve to `native`. -/
theorem firstAttempt_convertOfficeToPDF (P : NodeLib) (E : Env)
    (inputPath outputPath : String) (s : State)
    (hplat : s.this.isWindows = true ∨ (resolved P E inputPath outputPath s).1 ≠ "native") :
    firstAttempt (newEvents (convertOfficeToPDF P E inputPath outputPath) s) =
      some (if (resolved P E inputPath outputPath s).1 = "native" then .convertOfficeViaCOM
        else .convertOfficeViaPowerShell) := by
  unfold firstAttempt
  by_cases hm : (resolved P E inputPath outputPath s).1 = "native"
  · rcases hplat with hw | hne
    · rw [attemptsIn_convertOfficeToPDF_windows P E inputPath outputPath s hw, if_pos hm,
        if_pos hm]
      cases (convertOfficeViaCOM P E inputPath outputPath
        (resolved P E inputPath outputPath s).2).1 <;> rfl
    · exact absurd hm hne
  · rw [attemptsIn_convertOfficeToPDF_scripted P E inputPath outputPath s hm, if_neg hm]
    rfl

set_option maxRecDepth 100000 in
/-- C23 as stated fails for a settings value that is none of `auto`, `native` and
`powershell`: with the value `vbs`, `convertOfficeToPDF` first invokes the scripted
conversion, but `getConversionMethod` returns `Microsoft Office (Auto)`, not
`Microsoft Office (PowerShell)`. -/
theorem getConversionMethod_other_value :
    labelSetting otherSettingEnv windowsStart = "vbs" ∧
    configuredMethod otherSettingEnv "a.docx" "out/a.pdf" windowsStart = "vbs" ∧
    firstAttempt (newEvents (convertOfficeToPDF posixPath otherSettingEnv "a.docx"
      "out/a.pdf") windowsStart) = some .convertOfficeViaPowerShell ∧
    (getConversionMethod posixPath otherSettingEnv windowsStart).1 =
      .ok "Microsoft Office (Auto)" ∧
    (getConversionMethod posixPath otherSettingEnv windowsStart).1 ≠
      .ok "Microsoft Office (PowerShell)" := by
  refine ⟨by decide, by decide, by decide, by decide, by decide⟩

/-- C23, amended: let the label be asked for and the conversion be run under the same
setting and the same answer of the probe.  When the setting is `auto`, `native` or
`powershell`, and the platform is Windows or the method does not resolve to `native`,
`getConversionMethod` returns `Microsoft Office (VBS)` exactly when `convertOfficeToPDF`
first invokes the resident conversion and `Microsoft Office (PowerShell)` exactly when it
first invokes the scripted conversion.  For every other setting `getConversionMethod`
returns `Microsoft Office (Auto)`. -/
theorem getConversionMethod_describes (P : NodeLib) (E : Env)
    (inputPath outputPath : String) (s : State)
    (hsetting : labelSetting E s = configuredMethod E inputPath outputPath s)
    (hprobe : (checkOfficeAvailability P E (afterLabelSetting E s)).1 =
      (checkOfficeAvailability P E (afterSetting E inputPath outputPath s)).1) :
    (labelSetting E s ∈ ["auto", "native", "powershell"] →
      (s.this.isWindows = true ∨ (resolved P E inputPath outputPath s).1 ≠ "native") →
      ((getConversionMethod P E s).1 = .ok "Microsoft Office (VBS)" ↔
        firstAttempt (newEvents (convertOfficeToPDF P E inputPath outputPath) s) =
          some .convertOfficeViaCOM) ∧
      ((getConversionMethod P E s).1 = .ok "Microsoft Office (PowerShell)" ↔
        firstAttempt (newEvents (convertOfficeToPDF P E inputPath outputPath) s) =
          some .convertOfficeViaPowerShell)) ∧
    (labelSetting E s ∉ ["auto", "native", "powershell"] →
      (getConversionMethod P E s).1 = .ok "Microsoft Office (Auto)") := by
  have hlabel := getConversionMethod_label P E s
  have hnat := resolved_native_iff P E inputPath outputPath s
  rw [← hsetting, ← hprobe] at hnat
  constructor
  · intro hknown hplat
    rw [firstAttempt_convertOfficeToPDF P E inputPath outputPath s hplat, hlabel]
    simp only [List.mem_cons, List.mem_singleton, List.not_mem_nil, or_false] at hknown
    by_cases hm : (resolved P E inputPath outputPath s).1 = "native"
    · have hc := hnat.mp hm
      simp [hm, hc]
    · have hc : ¬ (labelSetting E s = "native" ∨ (labelSetting E s = "auto" ∧
          (checkOfficeAvailability P E (afterLabelSetting E s)).1 = .ok (some true))) :=
        fun h => hm (hnat.mpr h)
      have hk : labelSetting E s = "auto" ∨ labelSetting E s = "powershell" := by
        rcases hknown with h | h | h
        · exact Or.inl h
        · exact absurd (Or.inl h) hc
        · exact Or.inr h
      simp [hm, hc, hk]
  · intro hother
    simp only [List.mem_cons, List.mem_singleton, List.not_mem_nil, or_false, not_or] at hother
    rw [hlabel]
    simp [hother.1, hother.2.1, hother.2.2]

set_option maxRecDepth 100000 in
theorem getConversionMethod_describes_witness :
    ((getConversionMethod posixPath sampleEnv windowsStart).1 = .ok "Microsoft Office (VBS)" ↔
      firstAttempt (newEvents (convertOfficeToPDF posixPath sampleEnv "a.docx" "out/a.pdf")
        windowsStart) = some .convertOfficeViaCOM) ∧
    ((getConversionMethod posixPath sampleEnv windowsStart).1 =
        .ok "Microsoft Office (PowerShell)" ↔
      firstAttempt (newEvents (convertOfficeToPDF posixPath sampleEnv "a.docx" "out/a.pdf")
        windowsStart) = some .convertOfficeViaPowerShell) :=
  (getConversionMethod_describes posixPath sampleEnv "a.docx" "out/a.pdf" windowsStart
    (by decide) (by decide)).1 (by decide) (Or.inl rfl)

/-! ## Uniform scaling -/

/-- A quotient that is at most `M` rounds to an integer that is at most `M`. -/
theorem roundNearestEven_le (n d M : Nat) (hd : 0 < d) (h : n ≤ M * d) :
    roundNearestEven n d ≤ M := by
  have hq : n / d ≤ M := Nat.div_le_of_le_mul (by rw [Nat.mul_comm]; exact h)
  have hdm := Nat.div_add_mod n d
  have hup : 0 < n % d → n / d + 1 ≤ M := by
    intro hr
    have h1 : d * (n / d) < d * M := by
      have : d * (n / d) < n := by omega
      calc d * (n / d) < n := this
        _ ≤ M * d := h
        _ = d * M := Nat.mul_comm _ _
    exact Nat.lt_of_mul_lt_mul_left h1
  unfold roundNearestEven
  simp only
  split_ifs with h1 h2 h3
  · exact hq
  · exact hup (by omega)
  · exact hq
  · exact hup (by omega)

/-- The value of a rounded positive fraction: the rounded significand, scaled back. -/
theorem roundToDouble_toRat (n den : Nat) (hn : 0 < n) :
    (roundToDouble (n : Int) den).toRat =
      ((roundNearestEven (n * 2 ^ (52 - binaryExponent n den).toNat)
          (den * 2 ^ (-(52 - binaryExponent n den)).toNat) : Nat) : ℚ) *
        ((2 ^ (-(52 - binaryExponent n den)).toNat : Nat) : ℚ) /
        ((2 ^ (52 - binaryExponent n den).toNat : Nat) : ℚ) := by
  have hne : ¬ ((n : Int) = 0) := by omega
  have hnn : ¬ ((n : Int) < 0) := by omega
  unfold roundToDouble
  simp only [hne, hnn, if_false, Int.natAbs_ofNat, one_mul]
  set k : Int := 52 - binaryExponent n den with hk
  set A : Nat := 2 ^ k.toNat with hA
  set B : Nat := 2 ^ (-k).toNat with hB
  set m : Nat := roundNearestEven (n * A) (den * B) with hm
  have hA0 : 0 < A := by positivity
  have hAq : (0 : ℚ) < A := by exact_mod_cast hA0
  set g := Nat.gcd (m * B) A with hg
  have hg0 : 0 < g := Nat.gcd_pos_of_pos_right _ hA0
  have hgq : (g : ℚ) ≠ 0 := by exact_mod_cast hg0.ne'
  unfold JsNumber.toRat
  simp only [Int.cast_natCast]
  rw [Nat.cast_div (Nat.gcd_dvd_left _ _) hgq, Nat.cast_div (Nat.gcd_dvd_right _ _) hgq]
  push_cast
  field_simp

/-- Rounding never passes an integer below `2 ^ 53`: a positive value that is at most `N`
rounds to a number that is at most `N`. -/
theorem roundToDouble_le_nat (num : Int) (den N : Nat) (hnum : 0 < num) (hden : 0 < den)
    (hN : N < 2 ^ 53) (hle : num ≤ (N : Int) * den) :
    (roundToDouble num den).toRat ≤ N := by
  obtain ⟨n, rfl⟩ := Int.eq_ofNat_of_zero_le hnum.le
  have hn : 0 < n := by exact_mod_cast hnum
  have hle' : n ≤ N * den := by exact_mod_cast hle
  have hdq : (0 : ℚ) < den := by exact_mod_cast hden
  have hexp : binaryExponent n den ≤ 52 := by
    by_contra hc
    have h53 : (53 : Int) ≤ binaryExponent n den := by omega
    have h1 := binaryExponent_le n den hn hden
    have h2 : (2 : ℚ) ^ (53 : Nat) ≤ (2 : ℚ) ^ binaryExponent n den := by
      have := zpow_le_zpow_right₀ (by norm_num : (1 : ℚ) ≤ 2) h53
      rwa [show (53 : Int) = ((53 : Nat) : Int) from rfl, zpow_natCast] at this
    have h3 : (n : ℚ) / den ≤ N := by
      rw [div_le_iff₀ hdq]
      exact_mod_cast hle'
    have h4 : (N : ℚ) < (2 : ℚ) ^ (53 : Nat) := by exact_mod_cast hN
    linarith
  rw [roundToDouble_toRat n den hn]
  have hk0 : 0 ≤ 52 - binaryExponent n den := by omega
  have hneg : (-(52 - binaryExponent n den)).toNat = 0 := by
    apply Int.toNat_eq_zero.mpr
    omega
  rw [hneg]
  simp only [pow_zero, Nat.mul_one, Nat.cast_one, mul_one]
  set A : Nat := 2 ^ (52 - binaryExponent n den).toNat with hA
  have hA0 : 0 < A := by positivity
  have hAq : (0 : ℚ) < A := by exact_mod_cast hA0
  have hm : roundNearestEven (n * A) den ≤ N * A := by
    apply roundNearestEven_le _ _ _ hden
    calc n * A ≤ N * den * A := Nat.mul_le_mul_right _ hle'
      _ = N * A * den := by ring
  rw [div_le_iff₀ hAq]
  exact_mod_cast hm

/-- A side that is an integer below `2 ^ 53`, scaled by a ratio of at most one, does not
grow. -/
theorem jsMul_le_left (n : Nat) (s : JsNumber) (hn : 0 < n) (hN : n < 2 ^ 53) (hs : s.Pos)
    (hle : s.toRat ≤ 1) : (jsMul (.ofNat n) s).toRat ≤ n := by
  have hden : (0 : ℚ) < s.den := by exact_mod_cast hs.2
  have h1 : s.num ≤ (s.den : Int) := by
    unfold JsNumber.toRat at hle
    rw [div_le_one hden] at hle
    exact_mod_cast hle
  unfold jsMul
  apply roundToDouble_le_nat _ _ n _ _ hN
  · simp only [JsNumber.ofNat]
    push_cast
    rw [one_mul]
    exact mul_le_mul_of_nonneg_left h1 (by positivity)
  · simp only [JsNumber.ofNat]
    exact mul_pos (by exact_mod_cast hn) hs.1
  · simp only [JsNumber.ofNat]
    exact Nat.mul_pos Nat.one_pos hs.2

set_option maxRecDepth 100000 in
/-- C22 as stated fails in the arithmetic of the code: a bitmap of 556 by 1 pixels is
drawn 555 wide and `4495499628040693 / 2 ^ 52` high, and `555 * 1` is not that height
times 556: the two sides are not scaled by exactly the same factor. -/
theorem imageLayout_aspect_rounding :
    (imageLayout 556 1).width = 555 ∧
    (imageLayout 556 1).height = ⟨4495499628040693, 4503599627370496⟩ ∧
    (imageLayout 556 1).width.toRat * 1 ≠ (imageLayout 556 1).height.toRat * 556 ∧
    (imageLayout 556 1).width.toRat / 556 ≠ (imageLayout 556 1).height.toRat / 1 := by
  have h1 : (imageLayout 556 1).width = 555 := by decide
  have h2 : (imageLayout 556 1).height = ⟨4495499628040693, 4503599627370496⟩ := by decide
  have h3 : (555 : JsNumber).toRat = 555 := toRat_ofNat 555
  refine ⟨h1, h2, ?_, ?_⟩
  · rw [h1, h2, h3]
    norm_num [JsNumber.toRat]
  · rw [h1, h2, h3]
    norm_num [JsNumber.toRat]

/-- C22, amended: for every bitmap of `w` by `h` pixels, `w, h > 0`, the two sides are
multiplied, as JavaScript numbers, by one factor `s` with `0 < s ≤ 1`, which is `1`
exactly when `w ≤ 555` and `h ≤ 802`; the drawn width is at most `w` and the drawn height
at most `h`; and the aspect ratio is kept up to rounding: `width * h` and `height * w`
differ by at most `w * h / 2 ^ 52`. -/
theorem imageLayout_uniform_scale (w h : Nat) (hw : 0 < w) (hh : 0 < h) :
    let s : JsNumber :=
      if 555 < w ∨ 802 < h then mathMin (jsDiv 555 (.ofNat w)) (jsDiv 802 (.ofNat h))
      else 1
    0 < s.toRat ∧ s.toRat ≤ 1 ∧ (s.toRat = 1 ↔ w ≤ 555 ∧ h ≤ 802) ∧
    (imageLayout w h).width = jsMul (.ofNat w) s ∧
    (imageLayout w h).height = jsMul (.ofNat h) s ∧
    (imageLayout w h).width.toRat ≤ w ∧
    (imageLayout w h).height.toRat ≤ h ∧
    |(imageLayout w h).width.toRat * h - (imageLayout w h).height.toRat * w| ≤
      (w : ℚ) * h / 2 ^ 52 := by
  intro s
  have hW := ofNat_pos w hw
  have hH := ofNat_pos h hh
  have hwq : (0 : ℚ) < w := by exact_mod_cast hw
  have hhq : (0 : ℚ) < h := by exact_mod_cast hh
  have h1 : (1 : JsNumber).toRat = 1 := toRat_ofNat 1
  by_cases hc : 555 < w ∨ 802 < h
  · have hs : s = mathMin (jsDiv 555 (.ofNat w)) (jsDiv 802 (.ofNat h)) := if_pos hc
    obtain ⟨hsx, -, hbx⟩ := scaled_near (.ofNat w) 555 hW (by norm_num)
    obtain ⟨hsy, -, hby⟩ := scaled_near (.ofNat h) 802 hH (by norm_num)
    rw [toRat_ofNat] at hbx hby
    simp only [Nat.cast_ofNat] at hbx hby
    have hbx : (w : ℚ) * (jsDiv 555 (.ofNat w)).toRat ≤ 555 + 555 / 2 ^ 53 := hbx
    have hby : (h : ℚ) * (jsDiv 802 (.ofNat h)).toRat ≤ 802 + 802 / 2 ^ 53 := hby
    have hmin : s.Pos ∧ s.toRat ≤ (jsDiv 555 (.ofNat w)).toRat ∧
        s.toRat ≤ (jsDiv 802 (.ofNat h)).toRat := by
      rw [hs]
      rcases mathMin_cases (jsDiv 555 (.ofNat w)) (jsDiv 802 (.ofNat h)) hsx hsy with
        ⟨hm, hle⟩ | ⟨hm, hle⟩
      · rw [hm]
        exact ⟨hsx, le_rfl, hle⟩
      · rw [hm]
        exact ⟨hsy, hle, le_rfl⟩
    obtain ⟨hsp, hlex, hley⟩ := hmin
    have hs0 := toRat_pos s hsp
    have hlt : s.toRat < 1 := by
      rcases hc with hcw | hch
      · have hw556 : (556 : ℚ) ≤ w := by exact_mod_cast hcw
        have hk : (555 : ℚ) + 555 / 2 ^ 53 < 556 := by norm_num
        have : (w : ℚ) * s.toRat < (w : ℚ) * 1 := by
          have := mul_le_mul_of_nonneg_left hlex hwq.le
          linarith
        exact lt_of_mul_lt_mul_left this hwq.le
      · have hh803 : (803 : ℚ) ≤ h := by exact_mod_cast hch
        have hk : (802 : ℚ) + 802 / 2 ^ 53 < 803 := by norm_num
        have : (h : ℚ) * s.toRat < (h : ℚ) * 1 := by
          have := mul_le_mul_of_nonneg_left hley hhq.le
          linarith
        exact lt_of_mul_lt_mul_left this hhq.le
    have hlay := imageLayout_scaled w h hc
    rw [← hs] at hlay
    have hwidth : (imageLayout w h).width = jsMul (.ofNat w) s := by rw [hlay]
    have hheight : (imageLayout w h).height = jsMul (.ofNat h) s := by rw [hlay]
    obtain ⟨-, hnw⟩ := jsMul_near (.ofNat w) s hW hsp
    obtain ⟨-, hnh⟩ := jsMul_near (.ofNat h) s hH hsp
    rw [toRat_ofNat] at hnw hnh
    refine ⟨hs0, hlt.le, ?_, hwidth, hheight, ?_, ?_, ?_⟩
    · constructor
      · intro h1'
        exact absurd h1' hlt.ne
      · rintro ⟨a, b⟩
        omega
    · rw [hwidth]
      by_cases hcw : 555 < w
      · have := (scaled_le (.ofNat w) s 555 hW hsp (by norm_num) hlex).2
        simp only [Nat.cast_ofNat] at this
        have hw556 : (556 : ℚ) ≤ w := by exact_mod_cast hcw
        have hk : (555 : ℚ) + 3 * 555 / 2 ^ 53 < 556 := by norm_num
        linarith
      · exact jsMul_le_left w s hw (lt_of_le_of_lt (not_lt.mp hcw) (by norm_num)) hsp hlt.le
    · rw [hheight]
      by_cases hch : 802 < h
      · have := (scaled_le (.ofNat h) s 802 hH hsp (by norm_num) hley).2
        simp only [Nat.cast_ofNat] at this
        have hh803 : (803 : ℚ) ≤ h := by exact_mod_cast hch
        have hk : (802 : ℚ) + 3 * 802 / 2 ^ 53 < 803 := by norm_num
        linarith
      · exact jsMul_le_left h s hh (lt_of_le_of_lt (not_lt.mp hch) (by norm_num)) hsp hlt.le
    · rw [hwidth, hheight]
      set a := (jsMul (.ofNat w) s).toRat
      set b := (jsMul (.ofNat h) s).toRat
      set t := s.toRat
      have e1 : (w : ℚ) * t / 2 ^ 53 = (w : ℚ) * t * (1 / 2 ^ 53) := by ring
      have e2 : (h : ℚ) * t / 2 ^ 53 = (h : ℚ) * t * (1 / 2 ^ 53) := by ring
      have e3 : (w : ℚ) * h / 2 ^ 52 = 2 * ((w : ℚ) * h * (1 / 2 ^ 53)) := by ring
      rw [e1] at hnw
      rw [e2] at hnh
      rw [e3]
      have hu : (0 : ℚ) < 1 / 2 ^ 53 := by positivity
      set u : ℚ := 1 / 2 ^ 53
      obtain ⟨a1, a2⟩ := abs_le.mp hnw
      obtain ⟨b1, b2⟩ := abs_le.mp hnh
      have p1 := mul_le_mul_of_nonneg_right a1 hhq.le
      have p2 := mul_le_mul_of_nonneg_right a2 hhq.le
      have p3 := mul_le_mul_of_nonneg_right b1 hwq.le
      have p4 := mul_le_mul_of_nonneg_right b2 hwq.le
      have p5 : (w : ℚ) * t * u * h ≤ (w : ℚ) * h * u := by
        have hwhu : 0 ≤ (w : ℚ) * h * u := by positivity
        nlinarith [mul_le_mul_of_nonneg_left hlt.le hwhu]
      clear_value a b t u
      rw [abs_le]
      constructor <;> linarith
  · have hs : s = 1 := if_neg hc
    have hw' : w ≤ 555 := by omega
    have hh' : h ≤ 802 := by omega
    have hlay := imageLayout_unscaled w h hc
    have hwidth : (imageLayout w h).width = .ofNat w := by rw [hlay]
    have hheight : (imageLayout w h).height = .ofNat h := by rw [hlay]
    rw [hs, h1, hwidth, hheight, jsMul_one_of_fits w (by omega), jsMul_one_of_fits h (by omega),
      toRat_ofNat, toRat_ofNat]
    refine ⟨by norm_num, le_rfl, ⟨fun _ => ⟨hw', hh'⟩, fun _ => rfl⟩, rfl, rfl, le_rfl, le_rfl,
      ?_⟩
    rw [mul_comm (h : ℚ) w, sub_self, abs_zero]
    positivity

set_option maxRecDepth 100000 in
theorem imageLayout_uniform_scale_witness :
    0 < 556 ∧ 0 < 1 ∧
    (imageLayout 556 1).width.toRat ≤ (556 : Nat) ∧
    (imageLayout 556 1).height.toRat ≤ (1 : Nat) ∧
    |(imageLayout 556 1).width.toRat * (1 : Nat) - (imageLayout 556 1).height.toRat * (556 : Nat)| ≤
      ((556 : Nat) : ℚ) * (1 : Nat) / 2 ^ 52 :=
  ⟨by decide, by decide,
   (imageLayout_uniform_scale 556 1 (by decide) (by decide)).2.2.2.2.2.1,
   (imageLayout_uniform_scale 556 1 (by decide) (by decide)).2.2.2.2.2.2.1,
   (imageLayout_uniform_scale 556 1 (by decide) (by decide)).2.2.2.2.2.2.2⟩

/-! ## Temp file names are told apart by operation and clock -/

/-- One iteration of the loop of `normalizeString` inside the path: another state goes on
at the next index, and after a separator `lastSlash` is that index and `dots` is `0`. -/
theorem normalizeLoop_step (sep : Char) (isSep : Char → Bool) (path : List Char)
    (allow : Bool) (fuel i : Nat) (st : NormState) (hi : i < path.length) :
    ∃ st1, normalizeLoop sep isSep path allow (fuel + 1) i st =
        normalizeLoop sep isSep path allow fuel (i + 1) st1 ∧
      (isSep (path.getD i ' ') = true → st1.lastSlash = (i : Int) ∧ st1.dots = 0) := by
  rw [normalizeLoop]
  simp only [hi, true_or, if_true]
  split_ifs <;>
    first
    | exact ⟨_, rfl, fun _ => ⟨rfl, rfl⟩⟩
    | exact ⟨_, rfl, fun h1 => by simp_all⟩

/-- Any number of iterations inside the path lead to some state at the index reached. -/
theorem normalizeLoop_steps (sep : Char) (isSep : Char → Bool) (path : List Char)
    (allow : Bool) (fuel : Nat) :
    ∀ (k i : Nat) (st : NormState), i + k ≤ path.length →
      ∃ st1, normalizeLoop sep isSep path allow (fuel + k) i st =
        normalizeLoop sep isSep path allow fuel (i + k) st1 := by
  intro k
  induction k with
  | zero => exact fun i st _ => ⟨st, rfl⟩
  | succ k ih =>
    intro i st h
    obtain ⟨st1, h1, -⟩ := normalizeLoop_step sep isSep path allow (fuel + k) i st (by omega)
    obtain ⟨st2, h2⟩ := ih (i + 1) st1 (by omega)
    refine ⟨st2, ?_⟩
    rw [show fuel + (k + 1) = fuel + k + 1 from rfl, h1, h2,
      show i + 1 + k = i + (k + 1) by omega]

/-- One iteration at a character of a segment that cannot be a dot segment. -/
theorem normalizeLoop_plain (sep : Char) (isSep : Char → Bool) (path : List Char)
    (allow : Bool) (fuel i : Nat) (st : NormState) (hi : i < path.length)
    (hc : isSep (path.getD i ' ') = false) (hd : path.getD i ' ' ≠ '.' ∨ st.dots = -1) :
    normalizeLoop sep isSep path allow (fuel + 1) i st =
      normalizeLoop sep isSep path allow fuel (i + 1)
        { st with code := path.getD i ' ', dots := -1 } := by
  rw [normalizeLoop]
  simp only [hi, true_or, if_true, hc, Bool.false_eq_true, if_false]
  rw [if_neg]
  rintro ⟨h1, h2⟩
  rcases hd with hd | hd
  · exact hd h1
  · exact h2 hd

/-- The iterations over characters none of which is a separator, once `dots` is `-1`. -/
theorem normalizeLoop_segment (sep : Char) (isSep : Char → Bool) (path : List Char)
    (allow : Bool) (fuel : Nat) :
    ∀ (k i : Nat) (st : NormState), i + k ≤ path.length →
      (∀ j, i ≤ j → j < i + k → isSep (path.getD j ' ') = false) →
      st.dots = -1 → isSep st.code = false →
      ∃ st1, normalizeLoop sep isSep path allow (fuel + k) i st =
          normalizeLoop sep isSep path allow fuel (i + k) st1 ∧
        st1.res = st.res ∧ st1.lastSlash = st.lastSlash ∧ st1.dots = -1 ∧
        isSep st1.code = false := by
  intro k
  induction k with
  | zero => exact fun i st _ _ hd hcode => ⟨st, rfl, rfl, rfl, hd, hcode⟩
  | succ k ih =>
    intro i st h hseg hd hcode
    have hc := hseg i le_rfl (by omega)
    have h1 := normalizeLoop_plain sep isSep path allow (fuel + k) i st (by omega) hc (Or.inr hd)
    obtain ⟨st2, h2, hres, hslash, hdots, hcode2⟩ := ih (i + 1)
      { st with code := path.getD i ' ', dots := -1 } (by omega)
      (fun j hj1 hj2 => hseg j (by omega) (by omega)) rfl hc
    refine ⟨st2, ?_, hres, hslash, hdots, hcode2⟩
    rw [show fuel + (k + 1) = fuel + k + 1 from rfl, h1, h2,
      show i + 1 + k = i + (k + 1) by omega]

/-- The last iteration, at the end of the path, after a segment that is no dot segment:
the segment is appended to the result. -/
theorem normalizeLoop_end (isSep : Char → Bool) (path : List Char)
    (allow : Bool) (fuel : Nat) (st : NormState) (hsep : isSep '/' = true)
    (hcode : isSep st.code = false) (hslash : st.lastSlash ≠ (path.length : Int) - 1)
    (hd : st.dots = -1) :
    normalizeLoop '/' isSep path allow (fuel + 1) path.length st =
      if 0 < st.res.length then
        st.res ++ ('/' :: slice path (st.lastSlash + 1).toNat path.length)
      else slice path (st.lastSlash + 1).toNat path.length := by
  rw [normalizeLoop]
  simp only [lt_irrefl, false_or, hcode, if_true, if_false, hsep, hslash, hd]
  norm_num
  cases fuel with
  | zero => rfl
  | succ fuel =>
    rw [normalizeLoop]
    simp [hsep]

/-- The loop of `normalizeString` on a path that ends with a plain name after a separator
(or is that name): the name is the last segment of the result. -/
theorem normalizeString_plain (pre n : List Char) (allow : Bool)
    (hpre : pre = [] ∨ ∃ d, pre = d ++ ['/']) (hn : n ≠ [])
    (hdot : n.head? ≠ some '.') (hseg : ∀ c ∈ n, c ≠ '/') :
    normalizeString '/' isPosixPathSeparator (pre ++ n) allow = n ∨
    ∃ Y, normalizeString '/' isPosixPathSeparator (pre ++ n) allow = Y ++ '/' :: n := by
  obtain ⟨c0, rest, rfl⟩ := List.exists_cons_of_ne_nil hn
  have hlen : (pre ++ c0 :: rest).length = pre.length + (rest.length + 1) := by simp
  have hget : ∀ j, j < rest.length + 1 →
      (pre ++ c0 :: rest).getD (pre.length + j) ' ' ∈ c0 :: rest := by
    intro j hj
    rw [List.getD_append_right _ _ _ _ (by omega), Nat.add_sub_cancel_left,
      List.getD_eq_getElem _ _ (by simpa using hj)]
    exact List.getElem_mem _
  have hnosep : ∀ j, j < rest.length + 1 →
      isPosixPathSeparator ((pre ++ c0 :: rest).getD (pre.length + j) ' ') = false := by
    intro j hj
    have := hseg _ (hget j hj)
    simpa [isPosixPathSeparator] using this
  have hfirst : (pre ++ c0 :: rest).getD pre.length ' ' = c0 := by
    rw [List.getD_append_right _ _ _ _ le_rfl, Nat.sub_self]
    rfl
  have hc0 : c0 ≠ '.' := by
    intro h
    exact hdot (by rw [h]; rfl)
  -- the iterations over the folder part
  have hstart : ∃ st1, normalizeString '/' isPosixPathSeparator (pre ++ c0 :: rest) allow =
        normalizeLoop '/' isPosixPathSeparator (pre ++ c0 :: rest) allow
          (rest.length + 1 + 1) pre.length st1 ∧
      st1.lastSlash = (pre.length : Int) - 1 ∧ st1.dots = 0 := by
    rcases hpre with rfl | ⟨d, rfl⟩
    · refine ⟨⟨[], 0, -1, 0, Char.ofNat 0⟩, ?_, by simp, rfl⟩
      rw [normalizeString]
      simp
    · obtain ⟨sta, ha⟩ := normalizeLoop_steps '/' isPosixPathSeparator
        (d ++ ['/'] ++ c0 :: rest) allow (rest.length + 1 + 1 + 1) d.length 0
        { res := [], lastSegmentLength := 0, lastSlash := -1, dots := 0, code := Char.ofNat 0 }
        (by simp)
      obtain ⟨st1, h1, hp⟩ := normalizeLoop_step '/' isPosixPathSeparator
        (d ++ ['/'] ++ c0 :: rest) allow (rest.length + 1 + 1) d.length sta (by simp)
      have hchar : (d ++ ['/'] ++ c0 :: rest).getD d.length ' ' = '/' := by
        rw [List.append_assoc, List.getD_append_right _ _ _ _ le_rfl, Nat.sub_self]
        rfl
      obtain ⟨hs, hd⟩ := hp (by rw [hchar]; rfl)
      refine ⟨st1, ?_, ?_, hd⟩
      · rw [normalizeString, hlen,
          show (d ++ ['/']).length + (rest.length + 1) + 1 =
            rest.length + 1 + 1 + 1 + d.length by simp; omega, ha, Nat.zero_add, h1]
        simp
      · rw [hs]
        simp
  obtain ⟨st1, h1, hs1, hd1⟩ := hstart
  -- the first character of the name
  have h2 := normalizeLoop_plain '/' isPosixPathSeparator (pre ++ c0 :: rest) allow
    (rest.length + 1) pre.length st1 (by rw [hlen]; omega)
    (by simpa using hnosep 0 (by omega)) (Or.inl (by rw [hfirst]; exact hc0))
  -- the other characters of the name
  obtain ⟨st3, h3, hres, hslash, hdots, hcode⟩ := normalizeLoop_segment '/'
    isPosixPathSeparator (pre ++ c0 :: rest) allow 1 rest.length (pre.length + 1)
    { st1 with code := (pre ++ c0 :: rest).getD pre.length ' ', dots := -1 }
    (by rw [hlen]; omega)
    (fun j hj1 hj2 => by
      have := hnosep (j - pre.length) (by omega)
      rwa [show pre.length + (j - pre.length) = j by omega] at this)
    rfl (by simpa using hnosep 0 (by omega))
  have hend : normalizeLoop '/' isPosixPathSeparator (pre ++ c0 :: rest) allow 1
      (pre ++ c0 :: rest).length st3 = _ :=
    normalizeLoop_end isPosixPathSeparator (pre ++ c0 :: rest) allow 0 st3 rfl
      hcode (by rw [hslash, hs1, hlen]; push_cast; omega) hdots
  have hslice : slice (pre ++ c0 :: rest) (st3.lastSlash + 1).toNat
      (pre ++ c0 :: rest).length = c0 :: rest := by
    rw [hslash, hs1, show (pre.length : Int) - 1 + 1 = (pre.length : Int) by ring,
      Int.toNat_ofNat, slice, List.take_length, List.drop_left]
  rw [Nat.add_comm 1 rest.length,
    show pre.length + 1 + rest.length = (pre ++ c0 :: rest).length by rw [hlen]; omega] at h3
  rw [h1, h2, h3, hend, hslice]
  split_ifs
  · exact Or.inr ⟨_, rfl⟩
  · exact Or.inl rfl

/-- The value of `path.posix.join(dir, name)` for a plain name: the name is its last
segment. -/
theorem posixJoin_plain (dir n : List Char) (hn : n ≠ [])
    (hdot : n.head? ≠ some '.') (hseg : ∀ c ∈ n, c ≠ '/') :
    posixJoin [dir, n] = n ∨ ∃ Y, posixJoin [dir, n] = Y ++ '/' :: n := by
  have hnlen : 0 < n.length := List.length_pos.mpr hn
  have hjoined : ∃ pre, (pre = [] ∨ ∃ d, pre = d ++ ['/']) ∧
      posixJoin [dir, n] = posixNormalize (pre ++ n) := by
    by_cases hdir : 0 < dir.length
    · refine ⟨dir ++ ['/'], Or.inr ⟨dir, rfl⟩, ?_⟩
      simp [posixJoin, posixJoinLoop, hdir, hnlen]
    · refine ⟨[], Or.inl rfl, ?_⟩
      simp [posixJoin, posixJoinLoop, hdir, hnlen]
  obtain ⟨pre, hpre, hj⟩ := hjoined
  rw [hj]
  have hlast : (pre ++ n).getD ((pre ++ n).length - 1) ' ' ≠ '/' := by
    apply hseg
    have e : (pre ++ n).length - 1 = pre.length + (n.length - 1) := by
      rw [List.length_append]
      omega
    rw [e, List.getD_append_right _ _ _ _ (Nat.le_add_right _ _), Nat.add_sub_cancel_left,
      List.getD_eq_getElem n ' ' (show n.length - 1 < n.length by omega)]
    exact List.getElem_mem _
  have hp := normalizeString_plain pre n
    (!decide ((pre ++ n).getD 0 ' ' = '/')) hpre hn hdot hseg
  have hlen0 : (pre ++ n).length ≠ 0 := by
    rw [List.length_append]
    omega
  unfold posixNormalize
  simp only [hlen0, if_false, hlast]
  rcases hp with hp | ⟨Y, hp⟩
  · rw [hp]
    have : n.length ≠ 0 := by omega
    simp only [this, if_false]
    split_ifs
    · exact Or.inr ⟨[], rfl⟩
    · exact Or.inl rfl
  · rw [hp]
    have : (Y ++ '/' :: n).length ≠ 0 := by simp
    simp only [this, if_false]
    split_ifs
    · exact Or.inr ⟨'/' :: Y, rfl⟩
    · exact Or.inr ⟨Y, rfl⟩

/-- The last segment of a path that ends with a name after a separator. -/
theorem splitPop_segment (Y n : List Char) (hseg : ∀ c ∈ n, c ≠ '/') :
    splitPop '/' n = n ∧ splitPop '/' (Y ++ '/' :: n) = n := by
  have key : ∀ (l rest : List Char), (∀ c ∈ l, c ≠ '/') →
      (rest = [] ∨ ∃ t, rest = '/' :: t) →
      (l ++ rest).takeWhile (fun c => decide (c ≠ '/')) = l := by
    intro l
    induction l with
    | nil =>
      rintro rest - (rfl | ⟨t, rfl⟩)
      · rfl
      · simp
    | cons a l ih =>
      intro rest h hr
      have ha := h a (List.mem_cons_self _ _)
      rw [List.cons_append, List.takeWhile_cons_of_pos (by simpa using ha),
        ih rest (fun c hc => h c (List.mem_cons_of_mem _ hc)) hr]
  have hrev : ∀ c ∈ n.reverse, c ≠ '/' := fun c hc => hseg c (List.mem_reverse.mp hc)
  constructor
  · have := key n.reverse [] hrev (Or.inl rfl)
    rw [List.append_nil] at this
    rw [splitPop, this, List.reverse_reverse]
  · have := key n.reverse ('/' :: Y.reverse) hrev (Or.inr ⟨_, rfl⟩)
    rw [splitPop, List.reverse_append, List.reverse_cons, List.append_assoc,
      List.singleton_append, this, List.reverse_reverse]

/-- What `plainName` checks. -/
theorem plainName_spec (name : String) (h : plainName name = true) :
    name.data ≠ [] ∧ name.data.head? ≠ some '.' ∧ ∀ c ∈ name.data, c ≠ '/' := by
  unfold plainName at h
  rcases hd : name.data with _ | ⟨c, cs⟩
  · rw [hd] at h
    cases h
  · rw [hd] at h
    simp only [Bool.and_eq_true, bne_iff_ne, ne_eq, List.all_eq_true] at h
    refine ⟨by simp, by simpa using h.1, fun x hx => ?_⟩
    have := h.2 x hx
    simp only [segmentChar, Bool.and_eq_true, bne_iff_ne, ne_eq] at this
    exact this.1

/-- The posix flavour of `path.join` separates plain names in every folder. -/
theorem posixPath_joinSeparates (dir : String) : JoinSeparates posixPath dir := by
  intro a b ha hb hab
  obtain ⟨ha1, ha2, ha3⟩ := plainName_spec a ha
  obtain ⟨hb1, hb2, hb3⟩ := plainName_spec b hb
  have hdata : posixJoin [dir.data, a.data] = posixJoin [dir.data, b.data] := by
    have := congrArg String.data hab
    simpa [posixPath] using this
  have hlast : ∀ n : List Char, n ≠ [] → n.head? ≠ some '.' → (∀ c ∈ n, c ≠ '/') →
      splitPop '/' (posixJoin [dir.data, n]) = n := by
    intro n h1 h2 h3
    rcases posixJoin_plain dir.data n h1 h2 h3 with h | ⟨Y, h⟩
    · rw [h]
      exact (splitPop_segment [] n h3).1
    · rw [h]
      exact (splitPop_segment Y n h3).2
  have := congrArg (splitPop '/') hdata
  rw [hlast a.data ha1 ha2 ha3, hlast b.data hb1 hb2 hb3] at this
  exact String.ext this

/-- Strings that differ at a position both have stay different whatever follows them. -/
theorem diverge_append : ∀ (p q x y : List Char), diverge p q = true → p ++ x ≠ q ++ y
  | a :: p, b :: q, x, y, h => by
    intro he
    simp only [diverge, Bool.or_eq_true, bne_iff_ne, ne_eq] at h
    simp only [List.cons_append, List.cons.injEq] at he
    rcases h with h | h
    · exact h he.1
    · exact diverge_append p q x y h he.2
  | [], _, _, _, h => by simp [diverge] at h
  | _ :: _, [], _, _, h => by simp [diverge] at h

/-- A decimal digit reads back as its value and is no separator. -/
theorem digitChar_spec (m : Nat) (h : m < 10) :
    (Nat.digitChar m).toNat - 48 = m ∧ segmentChar (Nat.digitChar m) = true := by
  interval_cases m <;> exact ⟨by decide, by decide⟩

/-- The decimal digits written by `toDigitsCore` read back as the number. -/
theorem toDigitsCore_spec : ∀ (fuel n : Nat) (ds : List Char), n < fuel →
    ∃ l, Nat.toDigitsCore 10 fuel n ds = l ++ ds ∧ decimalValue l = n ∧
      ∀ c ∈ l, segmentChar c = true := by
  intro fuel
  induction fuel with
  | zero => exact fun n ds h => absurd h (Nat.not_lt_zero n)
  | succ fuel ih =>
    intro n ds h
    obtain ⟨hv, hs⟩ := digitChar_spec (n % 10) (Nat.mod_lt n (by decide))
    simp only [Nat.toDigitsCore]
    split_ifs with h0
    · refine ⟨[Nat.digitChar (n % 10)], rfl, ?_, ?_⟩
      · simp only [decimalValue, List.foldl_cons, List.foldl_nil, hv]
        omega
      · intro c hc
        rw [List.mem_singleton.mp hc]
        exact hs
    · obtain ⟨l, hl, hval, hseg⟩ := ih (n / 10) (Nat.digitChar (n % 10) :: ds) (by omega)
      refine ⟨l ++ [Nat.digitChar (n % 10)], ?_, ?_, ?_⟩
      · rw [hl, List.append_assoc, List.singleton_append]
      · have : decimalValue l = n / 10 := hval
        simp only [decimalValue, List.foldl_append, List.foldl_cons, List.foldl_nil, hv] at this ⊢
        rw [this]
        omega
      · intro c hc
        rcases List.mem_append.mp hc with hc | hc
        · exact hseg c hc
        · rw [List.mem_singleton.mp hc]
          exact hs

/-- The text of a clock reading inside a file name: decimal digits that read back as the
reading. -/
theorem toString_spec (t : Nat) :
    decimalValue (toString t).data = t ∧ ∀ c ∈ (toString t).data, segmentChar c = true := by
  obtain ⟨l, hl, hv, hs⟩ := toDigitsCore_spec (t + 1) t [] (Nat.lt_succ_self t)
  have : (toString t).data = l := by
    rw [List.append_nil] at hl
    exact hl
  rw [this]
  exact ⟨hv, hs⟩

/-- A plain beginning followed by characters that are no separators is a plain name. -/
theorem plainName_append (pre mid suf : String) (hpre : plainName pre = true)
    (hmid : ∀ c ∈ mid.data, segmentChar c = true)
    (hsuf : suf.data.all segmentChar = true) : plainName (pre ++ mid ++ suf) = true := by
  unfold plainName at hpre ⊢
  simp only [String.data_append]
  rcases hd : pre.data with _ | ⟨c, cs⟩
  · rw [hd] at hpre
    cases hpre
  · rw [hd] at hpre
    simp only [Bool.and_eq_true, List.all_eq_true] at hpre hsuf
    simp only [List.cons_append, Bool.and_eq_true, List.all_eq_true]
    refine ⟨hpre.1, fun x hx => ?_⟩
    rw [← List.cons_append, ← List.cons_append] at hx
    rcases List.mem_append.mp hx with hx | hx
    · rcases List.mem_append.mp hx with hx | hx
      · exact hpre.2 x hx
      · exact hmid x hx
    · exact hsuf x hx

/-- Every temp file name of the converter is a plain name. -/
theorem tempName_plain (k : String × String) (hk : k ∈ tempKinds) (t : Nat) :
    plainName (k.1 ++ toString t ++ k.2) = true := by
  have hall : ∀ k ∈ tempKinds, plainName k.1 = true ∧ k.2.data.all segmentChar = true := by
    decide
  exact plainName_append k.1 (toString t) k.2 (hall k hk).1 (toString_spec t).2 (hall k hk).2

/-- Two temp file names are the same only for the same operation and the same clock
reading. -/
theorem tempName_injective (k1 k2 : String × String) (h1 : k1 ∈ tempKinds)
    (h2 : k2 ∈ tempKinds) (t1 t2 : Nat)
    (h : k1.1 ++ toString t1 ++ k1.2 = k2.1 ++ toString t2 ++ k2.2) :
    k1 = k2 ∧ t1 = t2 := by
  have hdiv : ∀ a ∈ tempKinds, ∀ b ∈ tempKinds, a ≠ b → diverge a.1.data b.1.data = true := by
    decide
  have hdata := congrArg String.data h
  simp only [String.data_append, List.append_assoc] at hdata
  have hk : k1 = k2 := by
    by_contra hne
    exact diverge_append _ _ _ _ (hdiv k1 h1 k2 h2 hne) hdata
  subst hk
  refine ⟨rfl, ?_⟩
  have hd := List.append_cancel_right (List.append_cancel_left hdata)
  have := congrArg decimalValue hd
  rwa [(toString_spec t1).1, (toString_spec t2).1] at this

/-- The shared runner tail writes and deletes at its own temp script only. -/
theorem writeAndExecute_touches (P : NodeLib) (E : Env) (pre suf script interp : String)
    (s : State) :
    ∀ p ∈ touchedPaths (newEvents (writeAndExecute P E pre suf script interp) s),
      p = scriptPath P E pre suf s.log := by
  intro p hp
  have hlog : (writeAndExecute P E pre suf script interp s).2.log =
        s.log ++ [.now (E.now s.log),
          .writeFile (scriptPath P E pre suf s.log) script
            (E.writeFile (s.log ++ [.now (E.now s.log)]) (scriptPath P E pre suf s.log) script)] ∨
      ∃ c r u, (writeAndExecute P E pre suf script interp s).2.log =
        s.log ++ [.now (E.now s.log),
          .writeFile (scriptPath P E pre suf s.log) script
            (E.writeFile (s.log ++ [.now (E.now s.log)]) (scriptPath P E pre suf s.log) script),
          .exec c r, .unlink (scriptPath P E pre suf s.log) u] := by
    rw [writeAndExecute_run]
    simp only [scriptPath]
    cases E.writeFile (s.log ++ [.now (E.now s.log)])
        (P.join [E.tmpdir, pre ++ toString (E.now s.log) ++ suf]) script with
    | error m => exact Or.inl (by simp)
    | ok v => exact Or.inr ⟨_, _, _, by simp only [List.append_assoc]; rfl⟩
  rcases hlog with h | ⟨c, r, u, h⟩
  · rw [newEvents_eq _ _ _ h] at hp
    simpa [touchedPaths] using hp
  · rw [newEvents_eq _ _ _ h] at hp
    simpa [touchedPaths] using hp

/-- The `try` block of the image pipeline deletes nothing. -/
theorem imageTry_unlinks (P : NodeLib) (E : Env) (inputPath outputPath png : String)
    (log1 : List Event) :
    ∃ d, (imageTry P E inputPath outputPath png log1).2 = log1 ++ d ∧
      unlinkedPaths d = [] := by
  unfold imageTry
  simp only [List.append_assoc]
  generalize E.exec _ _ = r1
  rcases r1 with v1 | m1
  swap
  · exact ⟨_, rfl, rfl⟩
  simp only []
  generalize E.access _ _ = r2
  rcases r2 with v2 | m2
  swap
  · exact ⟨_, rfl, rfl⟩
  simp only []
  generalize E.readFile _ _ = r3
  rcases r3 with v3 | m3
  swap
  · exact ⟨_, rfl, rfl⟩
  simp only []
  generalize E.embedPng _ = r4
  rcases r4 with v4 | m4
  swap
  · exact ⟨_, rfl, rfl⟩
  simp only []
  generalize E.savePdf _ = r5
  rcases r5 with v5 | m5
  swap
  · exact ⟨_, rfl, rfl⟩
  simp only []
  generalize E.writeFile _ _ _ = r6
  rcases r6 with v6 | m6
  · exact ⟨_, rfl, rfl⟩
  · exact ⟨_, rfl, rfl⟩

/-- The image pipeline deletes its own intermediate bitmap only. -/
theorem convertImageViaImageMagick_unlinks (P : NodeLib) (E : Env)
    (inputPath outputPath : String) (s : State) :
    ∀ p ∈ unlinkedPaths (newEvents (convertImageViaImageMagick P E inputPath outputPath) s),
      p = tempPngPath P E
        (s.log ++ [.call .convertImageViaImageMagick [inputPath, outputPath]]) := by
  intro p hp
  obtain ⟨d, hd, hnone⟩ := imageTry_unlinks P E inputPath outputPath
    (tempPngPath P E (s.log ++ [.call .convertImageViaImageMagick [inputPath, outputPath]]))
    (s.log ++ [.call .convertImageViaImageMagick [inputPath, outputPath]] ++
      [.now (E.now (s.log ++ [.call .convertImageViaImageMagick [inputPath, outputPath]]))])
  have hlog : ∃ u, (convertImageViaImageMagick P E inputPath outputPath s).2.log =
      s.log ++ ([.call .convertImageViaImageMagick [inputPath, outputPath],
        .now (E.now (s.log ++ [.call .convertImageViaImageMagick [inputPath, outputPath]]))] ++
        d ++ [.unlink (tempPngPath P E
          (s.log ++ [.call .convertImageViaImageMagick [inputPath, outputPath]])) u]) := by
    rw [convertImageViaImageMagick_run]
    simp only []
    rw [hd]
    exact ⟨_, by simp only [List.append_assoc]; rfl⟩
  obtain ⟨u, hlog⟩ := hlog
  rw [newEvents_eq _ _ _ hlog] at hp
  have hsplit : ∀ a b : List Event, unlinkedPaths (a ++ b) = unlinkedPaths a ++ unlinkedPaths b :=
    fun a b => List.filterMap_append _ _ _
  rw [hsplit, hsplit, hnone] at hp
  simpa [unlinkedPaths] using hp

/-- C21 as stated fails when two invocations read the same millisecond: with the clock at
1700000000000, `getConversionMethod` and `checkOfficeAvailability`, both started on a
fresh converter, write and delete the same probe script, and two conversions of Word
documents one after the other write and delete the same temp script. -/
theorem temp_path_shared_in_one_millisecond :
    touchedPaths (newEvents (getConversionMethod posixPath sampleEnv) windowsStart) =
      ["/tmp/office_check_1700000000000.js", "/tmp/office_check_1700000000000.js"] ∧
    touchedPaths (newEvents (checkOfficeAvailability posixPath sampleEnv) windowsStart) =
      ["/tmp/office_check_1700000000000.js", "/tmp/office_check_1700000000000.js"] ∧
    touchedPaths (newEvents (convertWordToPDF posixPath sampleEnv "a.docx" "out/a.pdf")
        windowsStart) =
      ["/tmp/temp_word_script_1700000000000.vbs", "/tmp/temp_word_script_1700000000000.vbs"] ∧
    touchedPaths (newEvents (convertWordToPDF posixPath sampleEnv "b.docx" "out/b.pdf")
        (convertWordToPDF posixPath sampleEnv "a.docx" "out/a.pdf" windowsStart).2) =
      ["/tmp/temp_word_script_1700000000000.vbs", "/tmp/temp_word_script_1700000000000.vbs"] := by
  refine ⟨?_, ?_, ?_, ?_⟩ <;> decide

/-- C21, amended: the temp file of an invocation is named by its operation and by its
reading of `Date.now()`. Where `path.join` separates plain names in the temp folder, the
temp paths of two invocations are the same exactly when the operations are the same and
the clock readings are equal; so when the operations differ or the readings differ, no
write and no delete of a script runner is at the temp file of the other invocation, and no
delete of the image pipeline is. -/
theorem temp_paths_differ (P : NodeLib) (E : Env) (hjoin : JoinSeparates P E.tmpdir)
    (k1 k2 : String × String) (h1 : k1 ∈ tempKinds) (h2 : k2 ∈ tempKinds)
    (log1 log2 : List Event) :
    (scriptPath P E k1.1 k1.2 log1 = scriptPath P E k2.1 k2.2 log2 ↔
      k1 = k2 ∧ E.now log1 = E.now log2) ∧
    tempPngPath P E log1 = scriptPath P E "temp_magick_" ".png" log1 ∧
    (∀ script interp s, k1 ≠ k2 ∨ E.now s.log ≠ E.now log2 →
      scriptPath P E k2.1 k2.2 log2 ∉
        touchedPaths (newEvents (writeAndExecute P E k1.1 k1.2 script interp) s)) ∧
    (∀ inputPath outputPath s, k2 ≠ ("temp_magick_", ".png") ∨
        E.now (s.log ++ [.call .convertImageViaImageMagick [inputPath, outputPath]]) ≠
          E.now log2 →
      scriptPath P E k2.1 k2.2 log2 ∉
        unlinkedPaths (newEvents (convertImageViaImageMagick P E inputPath outputPath) s)) := by
  have key : ∀ (a b : String × String), a ∈ tempKinds → b ∈ tempKinds →
      ∀ la lb : List Event, scriptPath P E a.1 a.2 la = scriptPath P E b.1 b.2 lb →
        a = b ∧ E.now la = E.now lb := by
    intro a b ha hb la lb h
    exact tempName_injective a b ha hb _ _
      (hjoin _ _ (tempName_plain a ha _) (tempName_plain b hb _) h)
  refine ⟨⟨key k1 k2 h1 h2 log1 log2, ?_⟩, rfl, ?_, ?_⟩
  · rintro ⟨rfl, h⟩
    simp only [scriptPath, h]
  · intro script interp s hne hmem
    have := writeAndExecute_touches P E k1.1 k1.2 script interp s _ hmem
    obtain ⟨hk, ht⟩ := key k2 k1 h2 h1 log2 s.log this
    rcases hne with hne | hne
    · exact hne hk.symm
    · exact hne ht.symm
  · intro inputPath outputPath s hne hmem
    have := convertImageViaImageMagick_unlinks P E inputPath outputPath s _ hmem
    obtain ⟨hk, ht⟩ := key k2 ("temp_magick_", ".png") h2 (by decide) log2 _ this
    rcases hne with hne | hne
    · exact hne hk
    · exact hne ht.symm

theorem temp_paths_differ_witness :
    scriptPath posixPath tickingEnv "temp_word_script_" ".vbs" [] ≠
      scriptPath posixPath tickingEnv "temp_excel_script_" ".vbs" [] ∧
    scriptPath posixPath tickingEnv "temp_word_script_" ".vbs" [] ≠
      scriptPath posixPath tickingEnv "temp_word_script_" ".vbs" [.now 1700000000000] :=
  ⟨fun h => absurd ((temp_paths_differ posixPath tickingEnv (posixPath_joinSeparates "/tmp")
      ("temp_word_script_", ".vbs") ("temp_excel_script_", ".vbs") (by decide) (by decide)
      [] []).1.mp h).1 (by decide),
   fun h => absurd ((temp_paths_differ posixPath tickingEnv (posixPath_joinSeparates "/tmp")
      ("temp_word_script_", ".vbs") ("temp_word_script_", ".vbs") (by decide) (by decide)
      [] [.now 1700000000000]).1.mp h).2 (by decide)⟩

end TPP
